import Mathlib

/-! svgedit: text style persistence

A shallow embedding of the style-mapping tables and style accessors of
`packages/svgcanvas/core/text-style-utils.js`, of the style restoration pass
(`restoreTextDivStyles`, as written out in
`cypress/e2e/unit/text-style-restoration.cy.js`) and of the caret and selection
engine of `packages/svgcanvas/core/text-actions.js`, with the properties the
specification states about them.

Modelling conventions:

* A JavaScript object literal used as a lookup table is an association list of
  string pairs; `tbl[key]` looks the key up among the own keys first and then
  among the members every object inherits from `Object.prototype`; an absent
  key is `undefined` (`none`).
* A JavaScript string is a Lean `String`; a string is truthy iff it is not
  empty.  `null`/`undefined` for an element reference is `none`.
* A `CSSStyleDeclaration` (`elem.style`) is an association list from CSS
  property names to values.  Reading a property that is not declared gives the
  empty string.  Assigning a property stores the value verbatim (assigning the
  empty string removes the declaration); value validation, canonicalisation and
  shorthand expansion by the host are not modelled.
* The host environment (CSS parser behind `style.cssText = ...`,
  `window.getComputedStyle`, `parseFloat`, number formatting, the members of
  `Object.prototype`) is a record of functions, `Platform`; every theorem holds
  for every platform.
* The literal `style` attribute of an element and its live style declaration
  are two separate components of an element: the restoration pass exists
  because the two can disagree, and the repository's own test clears
  `style.cssText` and then expects `getAttribute('style')` to be unchanged.
  A setter writes the live declaration; export, which reads the style
  declaration of a box, writes the text of the live declaration as the style
  text of the box.
-/

namespace SvgEdit

/-! ## Style-mapping tables (text-style-utils.js, lines 8-65) -/

/-- A JavaScript object literal whose keys and values are strings. -/
abbrev Table := List (String × String)

/-- Maps SVG text-anchor values to CSS text-align values. -/
def textAnchorToTextAlign : Table :=
  [("start", "left"), ("middle", "center"), ("end", "right"), ("justify", "justify")]

/-- Maps CSS text-align values to SVG text-anchor values. -/
def textAlignToTextAnchor : Table :=
  [("left", "start"), ("center", "middle"), ("right", "end"), ("justify", "justify")]

/-- Maps SVG font-style values to CSS font-style values. -/
def svgFontStyleToCssFontStyle : Table :=
  [("normal", "normal"), ("italic", "italic"), ("oblique", "oblique")]

/-- Maps SVG font-weight values to CSS font-weight values. -/
def svgFontWeightToCssFontWeight : Table :=
  [("normal", "normal"), ("bold", "bold"), ("bolder", "bolder"), ("lighter", "lighter"),
   ("100", "100"), ("200", "200"), ("300", "300"), ("400", "400"), ("500", "500"),
   ("600", "600"), ("700", "700"), ("800", "800"), ("900", "900")]

/-- Maps SVG text-decoration values to CSS text-decoration values. -/
def svgTextDecorationToCssTextDecoration : Table :=
  [("none", "none"), ("underline", "underline"), ("overline", "overline"),
   ("line-through", "line-through")]

/-- The four presentational (text-anchor) alignment keywords. -/
def anchorKeywords : List String := ["start", "middle", "end", "justify"]

/-- The four style (text-align) alignment keywords. -/
def alignKeywords : List String := ["left", "center", "right", "justify"]

/-! ## Elements and their style declarations -/

/-- The live inline style declaration of an element (`elem.style`). -/
abbrev StyleDecl := List (String × String)

/-- Reading `style.<property>`: the declared value, or the empty string. -/
def StyleDecl.getPropertyValue (d : StyleDecl) (property : String) : String :=
  (d.lookup property).getD ""

/-- Assigning `style.<property> = value`: only the declaration of that property
changes.  The empty string removes it; otherwise the value replaces the one
declared, or is added as a new declaration. -/
def StyleDecl.setProperty (d : StyleDecl) (property value : String) : StyleDecl :=
  if value = "" then d.filter (fun decl => decl.1 != property)
  else if d.any (fun decl => decl.1 == property) then
    d.map (fun decl => if decl.1 == property then (property, value) else decl)
  else d ++ [(property, value)]

/-- An element: its tag name, its attributes as written in the markup (the
literal `style` attribute among them), and its live style declaration. -/
structure Elem where
  tagName : String
  attributes : List (String × String)
  style : StyleDecl
deriving DecidableEq, Repr

/-- Result of `elem.getAttribute(name)`: `none` is `null`. -/
def Elem.getAttribute (e : Elem) (name : String) : Option String :=
  e.attributes.lookup name

/-- A JavaScript number as far as the size facet needs it: `NaN` or a finite
value.  Rounding to double precision and the infinities are not modelled. -/
inductive JSNumber where
  | nan
  | num (q : ℚ)
deriving DecidableEq

/-- Truthiness of a number: `NaN` and zero are falsy. -/
def JSNumber.truthy : JSNumber → Bool
  | .nan => false
  | .num q => q != 0

/-- The host environment the accessors and the restoration pass run in. -/
structure Platform where
  /-- the declaration-block parser behind `style.cssText = text` -/
  parseCss : String → StyleDecl
  /-- the declarations of `window.getComputedStyle(elem)` -/
  getComputedStyle : Elem → StyleDecl
  /-- the global `parseFloat` -/
  parseFloat : String → JSNumber
  /-- the string a number turns into when concatenated with a string -/
  numberToString : JSNumber → String
  /-- the string form of the member of `Object.prototype` with the given name
  (`constructor`, `toString`, ...), if there is one -/
  objectPrototype : String → Option String
  /-- the text of a declaration block, as the host gives it when `style.cssText`
  is read and as it keeps it in the `style` attribute once the declaration has
  been written through the object model -/
  cssText : StyleDecl → String

/-- Property lookup `tbl[key]` on an object literal: an own key wins, then a key
inherited from `Object.prototype`; `none` is `undefined`. -/
def Table.get (P : Platform) (tbl : Table) (key : String) : Option String :=
  match tbl.lookup key with
  | some v => some v
  | none => P.objectPrototype key

/-- The value of `value || fallback` for a looked-up string: `undefined` and the
empty string are falsy. -/
def orDefault (value : Option String) (fallback : String) : String :=
  match value with
  | some v => if v != "" then v else fallback
  | none => fallback

/-! ## Style accessors (text-style-utils.js, lines 67-282) -/

/-- The inline value counts: it is truthy and neither `initial` nor `inherit`. -/
def explicitInline (inline : String) : Bool :=
  inline != "" && inline != "initial" && inline != "inherit"

/-- The effect of `.replace(/['"]/g, '')`: every single and double quote is dropped. -/
def removeQuotes (s : String) : String :=
  String.mk (s.data.filter (fun c => c != Char.ofNat 39 && c != Char.ofNat 34))

/-- Get the text-align CSS value from a text div element. -/
def getTextAlignFromDiv (P : Platform) (textDiv : Option Elem) : String :=
  match textDiv with
  | none => "left"
  | some textDiv =>
    let inlineAlign := textDiv.style.getPropertyValue "text-align"
    if explicitInline inlineAlign then inlineAlign
    else
      let computedAlign := (P.getComputedStyle textDiv).getPropertyValue "text-align"
      if computedAlign != "" then computedAlign else "left"

/-- Set the text-align CSS value on a text div element. -/
def setTextAlignOnDiv (textDiv : Option Elem) (textAlign : String) : Option Elem :=
  match textDiv with
  | none => none
  | some textDiv => some { textDiv with style := textDiv.style.setProperty "text-align" textAlign }

/-- Get the equivalent text-anchor value for the current text alignment of a div. -/
def getTextAnchorFromDiv (P : Platform) (textDiv : Option Elem) : String :=
  let textAlign := getTextAlignFromDiv P textDiv
  orDefault (Table.get P textAlignToTextAnchor textAlign) "start"

/-- Set text alignment using text-anchor semantics but applying to div styles. -/
def setTextAnchorOnDiv (P : Platform) (textDiv : Option Elem) (textAnchor : String) :
    Option Elem :=
  let textAlign := orDefault (Table.get P textAnchorToTextAlign textAnchor) "left"
  setTextAlignOnDiv textDiv textAlign

/-- Get font-style from a text div element. -/
def getFontStyleFromDiv (P : Platform) (textDiv : Option Elem) : String :=
  match textDiv with
  | none => "normal"
  | some textDiv =>
    let inlineStyle := textDiv.style.getPropertyValue "font-style"
    if explicitInline inlineStyle then inlineStyle
    else
      let computedStyle := (P.getComputedStyle textDiv).getPropertyValue "font-style"
      if computedStyle != "" then computedStyle else "normal"

/-- Set font-style on a text div element. -/
def setFontStyleOnDiv (textDiv : Option Elem) (fontStyle : String) : Option Elem :=
  match textDiv with
  | none => none
  | some textDiv => some { textDiv with style := textDiv.style.setProperty "font-style" fontStyle }

/-- Get font-weight from a text div element. -/
def getFontWeightFromDiv (P : Platform) (textDiv : Option Elem) : String :=
  match textDiv with
  | none => "normal"
  | some textDiv =>
    let inlineWeight := textDiv.style.getPropertyValue "font-weight"
    if explicitInline inlineWeight then inlineWeight
    else
      let computedWeight := (P.getComputedStyle textDiv).getPropertyValue "font-weight"
      if computedWeight != "" then computedWeight else "normal"

/-- Set font-weight on a text div element. -/
def setFontWeightOnDiv (textDiv : Option Elem) (fontWeight : String) : Option Elem :=
  match textDiv with
  | none => none
  | some textDiv =>
    some { textDiv with style := textDiv.style.setProperty "font-weight" fontWeight }

/-- Get font-family from a text div element. -/
def getFontFamilyFromDiv (P : Platform) (textDiv : Option Elem) : String :=
  match textDiv with
  | none => "Arial"
  | some textDiv =>
    let inlineFamily := textDiv.style.getPropertyValue "font-family"
    if explicitInline inlineFamily then removeQuotes inlineFamily
    else
      let computedFamily := (P.getComputedStyle textDiv).getPropertyValue "font-family"
      if computedFamily != "" then removeQuotes computedFamily else "Arial"

/-- Set font-family on a text div element. -/
def setFontFamilyOnDiv (textDiv : Option Elem) (fontFamily : String) : Option Elem :=
  match textDiv with
  | none => none
  | some textDiv =>
    some { textDiv with style := textDiv.style.setProperty "font-family" fontFamily }

/-- The value of `n || 16` for a number `n`. -/
def orSixteen (n : JSNumber) : JSNumber :=
  if n.truthy then n else .num 16

/-- Get font-size from a text div element (numeric value in pixels). -/
def getFontSizeFromDiv (P : Platform) (textDiv : Option Elem) : JSNumber :=
  match textDiv with
  | none => .num 16
  | some textDiv =>
    let inlineSize := textDiv.style.getPropertyValue "font-size"
    if explicitInline inlineSize then orSixteen (P.parseFloat inlineSize)
    else
      let computedSize := (P.getComputedStyle textDiv).getPropertyValue "font-size"
      orSixteen (P.parseFloat computedSize)

/-- Set font-size on a text div element: the declaration is `fontSize + 'px'`. -/
def setFontSizeOnDiv (P : Platform) (textDiv : Option Elem) (fontSize : JSNumber) :
    Option Elem :=
  match textDiv with
  | none => none
  | some textDiv =>
    some { textDiv with
      style := textDiv.style.setProperty "font-size" (P.numberToString fontSize ++ "px") }

/-- Get text color from a text div element. -/
def getColorFromDiv (P : Platform) (textDiv : Option Elem) : String :=
  match textDiv with
  | none => "#000000"
  | some textDiv =>
    let inlineColor := textDiv.style.getPropertyValue "color"
    if explicitInline inlineColor then inlineColor
    else
      let computedColor := (P.getComputedStyle textDiv).getPropertyValue "color"
      if computedColor != "" then computedColor else "#000000"

/-- Set text color on a text div element. -/
def setColorOnDiv (textDiv : Option Elem) (color : String) : Option Elem :=
  match textDiv with
  | none => none
  | some textDiv => some { textDiv with style := textDiv.style.setProperty "color" color }

/-- Get text-decoration from a text div element. -/
def getTextDecorationFromDiv (P : Platform) (textDiv : Option Elem) : String :=
  match textDiv with
  | none => "none"
  | some textDiv =>
    let inlineDecoration := textDiv.style.getPropertyValue "text-decoration"
    if explicitInline inlineDecoration then inlineDecoration
    else
      let computedDecoration :=
        (P.getComputedStyle textDiv).getPropertyValue "text-decoration"
      if computedDecoration != "" then computedDecoration else "none"

/-- Set text-decoration on a text div element. -/
def setTextDecorationOnDiv (textDiv : Option Elem) (textDecoration : String) : Option Elem :=
  match textDiv with
  | none => none
  | some textDiv =>
    some { textDiv with style := textDiv.style.setProperty "text-decoration" textDecoration }

/-- Helper to check if an element is a foreignObject text element. -/
def isTextForeignObject (element : Option Elem) : Bool :=
  match element with
  | none => false
  | some element =>
    element.tagName == "foreignObject" && element.getAttribute "se:type" == some "text"

/-! ## Documents

A document is the list of its nodes in document order (pre-order); each node
records how many descendants it has, and these are the nodes that directly
follow it.  A node reference is the position of the node in that list, so that
an element can be changed in place while every reference stays valid. -/

/-- A node of a document. -/
structure DomNode where
  elem : Elem
  /-- number of descendants of the node -/
  descendantCount : Nat
deriving DecidableEq, Repr

/-- A document (or any DOM tree): its nodes in document order. -/
abbrev Document := List DomNode

/-- A reference to a node of a document. -/
abbrev NodeRef := Nat

/-- A DOM tree written as a tree; `Tree.toDocument` lists it in document order. -/
inductive Tree where
  | node (elem : Elem) (children : List Tree)

mutual
/-- The nodes of a tree in document order. -/
def Tree.toDocument : Tree → Document
  | .node e children =>
    let below := Tree.listToDocument children
    ⟨e, below.length⟩ :: below
/-- The nodes of a list of sibling trees in document order. -/
def Tree.listToDocument : List Tree → Document
  | [] => []
  | t :: ts => t.toDocument ++ Tree.listToDocument ts
end

/-- The element a reference points to. -/
def Document.elem? (doc : Document) (ref : NodeRef) : Option Elem :=
  (doc[ref]?).map (fun n => n.elem)

/-- The descendants of a node, in document order. -/
def Document.descendants (doc : Document) (ref : NodeRef) : List NodeRef :=
  match doc[ref]? with
  | none => []
  | some n => (List.range n.descendantCount).map (fun k => ref + 1 + k)

/-- Result of `root.querySelectorAll(selector)`: the descendants of `root` that
match, in document order (`root` itself is never part of the result). -/
def Document.querySelectorAll (doc : Document) (root : NodeRef) (selector : Elem → Bool) :
    List NodeRef :=
  (doc.descendants root).filter (fun r =>
    match doc.elem? r with
    | some e => selector e
    | none => false)

/-- Result of `root.querySelector(selector)`: the first matching descendant. -/
def Document.querySelector (doc : Document) (root : NodeRef) (selector : Elem → Bool) :
    Option NodeRef :=
  (doc.querySelectorAll root selector).head?

/-- Result of `elem.getAttribute(name)` for the element behind a reference. -/
def Document.getAttribute (doc : Document) (ref : NodeRef) (name : String) : Option String :=
  (doc.elem? ref).bind (fun e => e.getAttribute name)

/-- In-place change of the element behind a reference. -/
def Document.update (doc : Document) (ref : NodeRef) (f : Elem → Elem) : Document :=
  doc.modify (fun n => { n with elem := f n.elem }) ref

/-- The assignment `elem.style.cssText = text`: the live declaration becomes
what the host parses from the text; the literal attributes stay as they are. -/
def Document.setCssText (P : Platform) (doc : Document) (ref : NodeRef) (text : String) :
    Document :=
  doc.update ref (fun e => { e with style := P.parseCss text })

/-- The selector `foreignObject[se\\:type="text"]`. -/
def textForeignObjectSelector (e : Elem) : Bool :=
  e.tagName == "foreignObject" && e.getAttribute "se:type" == some "text"

/-- The selector `div`. -/
def divSelector (e : Elem) : Bool :=
  e.tagName == "div"

/-! ## Style restoration pass (text-style-restoration.cy.js, lines 56-72) -/

/-- The callback of `textForeignObjects.forEach` in `restoreTextDivStyles`. -/
def restoreTextDiv (P : Platform) (doc : Document) (foreignObject : NodeRef) : Document :=
  match doc.querySelector foreignObject divSelector with
  | none => doc
  | some textDiv =>
    match doc.getAttribute textDiv "style" with
    | none => doc
    | some styleAttr =>
      if styleAttr != "" then
        -- Clear and reapply the styles
        (doc.setCssText P textDiv "").setCssText P textDiv styleAttr
      else doc

/-- The style restoration pass over the subtree below `svgContent`. -/
def restoreTextDivStyles (P : Platform) (doc : Document) (svgContent : Option NodeRef) :
    Document :=
  match svgContent with
  | none => doc
  | some svgContent =>
    let textForeignObjects := doc.querySelectorAll svgContent textForeignObjectSelector
    textForeignObjects.foldl (restoreTextDiv P) doc

/-! ## Reading all seven style facts -/

/-- The seven style facts of a styled box, as the accessors read them. -/
structure StyleFacts where
  alignment : String
  weight : String
  slant : String
  family : String
  size : JSNumber
  color : String
  decoration : String
deriving DecidableEq

/-- Every fact of a box, read through its getter. -/
def readStyleFacts (P : Platform) (textDiv : Option Elem) : StyleFacts :=
  { alignment := getTextAlignFromDiv P textDiv
    weight := getFontWeightFromDiv P textDiv
    slant := getFontStyleFromDiv P textDiv
    family := getFontFamilyFromDiv P textDiv
    size := getFontSizeFromDiv P textDiv
    color := getColorFromDiv P textDiv
    decoration := getTextDecorationFromDiv P textDiv }

/-- The canonical default of every fact. -/
def defaultStyleFacts : StyleFacts :=
  { alignment := "left", weight := "normal", slant := "normal", family := "Arial",
    size := .num 16, color := "#000000", decoration := "none" }

/-! ## The wire format (svg-exec.js is not among the sources) -/

/-- The presentational style attribute names of the wire format. -/
def presentationalAttributes : List String :=
  ["font-family", "font-size", "font-weight", "font-style", "fill", "text-anchor",
   "text-decoration"]

/-- The element carries none of the presentational style attributes. -/
def carriesNoPresentationalAttribute (attributes : List (String × String)) : Bool :=
  presentationalAttributes.all (fun name => (attributes.lookup name).isNone)

/-- Modelled from the spec: an element of the exported markup (the wire format
of section 6), which has a tag, attributes and descendants but no live style
declaration. -/
structure MarkupNode where
  tagName : String
  attributes : List (String × String)
  descendantCount : Nat
deriving DecidableEq, Repr

/-- Modelled from the spec: exported markup, its elements in document order. -/
abbrev Markup := List MarkupNode

/-- A style command of the accessor layer, addressed to one element. -/
inductive StyleCommand where
  | textAlign (value : String)
  | textAnchor (value : String)
  | fontStyle (value : String)
  | fontWeight (value : String)
  | fontFamily (value : String)
  | fontSize (value : JSNumber)
  | color (value : String)
  | textDecoration (value : String)

/-- The setter a style command stands for, applied to a box. -/
def StyleCommand.run (P : Platform) (c : StyleCommand) (textDiv : Option Elem) : Option Elem :=
  match c with
  | .textAlign v => setTextAlignOnDiv textDiv v
  | .textAnchor v => setTextAnchorOnDiv P textDiv v
  | .fontStyle v => setFontStyleOnDiv textDiv v
  | .fontWeight v => setFontWeightOnDiv textDiv v
  | .fontFamily v => setFontFamilyOnDiv textDiv v
  | .fontSize v => setFontSizeOnDiv P textDiv v
  | .color v => setColorOnDiv textDiv v
  | .textDecoration v => setTextDecorationOnDiv textDiv v

/-- The CSS property a style command writes. -/
def StyleCommand.property : StyleCommand → String
  | .textAlign _ => "text-align"
  | .textAnchor _ => "text-align"
  | .fontStyle _ => "font-style"
  | .fontWeight _ => "font-weight"
  | .fontFamily _ => "font-family"
  | .fontSize _ => "font-size"
  | .color _ => "color"
  | .textDecoration _ => "text-decoration"

/-- A setter called on the element behind a reference: the element is changed
in place, and a setter that returns nothing leaves it as it is. -/
def Document.applySetter (doc : Document) (textDiv : NodeRef)
    (setter : Option Elem → Option Elem) : Document :=
  doc.update textDiv (fun e => (setter (some e)).getD e)

/-! ## A reference host

A small concrete platform on which the definitions can be evaluated.  Its
declaration parser is the one written out in `test-svg-text-processing.js`
(lines 62-68): split at `;`, split each rule at `:`, trim, keep the rules that
have a property and a value. -/

/-- The pieces of a character list between separators (`String.prototype.split`
with a one-character separator). -/
def splitOnChar (sep : Char) : List Char → List (List Char)
  | [] => [[]]
  | c :: cs =>
    if c = sep then [] :: splitOnChar sep cs
    else
      match splitOnChar sep cs with
      | [] => [[c]]
      | piece :: pieces => (c :: piece) :: pieces

/-- Whitespace dropped at both ends (`String.prototype.trim`). -/
def trimChars (cs : List Char) : List Char :=
  ((cs.dropWhile Char.isWhitespace).reverse.dropWhile Char.isWhitespace).reverse

/-- The declaration parser of `test-svg-text-processing.js`. -/
def referenceParseCss (styleAttr : String) : StyleDecl :=
  (splitOnChar ';' styleAttr.data).foldl (fun styles rule =>
    match (splitOnChar ':' rule).map trimChars with
    | property :: value :: _ =>
      if property ≠ [] ∧ value ≠ [] then
        StyleDecl.setProperty styles (String.mk property) (String.mk value)
      else styles
    | _ => styles) []

/-- The value of a run of decimal digits read from the left. -/
def digitsValue (acc : Nat) : List Char → Nat
  | [] => acc
  | c :: cs => digitsValue (acc * 10 + (c.toNat - 48)) cs

/-- A `parseFloat` for unsigned decimal numerals `ddd` and `ddd.ddd`, possibly
followed by other text such as a unit; anything else is `NaN`. -/
def referenceParseFloat (s : String) : JSNumber :=
  let cs := s.data.dropWhile Char.isWhitespace
  let whole := cs.takeWhile Char.isDigit
  let rest := cs.dropWhile Char.isDigit
  let fraction :=
    match rest with
    | '.' :: more => more.takeWhile Char.isDigit
    | _ => []
  if whole = [] ∧ fraction = [] then .nan
  else if fraction = [] then .num (digitsValue 0 whole : ℚ)
  else .num ((digitsValue 0 (whole ++ fraction) : ℚ) / (10 ^ fraction.length : ℚ))

/-- The decimal digits of a natural number. -/
def natDigits : Nat → Nat → List Char
  | 0, _ => []
  | fuel + 1, n =>
    if n < 10 then [Char.ofNat (48 + n)]
    else natDigits fuel (n / 10) ++ [Char.ofNat (48 + n % 10)]

/-- Number formatting for whole numbers (other finite values are rounded down). -/
def referenceNumberToString : JSNumber → String
  | .nan => "NaN"
  | .num q =>
    let n := q.floor
    if n < 0 then String.mk ('-' :: natDigits (n.natAbs + 1) n.natAbs)
    else String.mk (natDigits (n.natAbs + 1) n.natAbs)

/-- A serialisation of a declaration block: `property: value` for every
declaration, separated by `; `. -/
def referenceCssText (d : StyleDecl) : String :=
  String.intercalate "; " (d.map (fun decl => decl.1 ++ ": " ++ decl.2))

/-- The names every object inherits from `Object.prototype`. -/
def objectPrototypeNames : List String :=
  ["constructor", "toString", "toLocaleString", "valueOf", "hasOwnProperty",
   "isPrototypeOf", "propertyIsEnumerable", "__proto__", "__defineGetter__",
   "__defineSetter__", "__lookupGetter__", "__lookupSetter__"]

/-- The reference host: no style sheet and no inheritance, so the computed
style of an element consists of its own inline declarations. -/
def referencePlatform : Platform :=
  { parseCss := referenceParseCss
    getComputedStyle := fun e => e.style
    parseFloat := referenceParseFloat
    numberToString := referenceNumberToString
    objectPrototype := fun name =>
      if name ∈ objectPrototypeNames then some ("function " ++ name ++ "() [native code]")
      else none
    cssText := referenceCssText }

end SvgEdit

namespace SvgEdit

/-- What the restoration pass does to one embedded box. -/
def restoreElem (P : Platform) (e : Elem) : Elem :=
  match e.getAttribute "style" with
  | none => e
  | some styleAttr => if styleAttr != "" then { e with style := P.parseCss styleAttr } else e

/-- The part of a node that queries depend on. -/
def DomNode.shape (n : DomNode) : String × List (String × String) × Nat :=
  (n.elem.tagName, n.elem.attributes, n.descendantCount)

/-- Two documents that differ in live style declarations only. -/
def SameShape (d d' : Document) : Prop :=
  ∀ r : NodeRef, (d[r]?).map DomNode.shape = (d'[r]?).map DomNode.shape

/-- The embedded boxes the restoration pass visits below `root`. -/
def Document.textDivs (doc : Document) (root : NodeRef) : List NodeRef :=
  (doc.querySelectorAll root textForeignObjectSelector).filterMap
    (fun foreignObject => doc.querySelector foreignObject divSelector)

/-- A selector that looks at the tag and the attributes only. -/
def Structural (selector : Elem → Bool) : Prop :=
  ∀ e e' : Elem, e.tagName = e'.tagName → e.attributes = e'.attributes → selector e = selector e'

/-- No text container of the document carries a presentational style attribute. -/
def ContainersClean (doc : Document) : Prop :=
  ∀ (r : NodeRef) (e : Elem), doc.elem? r = some e → textForeignObjectSelector e = true →
    carriesNoPresentationalAttribute e.attributes = true

/-- An element of exported markup is a text container. -/
def MarkupNode.isTextContainer (m : MarkupNode) : Bool :=
  m.tagName == "foreignObject" && m.attributes.lookup "se:type" == some "text"

/-- The tree built by the test of the restoration pass
(text-style-restoration.cy.js, lines 11-36): two text containers and one
foreignObject without the type tag, every box with style text and with a live
style declaration that was cleared. -/
def testSvg : Tree :=
  .node ⟨"svg", [], []⟩
    [ .node ⟨"foreignObject", [("se:type", "text")], []⟩
        [ .node ⟨"div", [("style", "color: blue; text-align: left; font-weight: bold;")], []⟩ [] ],
      .node ⟨"foreignObject", [("se:type", "text")], []⟩
        [ .node ⟨"div", [("style", "font-size: 20px; text-align: right; font-style: italic;")],
            []⟩ [] ],
      .node ⟨"foreignObject", [], []⟩
        [ .node ⟨"div", [("style", "color: green;")], []⟩ [] ] ]

/-- A text container on its own, not inside any other element: its box has
style text and a cleared live style declaration. -/
def loneContainer : Tree :=
  .node ⟨"foreignObject", [("se:type", "text")], []⟩
    [ .node ⟨"div", [("style", "text-align: left; font-weight: bold")], []⟩ [] ]

/-- A styled-box shape in a drawing: the live style declaration of the box is
the one its style text declares. -/
def styledShape : Tree :=
  .node ⟨"svg", [], []⟩
    [ .node ⟨"foreignObject", [("se:type", "text"), ("x", "10"), ("y", "20"),
          ("width", "200"), ("height", "50")], []⟩
        [ .node ⟨"div", [("style", "text-align: center; font-weight: bold; font-style: italic")],
            [("text-align", "center"), ("font-weight", "bold"), ("font-style", "italic")]⟩ [] ] ]

/-- The inline declaration of the property does not count for the getter: it is
empty, `initial` or `inherit`. -/
def NoExplicitInline (box : Elem) (property : String) : Prop :=
  box.style.getPropertyValue property = "" ∨
  box.style.getPropertyValue property = "initial" ∨
  box.style.getPropertyValue property = "inherit"

/-- The font family name `Arial Black` written between double quotes. -/
def quotedArialBlack : String :=
  String.mk (Char.ofNat 34 :: "Arial Black".data ++ [Char.ofNat 34])

/-- A host that computes the font family `"Arial Black"`, quotes included, for
every element. -/
def quotedFamilyPlatform : Platform :=
  { referencePlatform with getComputedStyle := fun _ => [("font-family", quotedArialBlack)] }

/-- The box is not the embedded box of any text container of the document. -/
def NotAnEmbeddedBox (doc : Document) (box : NodeRef) : Prop :=
  ∀ (foreignObject : NodeRef) (e : Elem), doc.elem? foreignObject = some e →
    textForeignObjectSelector e = true → doc.querySelector foreignObject divSelector ≠ some box

/-- A string without single and double quote characters. -/
def QuoteFree (s : String) : Prop :=
  ∀ c ∈ s.data, c ≠ Char.ofNat 39 ∧ c ≠ Char.ofNat 34

end SvgEdit

namespace SvgEdit

/-! ## Caret and selection engine (text-actions.js)

Coordinates are rational numbers: rounding to double precision is not
modelled.  Character indices are integers, since the hosting engine reports a
negative character number for a point that hits no character.  A function that
would read a property of `undefined` (a `TypeError`) returns `none`. -/

/-- An entry of `chardata`: the cell of one character, or the last entry for
the cursor at the end of the text, which has neither `y` nor `height`. -/
structure CharData where
  x : ℚ
  y : Option ℚ
  width : ℚ
  height : Option ℚ
deriving DecidableEq

/-- The bounding box `utilsGetBBox(curtext)` reports (`textbb`). -/
structure BBox where
  x : ℚ
  y : ℚ
  width : ℚ
  height : ℚ
deriving DecidableEq

/-- The element `array[index]` for an integer index; `none` is `undefined`. -/
def arrayGet? {α : Type} (array : List α) (index : Int) : Option α :=
  if index < 0 then none else array[index.toNat]?

/-- The character index for a point (`getIndexFromPoint`, lines 246-273).
`getCharNumAtPosition x y` is the answer of `curtext.getCharNumAtPosition` for
the point `(x, y)`. -/
def getIndexFromPoint (chardata : List CharData) (getCharNumAtPosition : ℚ → ℚ → Int)
    (mouseX mouseY : ℚ) : Option Int :=
  -- No content, so return 0
  if chardata.length = 1 then some 0
  else
    -- Determine if cursor should be on left or right of character
    let reported := getCharNumAtPosition mouseX mouseY
    let clamped : Option Int :=
      if reported < 0 then
        -- Out of text range, look at mouse coords
        match chardata[0]? with
        | none => none
        | some first =>
          if mouseX ≤ first.x then some 0 else some ((chardata.length : Int) - 2)
      else if reported ≥ (chardata.length : Int) - 2 then some ((chardata.length : Int) - 2)
      else some reported
    match clamped with
    | none => none
    | some charpos =>
      match arrayGet? chardata charpos with
      | none => none
      | some charbb =>
        let mid := charbb.x + charbb.width / 2
        if mouseX > mid then some (charpos + 1) else some charpos

/-- The start and end position of character `i` as `init` uses them (lines
631-642): the positions the hosting engine reports, corrected by offset and
zoom on a platform without good character positions. -/
def charPositions (getStartPositionOfChar getEndPositionOfChar : Nat → ℚ)
    (supportsGoodTextCharPos : Bool) (zoom contentW : ℚ) (i : Nat) : ℚ × ℚ :=
  let startX := getStartPositionOfChar i
  let endX := getEndPositionOfChar i
  if supportsGoodTextCharPos then (startX, endX)
  else
    let offset := contentW * zoom
    ((startX - offset) / zoom, (endX - offset) / zoom)

/-- The character cells `init` builds for a primitive text shape (lines
610-660).  `len` is `curtext.textContent.length`, `textbb` the bounding box of
the text; the x coordinates of the start and end position of a character come
from the hosting engine.  The loop fills the cells in ascending order and
carries the end position of the last character in `end`, which starts at the
horizontal centre of the bounding box and is used only as such when there is
no character. -/
def initChardata (len : Nat) (textbb : BBox)
    (getStartPositionOfChar getEndPositionOfChar : Nat → ℚ)
    (supportsGoodTextCharPos : Bool) (zoom contentW : ℚ) : List CharData :=
  let filled : List CharData × ℚ :=
    (List.range len).foldl
      (fun (state : List CharData × ℚ) (i : Nat) =>
        let position := charPositions getStartPositionOfChar getEndPositionOfChar
          supportsGoodTextCharPos zoom contentW i
        -- Get a "bbox" equivalent for each character
        (state.1 ++ [⟨position.1, some textbb.y, position.2 - position.1, some textbb.height⟩],
          position.2))
      ([], textbb.x + textbb.width / 2)
  -- Add a last bbox for cursor at end of text
  filled.1 ++ [⟨filled.2, none, 0, none⟩]

/-- The dispatch of `setSelection(start, end, skipInput)` (lines 180-238): a
collapsed range is handed to `setCursor(end)` and the function returns;
`drawSelection` stands for the rest of the function, which selects and
highlights a proper range. -/
def setSelection {α : Type} (setCursor : Int → α) (drawSelection : Int → Int → Bool → α)
    (start endIndex : Int) (skipInput : Bool) : α :=
  if start = endIndex then setCursor endIndex else drawSelection start endIndex skipInput

/-- The selection `setEndSelectionFromPoint(x, y, apply)` asks for (lines
292-299).  `selectionStart` is `textinput.selectionStart`, and `setSelection` is
the function the range is handed to. -/
def setEndSelectionFromPoint {α : Type} (selectionStart : Int) (chardata : List CharData)
    (getCharNumAtPosition : ℚ → ℚ → Int) (setSelection : Int → Int → Bool → α)
    (x y : ℚ) (apply : Bool) : Option α :=
  let i1 := selectionStart
  match getIndexFromPoint chardata getCharNumAtPosition x y with
  | none => none
  | some i2 =>
    let start := min i1 i2
    let endIndex := max i1 i2
    some (setSelection start endIndex (!apply))

/-- The x coordinate of cell `k` (zero when there is no such cell). -/
def cellX (chardata : List CharData) (k : Nat) : ℚ :=
  ((chardata[k]?).map (fun c => c.x)).getD 0

/-- The width of cell `k` (zero when there is no such cell). -/
def cellWidth (chardata : List CharData) (k : Nat) : ℚ :=
  ((chardata[k]?).map (fun c => c.width)).getD 0

/-- The cells are laid out left to right without gaps: no width is negative
and every cell starts where the one before it ends. -/
def LeftToRight (chardata : List CharData) : Prop :=
  (∀ k, k < chardata.length → 0 ≤ cellWidth chardata k) ∧
  (∀ k, k + 1 < chardata.length → cellX chardata (k + 1) = cellX chardata k + cellWidth chardata k)

/-- The hosting engine reports the character whose cell contains the point:
the reported number `i` is that of a character whose cell spans the x
coordinate, or it is negative (no character hit) for a point at or beyond the
left or the right end of the text. -/
def ReportsContainingCell (chardata : List CharData) (i : Int) (x : ℚ) : Prop :=
  (0 ≤ i ∧ i + 1 < chardata.length ∧
    cellX chardata i.toNat ≤ x ∧ x ≤ cellX chardata i.toNat + cellWidth chardata i.toNat) ∨
  (i < 0 ∧ (x ≤ cellX chardata 0 ∨ cellX chardata (chardata.length - 1) ≤ x))

/-- The cells of a text of three characters, each ten units wide, from x = 0. -/
def sampleChardata : List CharData :=
  [⟨0, some 5, 10, some 12⟩, ⟨10, some 5, 10, some 12⟩, ⟨20, some 5, 10, some 12⟩,
   ⟨30, none, 0, none⟩]

/-- A hosting engine for `sampleChardata`: the character whose cell contains
the x coordinate, and -1 outside the text. -/
def sampleCharNumAtPosition (x _y : ℚ) : Int :=
  if x < 0 then -1 else if x < 10 then 0 else if x < 20 then 1 else if x < 30 then 2 else -1

end SvgEdit

namespace SvgEdit

/-! ## Keywords of the identity tables -/

/-- The font-weight keywords `normal|bold|bolder|lighter|100..900`. -/
def fontWeightKeywords : List String :=
  ["normal", "bold", "bolder", "lighter", "100", "200", "300", "400", "500", "600", "700",
   "800", "900"]

/-- The font-style keywords `normal|italic|oblique`. -/
def fontStyleKeywords : List String := ["normal", "italic", "oblique"]

/-- The text-decoration tokens `none|underline|overline|line-through`. -/
def decorationKeywords : List String := ["none", "underline", "overline", "line-through"]

/-! ## Word selection (text-actions.js, lines 364-387)

The text of a shape (`textContent`) is the list of its UTF-16 code units, which
is what `length`, `substr` and the regular expressions of `selectWord` count
and match. -/

/-- The UTF-16 code units of a string: a character outside the Basic
Multilingual Plane is a surrogate pair. -/
def utf16 (s : String) : List Nat :=
  s.data.flatMap (fun c =>
    if c.toNat < 65536 then [c.toNat]
    else [55296 + (c.toNat - 65536) / 1024, 56320 + (c.toNat - 65536) % 1024])

/-- A code unit the class `[a-z\d]` matches under the `i` flag (without the `u`
flag): a letter `a`-`z` or `A`-`Z`, or a digit `0`-`9`.  Without the `u` flag a
code unit of 128 or more never matches an ASCII letter through case
folding. -/
def isWordUnit (c : Nat) : Bool :=
  (97 ≤ c && c ≤ 122) || (65 ≤ c && c ≤ 90) || (48 ≤ c && c ≤ 57)

/-- Result of `str.substr(start, length)`; `length = none` is a call without
the second argument. -/
def substr (str : List Nat) (start : Int) (length : Option Int) : List Nat :=
  let size : Int := str.length
  let intStart : Int := if start < 0 then max (size + start) 0 else min start size
  let intLength : Int :=
    match length with
    | none => size
    | some l => min (max l 0) size
  let intEnd : Int := min (intStart + intLength) size
  (str.drop intStart.toNat).take (intEnd - intStart).toNat

/-- Result of `str.replace(/[a-z\d]+$/i, '')`: the search tries every start
position from the left, and at a position the pattern matches iff a non-empty
run of word units reaches from there to the end of the string; the match is
replaced by the empty string. -/
def replaceTrailingWord : List Nat → List Nat
  | [] => []
  | c :: cs => if (c :: cs).all isWordUnit then [] else c :: replaceTrailingWord cs

/-- Result of `str.match(/^[a-z\d]+/i)`: the longest run of word units at the
start of the string as `m[0]`, or `null` when the string does not start with a
word unit. -/
def matchLeadingWord (str : List Nat) : Option (List Nat) :=
  let run := str.takeWhile isWordUnit
  if run.isEmpty then none else some run

/-- The range `selectWord` computes for the hit index (lines 375-378). -/
def wordRange (str : List Nat) (index : Int) : Int × Int :=
  let first : Int := (replaceTrailingWord (substr str 0 (some index))).length
  let m := matchLeadingWord (substr str index none)
  let last : Int :=
    (match m with
      | some m0 => (m0.length : Int)
      | none => 0) + index
  (first, last)

end SvgEdit

namespace SvgEdit

/-! ## Text-edit mode controller (text-actions.js)

The module keeps its state in variables of a closure (`curtext`, `textinput`,
`cursor`, `selblock`, `blinker`, `chardata`, `textbb`, `matrix`, `lastX`,
`lastY`, `allowDbl`, `currentTextDiv`).  `Editor` holds these variables together
with what the module's calls change outside of it: the callbacks registered on
elements, the live interval timers, the canvas, and the sequence of calls made
to the canvas and to the host document.  Every function of the module is a
function from the editor before the call to the editor after it; `none` is a
`TypeError` (a property of `undefined`/`null`/`false` is read).  Events the
host dispatches as a consequence of a call (for instance `blur` after
`focus()` on another element) are not part of a call: an event is an input of
its own. -/

/-- The string `String.prototype.trim` strips: white space and line
terminators. -/
def isTrimmed (c : Nat) : Bool :=
  c == 9 || c == 10 || c == 11 || c == 12 || c == 13 || c == 32 || c == 160 || c == 5760 ||
  (8192 ≤ c && c ≤ 8202) || c == 8232 || c == 8233 || c == 8239 || c == 8287 || c == 12288 ||
  c == 65279

/-- Result of `str.trim()`. -/
def trim (str : List Nat) : List Nat :=
  ((str.dropWhile isTrimmed).reverse.dropWhile isTrimmed).reverse

/-- An `SVGMatrix`. -/
structure Matrix where
  a : ℚ
  b : ℚ
  c : ℚ
  d : ℚ
  e : ℚ
  f : ℚ
deriving DecidableEq

/-- The input surface `textinput`: its value and its selection. -/
structure TextInput where
  value : List Nat
  selectionStart : Int
  selectionEnd : Int
deriving DecidableEq

/-- The caret, the `line` element with id `text_cursor`: its end points
`(x1, y1, x2, y2)` and its `visibility` and `display` attributes (`none` is an
attribute that was never set). -/
structure CursorLine where
  points : Option (ℚ × ℚ × ℚ × ℚ)
  visibility : Option String
  display : Option String
deriving DecidableEq

/-- The selection highlight, the `path` element with id `text_selectblock`: the
corners of the path `d` (no corner for the empty path) and its `display`
attribute. -/
structure SelectBlock where
  d : List (ℚ × ℚ)
  display : Option String
deriving DecidableEq

/-- A callback registered with `addEventListener`: the element, the event type
and the name of the callback function. -/
structure Listener where
  target : NodeRef
  type : String
  callback : String
deriving DecidableEq

/-- A call the module makes to the canvas (`svgCanvas`) or to the host
document, other than those kept as state of the editor. -/
inductive Effect where
  /-- `svgCanvas.setCurrentMode(mode)` -/
  | setCurrentMode (mode : String)
  /-- `svgCanvas.selectorManager.requestSelector(shape).showGrips(visible)` -/
  | showGrips (shape : Option NodeRef) (visible : Bool)
  /-- `svgCanvas.clearSelection()` -/
  | clearSelection
  /-- `svgCanvas.call(event, [shape])` -/
  | call (event : String) (shape : Option NodeRef)
  /-- `svgCanvas.addToSelection([shape], showGrips)` -/
  | addToSelection (shape : NodeRef) (showGrips : Bool)
  /-- `svgCanvas.deleteSelectedElements()` -/
  | deleteSelectedElements
  /-- `box.focus()` -/
  | focus (box : NodeRef)
  /-- `box.blur()` -/
  | blur (box : NodeRef)
  /-- the live selection is made to span the contents of the box (lines 484-488) -/
  | selectNodeContents (box : NodeRef)
  /-- `textinput.focus()` -/
  | focusInput
  /-- `textinput.blur()` -/
  | blurInput
  /-- `shape.style.cursor = value` -/
  | styleCursor (shape : NodeRef) (value : String)
  /-- `evt.preventDefault()` -/
  | preventDefault
  /-- `range.deleteContents()` on the first range of the live selection -/
  | rangeDeleteContents
  /-- `range.insertNode(newDiv)` for a new `div` whose content is `<br>` -/
  | rangeInsertLineBreak
  /-- the live selection is collapsed to just after the inserted node (lines 103-106) -/
  | selectionAfterLineBreak
  /-- `setTimeout(task, delay)` -/
  | setTimeout (task : String) (delay : Nat)
deriving DecidableEq

/-- Modelled from the spec: the canvas (`svgCanvas`: `setCurrentMode`,
`clearSelection`, `addToSelection`, `deleteSelectedElements`) is not among the
sources.  The canvas has a current mode and a selection, and deleting the
selected elements removes them from the document ("the shape no longer
existing in the document") and leaves nothing selected. -/
structure Canvas where
  currentMode : String
  selectedElements : List NodeRef
  /-- the shapes deleted from the document -/
  removed : List NodeRef
deriving DecidableEq

/-- Modelled from the spec: what a call does to the canvas (see `Canvas`). -/
def Canvas.apply (canvas : Canvas) : Effect → Canvas
  | .setCurrentMode mode => { canvas with currentMode := mode }
  | .clearSelection => { canvas with selectedElements := [] }
  | .addToSelection shape _ =>
    if shape ∈ canvas.selectedElements then canvas
    else { canvas with selectedElements := canvas.selectedElements ++ [shape] }
  | .deleteSelectedElements =>
    { canvas with removed := canvas.removed ++ canvas.selectedElements, selectedElements := [] }
  | _ => canvas

/-- What the module reads from the host document, the hosting engine and the
canvas, and the host functions it calls (`math.js`, `utilities.js` and
`browser.js` are not among the sources). -/
structure TextHost where
  /-- tag name and attributes of an element -/
  element : NodeRef → Elem
  /-- `root.querySelector(selector)` -/
  querySelector : NodeRef → (Elem → Bool) → Option NodeRef
  /-- `node.textContent`, as UTF-16 code units -/
  textContent : NodeRef → List Nat
  /-- whether `node.parentNode` is an element -/
  hasParentNode : NodeRef → Bool
  /-- `utilsGetBBox(shape)` -/
  getBBox : NodeRef → Option BBox
  /-- `getMatrix(shape)` -/
  getMatrix : NodeRef → Matrix
  /-- `matrix.inverse()` -/
  inverse : Matrix → Matrix
  /-- `transformPoint(x, y, matrix)` -/
  transformPoint : ℚ → ℚ → Matrix → ℚ × ℚ
  /-- `svgCanvas.getrootSctm()` -/
  rootSctm : Matrix
  /-- x coordinate of `shape.getStartPositionOfChar(i)` -/
  getStartPositionOfChar : NodeRef → Nat → ℚ
  /-- x coordinate of `shape.getEndPositionOfChar(i)` -/
  getEndPositionOfChar : NodeRef → Nat → ℚ
  /-- `shape.getCharNumAtPosition(pt)` for the point `(x, y)` -/
  getCharNumAtPosition : NodeRef → ℚ → ℚ → Int
  /-- `supportsGoodTextCharPos()` -/
  supportsGoodTextCharPos : Bool
  /-- `svgCanvas.getZoom()` -/
  zoom : ℚ
  /-- `svgCanvas.contentW` -/
  contentW : ℚ
  /-- `textinput.setSelectionRange(start, end)` -/
  setSelectionRange : TextInput → Int → Int → TextInput
  /-- `window.getSelection().rangeCount` -/
  rangeCount : Nat

/-- The variables of the module and what its calls change outside of it. -/
structure Editor where
  /-- `curtext`; `none` is `undefined` or `false` -/
  curtext : Option NodeRef
  /-- `textinput`; `none` before `setInputElem` -/
  textinput : Option TextInput
  /-- `cursor`: the caret element once it has been created -/
  cursor : Option CursorLine
  /-- `selblock`: the selection highlight once it has been created -/
  selblock : Option SelectBlock
  /-- `blinker`: the id of the blink timer -/
  blinker : Option Nat
  chardata : List CharData
  textbb : Option BBox
  matrix : Option Matrix
  lastX : Option ℚ
  lastY : Option ℚ
  /-- `allowDbl`; `undefined` is `false` -/
  allowDbl : Bool
  /-- `currentTextDiv`; `none` is `null` -/
  currentTextDiv : Option NodeRef
  /-- the callbacks registered on elements -/
  listeners : List Listener
  /-- the ids of the live interval timers -/
  intervals : List Nat
  /-- the number of timers created so far -/
  timerCount : Nat
  canvas : Canvas
  /-- the calls made so far, the oldest first -/
  log : List Effect
deriving DecidableEq

/-- A call to the canvas or the host document. -/
def Editor.emit (e : Editor) (effect : Effect) : Editor :=
  { e with canvas := e.canvas.apply effect, log := e.log ++ [effect] }

/-- `target.addEventListener(type, callback)`: registering a callback that is
registered already changes nothing. -/
def Editor.addEventListener (e : Editor) (target : NodeRef) (type callback : String) : Editor :=
  if (⟨target, type, callback⟩ : Listener) ∈ e.listeners then e
  else { e with listeners := e.listeners ++ [⟨target, type, callback⟩] }

/-- `target.removeEventListener(type, callback)`. -/
def Editor.removeEventListener (e : Editor) (target : NodeRef) (type callback : String) :
    Editor :=
  { e with listeners := e.listeners.filter (fun l => l != ⟨target, type, callback⟩) }

/-- `clearInterval(id)`: the timer with that id, if any, is no longer live. -/
def clearInterval (id : Option Nat) (intervals : List Nat) : List Nat :=
  match id with
  | none => intervals
  | some t => intervals.filter (fun i => i != t)

/-- The div inside a text foreignObject (`getTextDiv`, lines 42-45). -/
def getTextDiv (H : TextHost) (fo : Option NodeRef) : Option NodeRef :=
  match fo with
  | none => none
  | some fo =>
    if !isTextForeignObject (some (H.element fo)) then none
    else H.querySelector fo divSelector

/-- `screenToPt(xIn, yIn)` (lines 307-323). -/
def screenToPt (H : TextHost) (e : Editor) (xIn yIn : ℚ) : ℚ × ℚ :=
  let out : ℚ × ℚ := (xIn / H.zoom, yIn / H.zoom)
  match e.matrix with
  | some matrix => H.transformPoint out.1 out.2 (H.inverse matrix)
  | none => out

/-- `ptToScreen(xIn, yIn)` (lines 331-347). -/
def ptToScreen (H : TextHost) (e : Editor) (xIn yIn : ℚ) : ℚ × ℚ :=
  let out : ℚ × ℚ :=
    match e.matrix with
    | some matrix => H.transformPoint xIn yIn matrix
    | none => (xIn, yIn)
  (out.1 * H.zoom, out.2 * H.zoom)

/-- The callback of the blink timer (lines 150-153). -/
def Editor.blink (e : Editor) : Option Editor :=
  match e.cursor with
  | none => none
  | some cursor =>
    let visible := cursor.display == some "none"
    some { e with cursor := some { cursor with display := some (if visible then "inline" else "none") } }

/-- `setCursor(index)` (lines 119-171); `index = none` is a call without
argument.  `getElement('text_cursor')` finds the caret element once it has been
created. -/
def Editor.setCursor (H : TextHost) (index : Option Int) (e : Editor) : Option Editor :=
  match e.textinput with
  | none => none
  | some input =>
    let empty := input.value.isEmpty
    let e := e.emit .focusInput
    -- if (!arguments.length)
    let chosen : Option Int :=
      match index with
      | some index => some index
      | none =>
        if empty then some 0
        else if input.selectionEnd ≠ input.selectionStart then none
        else some input.selectionEnd
    match chosen with
    | none => some e
    | some index =>
      let charbb := arrayGet? e.chardata index
      let input := if !empty then H.setSelectionRange input index index else input
      let cursor : CursorLine := e.cursor.getD ⟨none, none, none⟩
      let e := { e with textinput := some input, cursor := some cursor }
      let e :=
        match e.blinker with
        | some _ => e
        | none =>
          { e with blinker := some (e.timerCount + 1),
                   intervals := e.intervals ++ [e.timerCount + 1],
                   timerCount := e.timerCount + 1 }
      match charbb, e.textbb with
      | some charbb, some textbb =>
        let startPt := ptToScreen H e charbb.x textbb.y
        let endPt := ptToScreen H e charbb.x (textbb.y + textbb.height)
        some { e with
          cursor := some { points := some (startPt.1, startPt.2, endPt.1, endPt.2),
                           visibility := some "visible", display := some "inline" },
          selblock := e.selblock.map (fun (block : SelectBlock) => { block with d := [] }) }
      | _, _ => none

/-- The part of `setSelection` after the test for a collapsed range (lines
186-237): selects and highlights a proper range. -/
def Editor.drawSelection (H : TextHost) (start endIndex : Int) (skipInput : Bool)
    (e : Editor) : Option Editor :=
  let selected : Option (Option TextInput) :=
    if !skipInput then
      match e.textinput with
      | none => none
      | some input => some (some (H.setSelectionRange input start endIndex))
    else some e.textinput
  match selected with
  | none => none
  | some textinput =>
    let selblock : SelectBlock := e.selblock.getD ⟨[], none⟩
    match arrayGet? e.chardata start, arrayGet? e.chardata endIndex, e.cursor, e.textbb with
    | some startbb, some endbb, some cursor, some textbb =>
      let tl := ptToScreen H e startbb.x textbb.y
      let tr := ptToScreen H e (startbb.x + (endbb.x - startbb.x)) textbb.y
      let bl := ptToScreen H e startbb.x (textbb.y + textbb.height)
      let br := ptToScreen H e (startbb.x + (endbb.x - startbb.x)) (textbb.y + textbb.height)
      some { e with
        textinput := textinput,
        cursor := some { cursor with visibility := some "hidden" },
        selblock := some { selblock with d := [tl, tr, br, bl], display := some "inline" } }
    | _, _, _, _ => none

/-- `setSelection(start, end, skipInput)` on the editor (lines 180-238). -/
def Editor.setSelection (H : TextHost) (start endIndex : Int) (skipInput : Bool)
    (e : Editor) : Option Editor :=
  SvgEdit.setSelection (fun index => Editor.setCursor H (some index) e)
    (fun s t skip => Editor.drawSelection H s t skip e) start endIndex skipInput

/-- `getIndexFromPoint(mouseX, mouseY)` on the editor: the cells are `chardata`
and the hosting engine is asked about `curtext`. -/
def Editor.getIndexFromPoint (H : TextHost) (e : Editor) (mouseX mouseY : ℚ) : Option Int :=
  match e.curtext with
  | some curtext =>
    SvgEdit.getIndexFromPoint e.chardata (H.getCharNumAtPosition curtext) mouseX mouseY
  | none => if e.chardata.length = 1 then some 0 else none

/-- `setCursorFromPoint(mouseX, mouseY)` (lines 281-283). -/
def Editor.setCursorFromPoint (H : TextHost) (mouseX mouseY : ℚ) (e : Editor) :
    Option Editor :=
  match Editor.getIndexFromPoint H e mouseX mouseY with
  | none => none
  | some index => Editor.setCursor H (some index) e

/-- `setEndSelectionFromPoint(x, y, apply)` on the editor (lines 292-299). -/
def Editor.setEndSelectionFromPoint (H : TextHost) (x y : ℚ) (apply : Bool) (e : Editor) :
    Option Editor :=
  match e.textinput with
  | none => none
  | some input =>
    let i1 := input.selectionStart
    match Editor.getIndexFromPoint H e x y with
    | none => none
    | some i2 =>
      let start := min i1 i2
      let endIndex := max i1 i2
      Editor.setSelection H start endIndex (!apply) e

/-- The shape `init` works on (lines 603-608): `curtext`, or the first selected
element when `curtext` has no parent node. -/
def Editor.locateText (H : TextHost) (curtext : NodeRef) (e : Editor) :
    Option (NodeRef × Editor) :=
  if !H.hasParentNode curtext then
    -- Result of the ffClone, need to get correct element
    match e.canvas.selectedElements.head? with
    | none => none
    | some selected =>
      some (selected, ({ e with curtext := some selected }).emit (.showGrips (some selected) false))
  else some (curtext, e)

/-- What `init` records for a primitive shape before it restores the selection
(lines 610-660): bounding box, matrix, the `dblclick` callback and the cells. -/
def Editor.recordCells (H : TextHost) (curtext : NodeRef) (textbb : BBox) (e : Editor) :
    Editor :=
  let str := H.textContent curtext
  let len := str.length
  let xform := (H.element curtext).getAttribute "transform"
  let matrix : Option Matrix :=
    match xform with
    | some text => if text != "" then some (H.getMatrix curtext) else none
    | none => none
  let e := ({ e with textbb := some textbb, matrix := matrix }).emit .focusInput
  let e := (e.removeEventListener curtext "dblclick" "selectWord").addEventListener
    curtext "dblclick" "selectWord"
  let cells := initChardata len textbb (H.getStartPositionOfChar curtext)
    (H.getEndPositionOfChar curtext) H.supportsGoodTextCharPos H.zoom H.contentW
  { e with chardata := cells }

/-- `textActions.init()` (lines 584-662). -/
def Editor.init (H : TextHost) (e : Editor) : Option Editor :=
  match e.curtext with
  | none => some e
  | some curtext =>
    -- Handle foreignObject text elements
    if isTextForeignObject (some (H.element curtext)) then
      some { e with currentTextDiv := getTextDiv H (some curtext) }
    else
      -- Original text element handling
      match Editor.locateText H curtext e with
      | none => none
      | some (curtext, e) =>
        match H.getBBox curtext, e.textinput with
        | some textbb, some input =>
          Editor.setSelection H input.selectionStart input.selectionEnd true
            (Editor.recordCells H curtext textbb e)
        | _, _ => none

/-- The styled-box branch of `toEditMode` (lines 478-496). -/
def Editor.editTextDiv (H : TextHost) (e : Editor) : Editor :=
  let e := { e with currentTextDiv := getTextDiv H e.curtext }
  match e.currentTextDiv with
  | some currentTextDiv =>
    -- Enable editing on the div, select all text on first click
    let e := (e.emit (.focus currentTextDiv)).emit (.selectNodeContents currentTextDiv)
    -- Add event listeners for content changes
    let e := e.addEventListener currentTextDiv "input" "handleTextInput"
    let e := e.addEventListener currentTextDiv "blur" "handleTextBlur"
    e.addEventListener currentTextDiv "keydown" "handleTextKeydown"
  | none => e

/-- The first statements of `toEditMode` (lines 473-475). -/
def Editor.enterTextEdit (e : Editor) : Editor :=
  let e := { e with allowDbl := false }
  let e := e.emit (.setCurrentMode "textedit")
  e.emit (.showGrips e.curtext false)

/-- The primitive branch of `toEditMode` (lines 498-511), after `init`. -/
def Editor.placeCursor (H : TextHost) (point : Option (ℚ × ℚ)) (e : Editor) : Option Editor :=
  match e.curtext with
  | none => none
  | some curtext =>
    let e := e.emit (.styleCursor curtext "text")
    let placed : Option Editor :=
      match point with
      | none => Editor.setCursor H none e
      | some (x, y) =>
        let pt := screenToPt H e x y
        Editor.setCursorFromPoint H pt.1 pt.2 e
    placed.map (fun e => e.emit (.setTimeout "allowDbl" 300))

/-- `textActions.toEditMode(x, y)` (lines 472-512), block by block; `point =
none` is a call without arguments. -/
def Editor.toEditMode (H : TextHost) (point : Option (ℚ × ℚ)) (e : Editor) : Option Editor :=
  let e := Editor.enterTextEdit e
  -- Check if this is a foreignObject text element
  if isTextForeignObject (e.curtext.map H.element) then
    some (Editor.editTextDiv H e)
  else
    -- Original text element handling
    match Editor.init H e with
    | none => none
    | some e => Editor.placeCursor H point e

/-- The callback of the timer `toEditMode` starts (lines 509-511). -/
def Editor.allowDblTimeout (e : Editor) : Editor :=
  { e with allowDbl := true }

/-- The cleanup of a styled-box session in `toSelectMode` (lines 521-533). -/
def Editor.cleanupTextDiv (H : TextHost) (e : Editor) : Editor :=
  match e.currentTextDiv with
  | some currentTextDiv =>
    let e := e.removeEventListener currentTextDiv "input" "handleTextInput"
    let e := e.removeEventListener currentTextDiv "blur" "handleTextBlur"
    let e := e.removeEventListener currentTextDiv "keydown" "handleTextKeydown"
    let e := e.emit (.blur currentTextDiv)
    -- Check if empty and delete if so
    let e :=
      if (trim (H.textContent currentTextDiv)).isEmpty then e.emit .deleteSelectedElements
      else e
    { e with currentTextDiv := none }
  | none => e

/-- The cleanup of the caret engine in `toSelectMode` (lines 535-546). -/
def Editor.cleanupCaret (e : Editor) : Editor :=
  let e : Editor := { e with intervals := clearInterval e.blinker e.intervals, blinker := none }
  let e : Editor :=
    { e with selblock := e.selblock.map (fun (block : SelectBlock) =>
        { block with display := some "none" }) }
  let e : Editor :=
    { e with cursor := e.cursor.map (fun (line : CursorLine) =>
        { line with visibility := some "hidden" }) }
  match e.curtext with
  | some curtext => e.emit (.styleCursor curtext "move")
  | none => e

/-- The selection of the shape in `toSelectMode` (lines 548-555). -/
def Editor.selectShape (selectElem : Bool) (e : Editor) : Editor :=
  if selectElem then
    let e := e.emit .clearSelection
    match e.curtext with
    | some curtext =>
      ((e.emit (.styleCursor curtext "move")).emit (.call "selected" (some curtext))).emit
        (.addToSelection curtext true)
    | none => e
  else e

/-- The deletion of an empty primitive shape in `toSelectMode` (lines 557-560). -/
def Editor.deleteEmptyText (H : TextHost) (e : Editor) : Editor :=
  match e.curtext with
  | some curtext =>
    if !isTextForeignObject (some (H.element curtext)) && (H.textContent curtext).length == 0
    then e.emit .deleteSelectedElements
    else e
  | none => e

/-- `textActions.toSelectMode(selectElem)` (lines 518-564), block by block. -/
def Editor.toSelectMode (H : TextHost) (selectElem : Bool) (e : Editor) : Option Editor :=
  let e := e.emit (.setCurrentMode "select")
  -- Handle foreignObject text cleanup
  let e := Editor.cleanupTextDiv H e
  -- Original text element cleanup
  let e := Editor.cleanupCaret e
  let e := Editor.selectShape selectElem e
  -- For regular text elements
  let e := Editor.deleteEmptyText H e
  match e.textinput with
  | none => none
  | some _ => some { e.emit .blurInput with curtext := none }

/-- `handleTextInput` (lines 68-71), the `input` callback of a styled box. -/
def Editor.handleTextInput (e : Editor) : Editor :=
  -- Trigger change event for undo/redo
  e.emit (.call "changed" e.curtext)

/-- `handleTextBlur` (lines 73-76), the `blur` callback of a styled box. -/
def Editor.handleTextBlur (H : TextHost) (e : Editor) : Option Editor :=
  -- Exit text edit mode when div loses focus
  Editor.toSelectMode H true e

/-- `handleTextKeydown` (lines 78-112), the `keydown` callback of a styled box;
`key` is `evt.key`. -/
def Editor.handleTextKeydown (H : TextHost) (key : String) (e : Editor) : Option Editor :=
  -- Handle escape key to exit edit mode
  if key = "Escape" then
    Editor.toSelectMode H true (e.emit .preventDefault)
  -- Handle enter key to create proper line breaks
  else if key = "Enter" then
    let e := e.emit .preventDefault
    let e :=
      if H.rangeCount > 0 then
        ((e.emit .rangeDeleteContents).emit .rangeInsertLineBreak).emit .selectionAfterLineBreak
      else e
    -- Trigger change event for undo/redo
    some (e.emit (.call "changed" e.curtext))
  else some e

/-- `textActions.select(target, x, y)` (lines 396-399). -/
def Editor.select (H : TextHost) (target : NodeRef) (x y : ℚ) (e : Editor) : Option Editor :=
  Editor.toEditMode H (some (x, y)) { e with curtext := some target }

/-- `textActions.start(elem)` (lines 404-407). -/
def Editor.start (H : TextHost) (elem : NodeRef) (e : Editor) : Option Editor :=
  Editor.toEditMode H none { e with curtext := some elem }

/-- `textActions.setInputElem(elem)` (lines 569-571). -/
def Editor.setInputElem (elem : TextInput) (e : Editor) : Editor :=
  { e with textinput := some elem }

/-- `textActions.clear()` (lines 575-579). -/
def Editor.clear (H : TextHost) (e : Editor) : Option Editor :=
  if e.canvas.currentMode = "textedit" then Editor.toSelectMode H false e else some e

/-- `textActions.mouseDown(evt, mouseTarget, startX, startY)` (lines 415-424). -/
def Editor.mouseDown (H : TextHost) (startX startY : ℚ) (e : Editor) : Option Editor :=
  let pt := screenToPt H e startX startY
  match e.textinput with
  | none => none
  | some _ =>
    match Editor.setCursorFromPoint H pt.1 pt.2 (e.emit .focusInput) with
    | none => none
    | some e => some { e with lastX := some startX, lastY := some startY }

/-- `textActions.mouseMove(mouseX, mouseY)` (lines 430-433). -/
def Editor.mouseMove (H : TextHost) (mouseX mouseY : ℚ) (e : Editor) : Option Editor :=
  let pt := screenToPt H e mouseX mouseY
  Editor.setEndSelectionFromPoint H pt.1 pt.2 false e

/-- `textActions.mouseUp(evt, mouseX, mouseY)` (lines 440-460); `target` is
`evt.target`. -/
def Editor.mouseUp (H : TextHost) (target : Option NodeRef) (mouseX mouseY : ℚ) (e : Editor) :
    Option Editor :=
  let pt := screenToPt H e mouseX mouseY
  match Editor.setEndSelectionFromPoint H pt.1 pt.2 true e with
  | none => none
  | some e =>
    match e.lastX, e.lastY with
    | some lastX, some lastY =>
      if target ≠ e.curtext ∧ mouseX < lastX + 2 ∧ mouseX > lastX - 2 ∧
          mouseY < lastY + 2 ∧ mouseY > lastY - 2
      then Editor.toSelectMode H true e
      else some e
    | _, _ => some e

/-- `selectAll(evt)` (lines 354-357); `target` is `evt.target`. -/
def Editor.selectAll (H : TextHost) (target : NodeRef) (e : Editor) : Option Editor :=
  match e.curtext with
  | none => none
  | some curtext =>
    match Editor.setSelection H 0 (H.textContent curtext).length false e with
    | none => none
    | some e => some (e.removeEventListener target "click" "selectAll")

/-- `selectWord(evt)` (lines 364-387); `target` is `evt.target` and
`(pageX, pageY)` the position of the event.  `svgCanvas.$click(target,
selectAll)` registers `selectAll` as a `click` callback. -/
def Editor.selectWord (H : TextHost) (target : NodeRef) (pageX pageY : ℚ) (e : Editor) :
    Option Editor :=
  match e.allowDbl, e.curtext with
  | true, some curtext =>
    let zoom := H.zoom
    let ept := H.transformPoint pageX pageY H.rootSctm
    let mouseX := ept.1 * zoom
    let mouseY := ept.2 * zoom
    let pt := screenToPt H e mouseX mouseY
    match Editor.getIndexFromPoint H e pt.1 pt.2 with
    | none => none
    | some index =>
      let str := H.textContent curtext
      let range := wordRange str index
      match Editor.setSelection H range.1 range.2 false e with
      | none => none
      | some e =>
        -- Set tripleclick
        some ((e.addEventListener target "click" "selectAll").emit
          (.setTimeout "removeSelectAll" 300))
  | _, _ => some e

/-- The callback of the timer `selectWord` starts (lines 384-386). -/
def Editor.removeSelectAllTimeout (target : NodeRef) (e : Editor) : Editor :=
  e.removeEventListener target "click" "selectAll"

/-- The three callbacks `toEditMode` registers on a styled box, each with its
event type. -/
def boxCallbacks : List (String × String) :=
  [("input", "handleTextInput"), ("blur", "handleTextBlur"), ("keydown", "handleTextKeydown")]

/-- The listener is one of the three callbacks of a styled-box session. -/
def Listener.isBoxCallback (l : Listener) : Bool :=
  decide ((l.type, l.callback) ∈ boxCallbacks)

/-- The styled-box callbacks that are registered. -/
def Editor.boxListeners (e : Editor) : List Listener :=
  e.listeners.filter Listener.isBoxCallback

/-- The editor before any call of the module: no variable is set, `chardata`
is empty and no box is current. -/
def Editor.initial (canvas : Canvas) : Editor :=
  { curtext := none, textinput := none, cursor := none, selblock := none, blinker := none,
    chardata := [], textbb := none, matrix := none, lastX := none, lastY := none,
    allowDbl := false, currentTextDiv := none, listeners := [], intervals := [],
    timerCount := 0, canvas := canvas, log := [] }

/-! ## A reference text host

A drawing with two styled-box shapes (nodes 1 and 3, with their boxes 2 and 4)
and a primitive text shape (node 5), used to evaluate the controller on
concrete inputs. -/

/-- The drawing of the reference text host. -/
def sampleDrawing : Tree :=
  .node ⟨"svg", [], []⟩
    [.node ⟨"foreignObject", [("se:type", "text")], []⟩ [.node ⟨"div", [], []⟩ []],
     .node ⟨"foreignObject", [("se:type", "text")], []⟩ [.node ⟨"div", [], []⟩ []],
     .node ⟨"text", [], []⟩ []]

/-- `setSelectionRange(start, end)` of an input element: an offset beyond the
value is the end of the value, and an end before the start collapses the
selection to the end. -/
def referenceSetSelectionRange (input : TextInput) (start endIndex : Int) : TextInput :=
  let size : Int := input.value.length
  let last := min (max endIndex 0) size
  let first := min (min (max start 0) size) last
  { input with selectionStart := first, selectionEnd := last }

/-- The reference text host: the nodes of `sampleDrawing` with the given text
contents, no transformation, zoom 1, characters ten units wide. -/
def sampleTextHost (textContent : NodeRef → List Nat) : TextHost :=
  { element := fun node => (sampleDrawing.toDocument.elem? node).getD ⟨"", [], []⟩,
    querySelector := fun root selector => sampleDrawing.toDocument.querySelector root selector,
    textContent := textContent,
    hasParentNode := fun _ => true,
    getBBox := fun node => some ⟨0, 5, 10 * (textContent node).length, 12⟩,
    getMatrix := fun _ => ⟨1, 0, 0, 1, 0, 0⟩,
    inverse := fun matrix => matrix,
    transformPoint := fun x y _ => (x, y),
    rootSctm := ⟨1, 0, 0, 1, 0, 0⟩,
    getStartPositionOfChar := fun _ i => 10 * i,
    getEndPositionOfChar := fun _ i => 10 * i + 10,
    getCharNumAtPosition := fun node x _ =>
      if x < 0 then -1
      else if x < 10 * (textContent node).length then ⌊x / 10⌋
      else -1,
    supportsGoodTextCharPos := true,
    zoom := 1,
    contentW := 0,
    setSelectionRange := referenceSetSelectionRange,
    rangeCount := 1 }

/-- The editor once the input surface is installed, with an empty value. -/
def sampleEditor : Editor :=
  Editor.setInputElem ⟨[], 0, 0⟩ (Editor.initial ⟨"select", [], []⟩)

end SvgEdit

namespace SvgEdit

/-- The text contents of the reference drawing while the primitive shape
(node 5) reads `ab cd` and the boxes are empty. -/
def sampleTextContent (node : NodeRef) : List Nat :=
  if node = 5 then [97, 98, 32, 99, 100] else []

/-- An editor in the middle of a caret session on the primitive shape of the
reference drawing (node 5, text `ab cd`), with double-click allowed. -/
def sampleSession : Editor :=
  { curtext := some 5,
    textinput := some ⟨[97, 98, 32, 99, 100], 0, 0⟩,
    cursor := some ⟨some (0, 5, 0, 17), some "visible", some "inline"⟩,
    selblock := none,
    blinker := some 1,
    chardata := [⟨0, some 5, 10, some 12⟩, ⟨10, some 5, 10, some 12⟩, ⟨20, some 5, 10, some 12⟩,
      ⟨30, some 5, 10, some 12⟩, ⟨40, some 5, 10, some 12⟩, ⟨50, none, 0, none⟩],
    textbb := some ⟨0, 5, 50, 12⟩,
    matrix := none, lastX := none, lastY := none,
    allowDbl := true,
    currentTextDiv := none,
    listeners := [⟨5, "dblclick", "selectWord"⟩],
    intervals := [1],
    timerCount := 1,
    canvas := ⟨"textedit", [5], []⟩,
    log := [] }

end SvgEdit

namespace SvgEdit

/-- An editor in the middle of a session on the first styled-box shape of the
reference drawing (node 1, box 2): the editor `start` returns for that shape
when the shape is selected. -/
def sampleBoxSession : Editor :=
  { sampleEditor with
    curtext := some 1,
    currentTextDiv := some 2,
    listeners := [⟨2, "input", "handleTextInput"⟩, ⟨2, "blur", "handleTextBlur"⟩,
      ⟨2, "keydown", "handleTextKeydown"⟩],
    canvas := ⟨"textedit", [1], []⟩,
    log := [.setCurrentMode "textedit", .showGrips (some 1) false, .focus 2,
      .selectNodeContents 2] }

end SvgEdit

namespace SvgEdit

/-! ## Runs of the controller -/

/-- A call of the module from outside: a function of `textActions`, an event
delivered to one of the module's callbacks, or a timer of the module firing. -/
inductive Call where
  | select (target : NodeRef) (x y : ℚ)
  | start (elem : NodeRef)
  | toEditMode (point : Option (ℚ × ℚ))
  | toSelectMode (selectElem : Bool)
  | clear
  | init
  | setInputElem (elem : TextInput)
  | setCursor (index : Option Int)
  | mouseDown (startX startY : ℚ)
  | mouseMove (mouseX mouseY : ℚ)
  | mouseUp (target : Option NodeRef) (mouseX mouseY : ℚ)
  /-- an `input` event on a styled box (`handleTextInput`) -/
  | input
  /-- a `blur` event on a styled box (`handleTextBlur`) -/
  | blur
  /-- a `keydown` event on a styled box (`handleTextKeydown`) -/
  | keydown (key : String)
  /-- a `dblclick` event on a primitive shape (`selectWord`) -/
  | dblclick (target : NodeRef) (pageX pageY : ℚ)
  /-- a `click` event after a double-click (`selectAll`) -/
  | click (target : NodeRef)
  /-- the blink timer fires -/
  | blink
  /-- the timer of `toEditMode` fires -/
  | allowDblTimeout
  /-- the timer of `selectWord` fires -/
  | removeSelectAllTimeout (target : NodeRef)

/-- The editor after a call. -/
def Call.run (H : TextHost) : Call → Editor → Option Editor
  | .select target x y, e => Editor.select H target x y e
  | .start elem, e => Editor.start H elem e
  | .toEditMode point, e => Editor.toEditMode H point e
  | .toSelectMode selectElem, e => Editor.toSelectMode H selectElem e
  | .clear, e => Editor.clear H e
  | .init, e => Editor.init H e
  | .setInputElem elem, e => some (Editor.setInputElem elem e)
  | .setCursor index, e => Editor.setCursor H index e
  | .mouseDown startX startY, e => Editor.mouseDown H startX startY e
  | .mouseMove mouseX mouseY, e => Editor.mouseMove H mouseX mouseY e
  | .mouseUp target mouseX mouseY, e => Editor.mouseUp H target mouseX mouseY e
  | .input, e => some (Editor.handleTextInput e)
  | .blur, e => Editor.handleTextBlur H e
  | .keydown key, e => Editor.handleTextKeydown H key e
  | .dblclick target pageX pageY, e => Editor.selectWord H target pageX pageY e
  | .click target, e => Editor.selectAll H target e
  | .blink, e => Editor.blink e
  | .allowDblTimeout, e => some (Editor.allowDblTimeout e)
  | .removeSelectAllTimeout target, e => some (Editor.removeSelectAllTimeout target e)

/-- The discipline of the callers: `select` and `start` are called on a shape
only while no other shape is current (an earlier session has been ended with
`toSelectMode`), and the caret is set and the pointer is followed only while a
shape is current. -/
def Call.allowed : Call → Editor → Bool
  | .select target _ _, e => e.curtext == none || e.curtext == some target
  | .start elem, e => e.curtext == none || e.curtext == some elem
  | .setCursor _, e => e.curtext != none
  | .mouseDown _ _, e => e.curtext != none
  | .mouseMove _ _, e => e.curtext != none
  | .mouseUp _ _ _, e => e.curtext != none
  | _, _ => true

/-- Two hosts show the same elements with the same nesting; text contents and
geometry may differ. -/
def TextHost.SameStructure (H H' : TextHost) : Prop :=
  H'.element = H.element ∧ H'.querySelector = H.querySelector

/-- The editors reached from the initial one by calls that keep the discipline
of `Call.allowed`, on hosts of one structure; between calls the host may
change the canvas and the input surface. -/
inductive Editor.Reachable (H : TextHost) (canvas : Canvas) : Editor → Prop
  | initial : Editor.Reachable H canvas (Editor.initial canvas)
  | call (H' : TextHost) (c : Call) (e e' : Editor) :
      Editor.Reachable H canvas e → H.SameStructure H' → c.allowed e = true →
      c.run H' e = some e' → Editor.Reachable H canvas e'
  | host (e : Editor) (canvas' : Canvas) (input : TextInput) :
      Editor.Reachable H canvas e →
      Editor.Reachable H canvas
        { e with canvas := canvas', textinput := e.textinput.map (fun _ => input) }

/-- The calls of a list, one after the other on one host, as long as each is
allowed and returns. -/
def Editor.runCalls (H : TextHost) : List Call → Editor → Option Editor
  | [], e => some e
  | c :: rest, e =>
    if c.allowed e then
      match c.run H e with
      | none => none
      | some e' => Editor.runCalls H rest e'
    else none

/-- At most one shape is in an edit session: every styled-box callback that is
registered is registered on the current box, the current box (if any) is the
box of the current shape, the only live interval timer is the recorded blink
timer, and while no shape is current no blink timer is recorded. -/
def Editor.Exclusive (H : TextHost) (e : Editor) : Prop :=
  (∀ l ∈ e.boxListeners, some l.target = e.currentTextDiv) ∧
  (∀ box, e.currentTextDiv = some box → getTextDiv H e.curtext = some box) ∧
  e.intervals = e.blinker.toList ∧
  (e.curtext = none → e.blinker = none)

end SvgEdit

namespace SvgEdit

/-! ## Export and import (svg-exec.js is not among the sources) -/

/-- The attributes of an element with its style text replaced; no `style`
attribute is written for an empty text. -/
def withStyleText (attributes : List (String × String)) (text : String) :
    List (String × String) :=
  StyleDecl.setProperty attributes "style" text

/-- Modelled from the spec: the attributes an element is written with on export.
Section 2: "Save → Serialization Boundary reads the box's style declaration";
section 6: export "must emit the embedded box's inline style text verbatim
(order of declarations need not be stable, values must be)".  The embedded box
of a text container is written with the text of its live style declaration as
its style text; every other element is written with the attributes it
carries. -/
def exportedAttributes (P : Platform) (doc : Document) (ref : NodeRef) (e : Elem) :
    List (String × String) :=
  if ref ∈ doc.textDivs 0 then withStyleText e.attributes (P.cssText e.style) else e.attributes

/-- Modelled from the spec: the export path (`getSvgString`, in svg-exec.js,
which is missing from the sources).  Every element is written with its tag and
with `exportedAttributes`; "serializing a document must not introduce
presentational style attributes onto a styled-box container" (section 6), and
no attribute is added or dropped apart from the style text of the embedded
boxes. -/
def exportMarkup (P : Platform) (doc : Document) : Markup :=
  doc.enum.map (fun (ref, n) =>
    ⟨n.elem.tagName, exportedAttributes P doc ref n.elem, n.descendantCount⟩)

/-- Modelled from the spec: the markup parser of the import path, which is
missing from the sources.  A parsed element keeps every literal attribute.  An
element without style text has an empty style declaration; for one with style
text "the object model backing the live style properties is not guaranteed
populated" (section 4.3): `detached ref` is whatever live declaration the
parser left on the node `ref`. -/
def parseMarkup (detached : NodeRef → StyleDecl) (markup : Markup) : Document :=
  markup.enum.map (fun (ref, m) =>
    ⟨⟨m.tagName, m.attributes,
      if (m.attributes.lookup "style").getD "" != "" then detached ref else []⟩,
     m.descendantCount⟩)

/-- Modelled from the spec: the legacy presentational attributes of section 6,
each with the style command that writes its fact onto a box: the setter of the
accessor layer for that facet (the size attribute is a number, the anchor goes
through the alignment table, `fill` is the color). -/
def legacyStyleCommands (P : Platform) : List (String × (String → StyleCommand)) :=
  [("font-family", fun v => .fontFamily v),
   ("font-size", fun v => .fontSize (P.parseFloat v)),
   ("font-weight", fun v => .fontWeight v),
   ("font-style", fun v => .fontStyle v),
   ("fill", fun v => .color v),
   ("text-anchor", fun v => .textAnchor v),
   ("text-decoration", fun v => .textDecoration v)]

/-- Modelled from the spec: the facts to migrate onto a box whose inline style
declares `declared`: one for every legacy attribute the container carries
while the box is "lacking matching inline style" (section 8), that is, while
`declared` has no declaration of the property. -/
def legacyFactsToMigrate (P : Platform) (container : Elem) (declared : StyleDecl) :
    List StyleCommand :=
  (legacyStyleCommands P).filterMap (fun entry =>
    match container.getAttribute entry.1 with
    | some value =>
      if declared.getPropertyValue (entry.2 value).property = "" then some (entry.2 value)
      else none
    | none => none)

/-- The declaration block the style text of an element stands for. -/
def declaredStyle (P : Platform) (box : Elem) : StyleDecl :=
  match box.getAttribute "style" with
  | some styleAttr => P.parseCss styleAttr
  | none => []

/-- Modelled from the spec: the migration of section 6 on one box.  "Facts are
synthesized onto the inline style declaration from the legacy attributes before
Style Restoration runs": the facts to migrate are written, by their setters,
onto the declaration block of the style text, and the style text becomes the
text of the result, which the restoration pass then materialises.  A box with
nothing to migrate keeps its style text verbatim. -/
def migrateLegacyAttributes (P : Platform) (container box : Elem) : Elem :=
  match legacyFactsToMigrate P container (declaredStyle P box) with
  | [] => box
  | command :: commands =>
    let synthesized := (command :: commands).foldl
      (fun (e : Elem) c => (c.run P (some e)).getD e) { box with style := declaredStyle P box }
    { box with attributes := withStyleText box.attributes (P.cssText synthesized.style) }

/-- Modelled from the spec: the migration on the embedded box of one text
container. -/
def migrateTextDiv (P : Platform) (doc : Document) (foreignObject : NodeRef) : Document :=
  match doc.elem? foreignObject, doc.querySelector foreignObject divSelector with
  | some container, some textDiv => doc.update textDiv (migrateLegacyAttributes P container)
  | _, _ => doc

/-- Modelled from the spec: the migration over every text container below
`svgContent`, the containers the restoration pass visits. -/
def migrateLegacyStyles (P : Platform) (doc : Document) (svgContent : NodeRef) : Document :=
  (doc.querySelectorAll svgContent textForeignObjectSelector).foldl (migrateTextDiv P) doc

/-- Modelled from the spec: the import path (`setSvgString`, in svg-exec.js,
which is missing from the sources).  Section 2: "Load → markup parsed → Style
Restoration Pass"; section 6: import must "tolerate a styled-box container
whose embedded box has its style expressed via legacy presentational attributes
instead of an inline style declaration (migration/back-compat path) — in that
case, facts are synthesized onto the inline style declaration from the legacy
attributes before Style Restoration runs".  The migration and the pass run on
the root of the parsed document.  The markup is given as parsed elements, so
the failure result for text that does not parse does not arise. -/
def loadMarkup (P : Platform) (detached : NodeRef → StyleDecl) (markup : Markup) : Document :=
  restoreTextDivStyles P (migrateLegacyStyles P (parseMarkup detached markup) 0) (some 0)

/-- One save/load cycle: export, then load what was exported. -/
def saveLoadCycle (P : Platform) (detached : NodeRef → StyleDecl) (doc : Document) : Document :=
  loadMarkup P detached (exportMarkup P doc)

/-- Nothing is left to migrate onto a box whose declaration block is
`declared`: every text container that owns the box carries a legacy attribute
only next to a declaration of the matching property. -/
def NothingToMigrate (P : Platform) (doc : Document) (textDiv : NodeRef)
    (declared : StyleDecl) : Prop :=
  ∀ (foreignObject : NodeRef) (container : Elem),
    doc.elem? foreignObject = some container → textForeignObjectSelector container = true →
    doc.querySelector foreignObject divSelector = some textDiv →
    legacyFactsToMigrate P container declared = []

/-- The part of a node that neither a style command, nor the restoration pass,
nor a save/load cycle changes: tag, attributes other than `style`, descendants. -/
def DomNode.skeleton (n : DomNode) : String × List (String × String) × Nat :=
  (n.elem.tagName, n.elem.attributes.filter (fun a => a.1 != "style"), n.descendantCount)

/-- Two documents that differ in style text and live style declarations only. -/
def SameTree (d d' : Document) : Prop :=
  ∀ r : NodeRef, (d[r]?).map DomNode.skeleton = (d'[r]?).map DomNode.skeleton

/-- A selector that looks at the tag and at attributes other than `style`. -/
def StyleBlind (selector : Elem → Bool) : Prop :=
  ∀ e e' : Elem, e.tagName = e'.tagName →
    e.attributes.filter (fun a => a.1 != "style") = e'.attributes.filter (fun a => a.1 != "style") →
    selector e = selector e'

/-! ## Editing sessions -/

/-- The drawing a session starts from: a root without shapes. -/
def emptyDrawing : Document := [⟨⟨"svg", [], []⟩, 0⟩]

/-- Modelled from the spec: creation of a styled-box text shape by the text
tool (the canvas code is missing from the sources).  Section 3: "a container
element with positioning-only attributes (coordinates, width, height, a type
tag) that owns exactly one embedded, independently styled, directly editable
text box.  Styling is carried exclusively as a style declaration on the
embedded box".  The shape becomes the last child of the root; `style` is the
declaration the box starts with. -/
def createTextShape (doc : Document) (x y width height : String) (style : StyleDecl) :
    Document :=
  match doc with
  | [] => []
  | root :: rest =>
    { root with descendantCount := root.descendantCount + 2 } :: rest ++
      [⟨⟨"foreignObject",
          [("se:type", "text"), ("x", x), ("y", y), ("width", width), ("height", height)], []⟩, 1⟩,
       ⟨⟨"div", [], style⟩, 0⟩]

/-- Modelled from the spec: a step of an editing session as far as styles and
markup go (the canvas code that issues the steps is missing from the sources):
a new shape, a style command on some element, a restoration pass, a load of
some markup, or a save/load cycle of the drawing.  A style command reaches the
box through the accessor layer (section 2) and is the setter of
text-style-utils.js for its facet, which "writes the inline declaration only;
never touches presentational attributes on the container" (section 4.2). -/
inductive SessionStep where
  | create (x y width height : String) (style : StyleDecl)
  | command (textDiv : NodeRef) (c : StyleCommand)
  | restore (svgContent : Option NodeRef)
  | load (detached : NodeRef → StyleDecl) (markup : Markup)
  | saveLoad (detached : NodeRef → StyleDecl)

/-- The drawing after a step. -/
def SessionStep.run (P : Platform) (doc : Document) : SessionStep → Document
  | .create x y width height style => createTextShape doc x y width height style
  | .command textDiv c => doc.applySetter textDiv (c.run P)
  | .restore svgContent => restoreTextDivStyles P doc svgContent
  | .load detached markup => loadMarkup P detached markup
  | .saveLoad detached => saveLoadCycle P detached doc

/-- No text container of the markup carries a presentational style attribute. -/
def Markup.containersClean (markup : Markup) : Bool :=
  markup.all (fun m => !m.isTextContainer || carriesNoPresentationalAttribute m.attributes)

/-- The step loads no markup with legacy attributes on a text container. -/
def SessionStep.loadsCleanMarkup : SessionStep → Bool
  | .load _ markup => markup.containersClean
  | _ => true

/-- The markup of the repository's export test
(text-foreignobject-persistence.cy.js, lines 260-269): a text container that
carries all seven legacy attributes next to a box with matching style text. -/
def legacyMarkup : Markup :=
  [⟨"svg", [("width", "640"), ("height", "480")], 3⟩,
   ⟨"g", [], 2⟩,
   ⟨"foreignObject",
      [("x", "100"), ("y", "100"), ("width", "250"), ("height", "50"), ("se:type", "text"),
       ("font-size", "22"), ("font-family", "monospace"), ("font-weight", "bold"),
       ("font-style", "italic"), ("fill", "#ff6b35"), ("text-anchor", "start"),
       ("text-decoration", "underline overline")], 1⟩,
   ⟨"div",
      [("style", "font-size: 22px; font-family: monospace; font-weight: bold; font-style: italic; color: #ff6b35; text-align: left; text-decoration: underline overline;")],
      0⟩]

/-- The markup of the second scenario of section 8: a text container with the
legacy attributes font-weight bold and text-anchor end, and a box without
style text. -/
def legacyScenarioMarkup : Markup :=
  [⟨"svg", [], 2⟩,
   ⟨"foreignObject",
      [("se:type", "text"), ("x", "10"), ("y", "20"), ("width", "200"), ("height", "50"),
       ("font-weight", "bold"), ("text-anchor", "end")], 1⟩,
   ⟨"div", [], 0⟩]

/-- Seven style commands, one for each fact. -/
def sevenCommands : List StyleCommand :=
  [.textAnchor "end", .fontWeight "normal", .fontStyle "italic", .fontFamily "Verdana",
   .fontSize (.num 24), .color "red", .textDecoration "underline"]

/-- The styled-box shape after the seven commands ran on its box (node 2). -/
def editedShape : Document :=
  sevenCommands.foldl (fun d c => d.applySetter 2 (c.run referencePlatform)) styledShape.toDocument

end SvgEdit

namespace SvgEdit

/-- The markup of the repository's restoration test
(text-encoding-restoration.cy.js, lines 61-70): a text container with
positioning attributes only and a box with style text. -/
def restoredTestMarkup : Markup :=
  [⟨"svg", [("width", "640"), ("height", "480")], 3⟩,
   ⟨"g", [("class", "layer")], 2⟩,
   ⟨"foreignObject",
      [("x", "100"), ("y", "100"), ("width", "200"), ("height", "50"), ("se:type", "text")], 1⟩,
   ⟨"div",
      [("style", "font-size: 24px; color: red; text-align: right; font-weight: bold; font-style: italic; text-decoration: underline;")],
      0⟩]

/-- A session after the repository's encoding test
(text-encoding-restoration.cy.js, lines 14-57): the markup above is loaded, a
text shape is created (nodes 4 and 5), made bold and italic and anchored at
start, and the drawing goes through a save/load cycle. -/
def encodingSession : List SessionStep :=
  [.load (fun _ => []) restoredTestMarkup,
   .create "200" "150" "200" "50" [],
   .command 5 (.fontWeight "bold"),
   .command 5 (.fontStyle "italic"),
   .command 5 (.textAnchor "start"),
   .restore (some 0),
   .saveLoad (fun _ => [("color", "green")])]

end SvgEdit

/-! # Properties -/

namespace SvgEdit

/-! ## Style declarations -/

theorem lookup_cons_ite (k v p : String) (tl : StyleDecl) :
    List.lookup p ((k, v) :: tl) = if p = k then some v else List.lookup p tl := by
  rw [List.lookup_cons]
  by_cases h : p = k
  · simp [h]
  · have h2 : (p == k) = false := by simpa using h
    simp [h, h2]

theorem filter_cons_ite (k v p : String) (tl : StyleDecl) :
    List.filter (fun decl => decl.1 != p) ((k, v) :: tl)
      = if k = p then List.filter (fun decl => decl.1 != p) tl
        else (k, v) :: List.filter (fun decl => decl.1 != p) tl := by
  by_cases h : k = p
  · simp [List.filter_cons, h]
  · simp [List.filter_cons, h]

theorem lookup_filter_self (d : StyleDecl) (p : String) :
    (d.filter (fun decl => decl.1 != p)).lookup p = none := by
  induction d with
  | nil => rfl
  | cons hd tl ih =>
    obtain ⟨k, v⟩ := hd
    rw [filter_cons_ite]
    by_cases h : k = p
    · rw [if_pos h]; exact ih
    · rw [if_neg h, lookup_cons_ite, if_neg (fun e => h e.symm)]; exact ih

theorem lookup_filter_of_ne (d : StyleDecl) (p q : String) (hq : q ≠ p) :
    (d.filter (fun decl => decl.1 != p)).lookup q = d.lookup q := by
  induction d with
  | nil => rfl
  | cons hd tl ih =>
    obtain ⟨k, v⟩ := hd
    rw [filter_cons_ite, lookup_cons_ite]
    by_cases h : k = p
    · rw [if_pos h, if_neg (by rw [h]; exact hq)]; exact ih
    · rw [if_neg h, lookup_cons_ite, ih]

theorem lookup_map_set (d : StyleDecl) (p v : String) (h : d.any (fun decl => decl.1 == p) = true) :
    (d.map (fun decl => if decl.1 == p then (p, v) else decl)).lookup p = some v := by
  induction d with
  | nil => simp at h
  | cons hd tl ih =>
    obtain ⟨k, w⟩ := hd
    rw [List.map_cons]
    by_cases hk : k = p
    · have : (if (k, w).1 == p then (p, v) else (k, w)) = (p, v) := by simp [hk]
      rw [this, lookup_cons_ite, if_pos rfl]
    · have h3 : tl.any (fun decl => decl.1 == p) = true := by simpa [hk] using h
      have : (if (k, w).1 == p then (p, v) else (k, w)) = (k, w) := by simp [hk]
      rw [this, lookup_cons_ite, if_neg (fun e => hk e.symm)]
      exact ih h3

theorem lookup_map_set_of_ne (d : StyleDecl) (p v q : String) (hq : q ≠ p) :
    (d.map (fun decl => if decl.1 == p then (p, v) else decl)).lookup q = d.lookup q := by
  induction d with
  | nil => rfl
  | cons hd tl ih =>
    obtain ⟨k, w⟩ := hd
    rw [List.map_cons]
    by_cases hk : k = p
    · have : (if (k, w).1 == p then (p, v) else (k, w)) = (p, v) := by simp [hk]
      rw [this, lookup_cons_ite, lookup_cons_ite, if_neg hq, if_neg (by rw [hk]; exact hq)]
      exact ih
    · have : (if (k, w).1 == p then (p, v) else (k, w)) = (k, w) := by simp [hk]
      rw [this, lookup_cons_ite, lookup_cons_ite, ih]

theorem lookup_append_of_not_any (d : StyleDecl) (p v : String)
    (h : ¬ d.any (fun decl => decl.1 == p) = true) :
    (d ++ [(p, v)]).lookup p = some v := by
  induction d with
  | nil => rw [List.nil_append, lookup_cons_ite, if_pos rfl]
  | cons hd tl ih =>
    obtain ⟨k, w⟩ := hd
    have hk : k ≠ p := by
      intro e; apply h; simp [e]
    have h3 : ¬ tl.any (fun decl => decl.1 == p) = true := by
      intro e; apply h; simp [List.any_cons, e]
    rw [List.cons_append, lookup_cons_ite, if_neg (fun e => hk e.symm)]
    exact ih h3

theorem lookup_append_of_ne (d : StyleDecl) (p v q : String) (hq : q ≠ p) :
    (d ++ [(p, v)]).lookup q = d.lookup q := by
  induction d with
  | nil => rw [List.nil_append, lookup_cons_ite, if_neg hq]
  | cons hd tl ih =>
    obtain ⟨k, w⟩ := hd
    rw [List.cons_append, lookup_cons_ite, lookup_cons_ite, ih]

/-- Reading back the property just assigned gives the assigned value. -/
theorem StyleDecl.getPropertyValue_setProperty_self (d : StyleDecl) (p v : String) :
    (d.setProperty p v).getPropertyValue p = v := by
  unfold StyleDecl.setProperty StyleDecl.getPropertyValue
  by_cases hv : v = ""
  · simp [hv, lookup_filter_self]
  · by_cases ha : d.any (fun decl => decl.1 == p) = true
    · rw [if_neg hv, if_pos ha, lookup_map_set d p v ha]; rfl
    · rw [if_neg hv, if_neg ha, lookup_append_of_not_any d p v ha]; rfl

/-- Assigning one property leaves the value read for every other property. -/
theorem StyleDecl.getPropertyValue_setProperty_of_ne (d : StyleDecl) (p v q : String)
    (hq : q ≠ p) : (d.setProperty p v).getPropertyValue q = d.getPropertyValue q := by
  unfold StyleDecl.setProperty StyleDecl.getPropertyValue
  by_cases hv : v = ""
  · simp [hv, lookup_filter_of_ne d p q hq]
  · by_cases ha : d.any (fun decl => decl.1 == p) = true
    · rw [if_neg hv, if_pos ha, lookup_map_set_of_ne d p v q hq]
    · rw [if_neg hv, if_neg ha, lookup_append_of_ne d p v q hq]

theorem filter_map_set (d : StyleDecl) (p v : String) :
    (d.map (fun decl => if decl.1 == p then (p, v) else decl)).filter (fun decl => decl.1 != p)
      = d.filter (fun decl => decl.1 != p) := by
  induction d with
  | nil => rfl
  | cons hd tl ih =>
    obtain ⟨k, w⟩ := hd
    rw [List.map_cons]
    by_cases hk : k = p
    · have : (if (k, w).1 == p then (p, v) else (k, w)) = (p, v) := by simp [hk]
      rw [this, filter_cons_ite, filter_cons_ite, if_pos rfl, if_pos hk, ih]
    · have : (if (k, w).1 == p then (p, v) else (k, w)) = (k, w) := by simp [hk]
      rw [this, filter_cons_ite, filter_cons_ite, if_neg hk, if_neg hk, ih]

/-- Assigning one property leaves every declaration of the other properties in place. -/
theorem StyleDecl.filter_setProperty (d : StyleDecl) (p v : String) :
    (d.setProperty p v).filter (fun decl => decl.1 != p) = d.filter (fun decl => decl.1 != p) := by
  unfold StyleDecl.setProperty
  by_cases hv : v = ""
  · simp [hv]
  · by_cases ha : d.any (fun decl => decl.1 == p) = true
    · rw [if_neg hv, if_pos ha, filter_map_set]
    · rw [if_neg hv, if_neg ha]
      simp [List.filter_append]

/-! ## Style-mapping table and accessors -/

/-- C4: alignment bijection.  For each presentational keyword `a` among start,
middle, end, justify, `textAlignToTextAnchor[textAnchorToTextAlign[a]]` is `a`,
and for each style keyword `s` among left, center, right, justify,
`textAnchorToTextAlign[textAlignToTextAnchor[s]]` is `s`. -/
theorem alignment_bijection (P : Platform) :
    (∀ a ∈ anchorKeywords,
      (Table.get P textAnchorToTextAlign a).bind (Table.get P textAlignToTextAnchor) = some a) ∧
    (∀ s ∈ alignKeywords,
      (Table.get P textAlignToTextAnchor s).bind (Table.get P textAnchorToTextAlign) = some s) := by
  constructor
  · intro a ha
    simp only [anchorKeywords, List.mem_cons, List.mem_singleton, List.not_mem_nil, or_false] at ha
    rcases ha with rfl | rfl | rfl | rfl <;> rfl
  · intro s hs
    simp only [alignKeywords, List.mem_cons, List.mem_singleton, List.not_mem_nil, or_false] at hs
    rcases hs with rfl | rfl | rfl | rfl <;> rfl

/-- C4 at the keyword `middle`, on the reference host. -/
theorem alignment_bijection_witness :
    "middle" ∈ anchorKeywords ∧
    (Table.get referencePlatform textAnchorToTextAlign "middle").bind
      (Table.get referencePlatform textAlignToTextAnchor) = some "middle" :=
  ⟨by decide, (alignment_bijection referencePlatform).1 "middle" (by decide)⟩

/-- C5: alignment vocabulary.  `textAnchorToTextAlign` maps start to left, middle
to center, end to right and justify to justify, and for each of these four
anchors `setTextAnchorOnDiv(box, anchor)` on an existing box leaves the inline
text-align of the box equal to the mapped style keyword. -/
theorem setTextAnchorOnDiv_alignment (P : Platform) (box : Elem) :
    Table.get P textAnchorToTextAlign "start" = some "left" ∧
    Table.get P textAnchorToTextAlign "middle" = some "center" ∧
    Table.get P textAnchorToTextAlign "end" = some "right" ∧
    Table.get P textAnchorToTextAlign "justify" = some "justify" ∧
    ∀ anchor ∈ anchorKeywords, ∃ box',
      setTextAnchorOnDiv P (some box) anchor = some box' ∧
      some (box'.style.getPropertyValue "text-align")
        = Table.get P textAnchorToTextAlign anchor := by
  refine ⟨rfl, rfl, rfl, rfl, ?_⟩
  intro anchor ha
  simp only [anchorKeywords, List.mem_cons, List.mem_singleton, List.not_mem_nil, or_false] at ha
  refine ⟨_, rfl, ?_⟩
  rw [StyleDecl.getPropertyValue_setProperty_self]
  rcases ha with rfl | rfl | rfl | rfl <;> rfl

/-- C5 on the reference host: anchoring a box that was right-aligned at `middle`
leaves its inline text-align at `center`. -/
theorem setTextAnchorOnDiv_alignment_witness :
    "middle" ∈ anchorKeywords ∧
    ∃ box', setTextAnchorOnDiv referencePlatform
        (some ⟨"div", [], [("color", "red"), ("text-align", "right")]⟩) "middle" = some box' ∧
      some (box'.style.getPropertyValue "text-align")
        = Table.get referencePlatform textAnchorToTextAlign "middle" :=
  ⟨by decide,
    (setTextAnchorOnDiv_alignment referencePlatform
      ⟨"div", [], [("color", "red"), ("text-align", "right")]⟩).2.2.2.2 "middle" (by decide)⟩

/-- An inline value that is truthy and neither `initial` nor `inherit`. -/
theorem explicitInline_iff (v : String) :
    explicitInline v = true ↔ v ≠ "" ∧ v ≠ "initial" ∧ v ≠ "inherit" := by
  simp [explicitInline, and_assoc]

/-- C7: the getter prefers the inline declaration.  For each of
`getTextAlignFromDiv`, `getFontWeightFromDiv`, `getFontStyleFromDiv`,
`getColorFromDiv` and `getTextDecorationFromDiv` and every existing box whose
inline declaration for that facet is a non-empty value other than `initial` and
`inherit`, the getter returns exactly that inline value, whatever the computed
style of the box is (the host `P` is arbitrary). -/
theorem getter_prefers_inline (P : Platform) (box : Elem) (property v : String)
    (hinline : box.style.getPropertyValue property = v)
    (hne : v ≠ "") (hinitial : v ≠ "initial") (hinherit : v ≠ "inherit") :
    (property = "text-align" → getTextAlignFromDiv P (some box) = v) ∧
    (property = "font-weight" → getFontWeightFromDiv P (some box) = v) ∧
    (property = "font-style" → getFontStyleFromDiv P (some box) = v) ∧
    (property = "color" → getColorFromDiv P (some box) = v) ∧
    (property = "text-decoration" → getTextDecorationFromDiv P (some box) = v) := by
  have hex : explicitInline v = true := (explicitInline_iff v).2 ⟨hne, hinitial, hinherit⟩
  refine ⟨?_, ?_, ?_, ?_, ?_⟩ <;> intro hp <;> subst hp <;> subst hinline
  · simp only [getTextAlignFromDiv, hex, if_true]
  · simp only [getFontWeightFromDiv, hex, if_true]
  · simp only [getFontStyleFromDiv, hex, if_true]
  · simp only [getColorFromDiv, hex, if_true]
  · simp only [getTextDecorationFromDiv, hex, if_true]

/-- C7 on a box whose inline weight is `bold` while the host computes `700`. -/
theorem getter_prefers_inline_witness :
    getFontWeightFromDiv
      { referencePlatform with getComputedStyle := fun _ => [("font-weight", "700")] }
      (some ⟨"div", [], [("font-weight", "bold")]⟩) = "bold" :=
  (getter_prefers_inline
    { referencePlatform with getComputedStyle := fun _ => [("font-weight", "700")] }
    ⟨"div", [], [("font-weight", "bold")]⟩ "font-weight" "bold"
    (by decide) (by decide) (by decide) (by decide)).2.1 rfl

/-- C9: absence is not an error.  When the box is missing, every facet getter
returns its canonical default (left, normal, normal, Arial, 16, #000000, none,
and start for the anchor view) and every facet setter returns without having
changed anything (there is no element in its result); all of them are total
functions, so none fails. -/
theorem missing_box_defaults (P : Platform) :
    getTextAlignFromDiv P none = "left" ∧
    getFontWeightFromDiv P none = "normal" ∧
    getFontStyleFromDiv P none = "normal" ∧
    getFontFamilyFromDiv P none = "Arial" ∧
    getFontSizeFromDiv P none = .num 16 ∧
    getColorFromDiv P none = "#000000" ∧
    getTextDecorationFromDiv P none = "none" ∧
    getTextAnchorFromDiv P none = "start" ∧
    (∀ v, setTextAlignOnDiv none v = none) ∧
    (∀ v, setTextAnchorOnDiv P none v = none) ∧
    (∀ v, setFontWeightOnDiv none v = none) ∧
    (∀ v, setFontStyleOnDiv none v = none) ∧
    (∀ v, setFontFamilyOnDiv none v = none) ∧
    (∀ n, setFontSizeOnDiv P none n = none) ∧
    (∀ v, setColorOnDiv none v = none) ∧
    (∀ v, setTextDecorationOnDiv none v = none) :=
  ⟨rfl, rfl, rfl, rfl, rfl, rfl, rfl, rfl, fun _ => rfl, fun _ => rfl, fun _ => rfl,
    fun _ => rfl, fun _ => rfl, fun _ => rfl, fun _ => rfl, fun _ => rfl⟩

/-- The getter reads the computed value when the inline one does not count. -/
theorem explicitInline_eq_false_of_noExplicitInline {box : Elem} {property : String}
    (h : NoExplicitInline box property) :
    explicitInline (box.style.getPropertyValue property) = false := by
  rcases h with h | h | h <;> rw [h] <;> rfl

/-- C8 as stated fails for the family facet: on a box without inline font
family whose computed font family is `"Arial Black"` (with the quotes), the
getter returns `Arial Black`, which is not the computed value. -/
theorem getter_fallback_family_counterexample :
    NoExplicitInline ⟨"div", [], []⟩ "font-family" ∧
    (quotedFamilyPlatform.getComputedStyle ⟨"div", [], []⟩).getPropertyValue "font-family"
      = quotedArialBlack ∧
    quotedArialBlack ≠ "" ∧
    getFontFamilyFromDiv quotedFamilyPlatform (some ⟨"div", [], []⟩) = "Arial Black" ∧
    getFontFamilyFromDiv quotedFamilyPlatform (some ⟨"div", [], []⟩)
      ≠ (quotedFamilyPlatform.getComputedStyle ⟨"div", [], []⟩).getPropertyValue "font-family" := by
  refine ⟨Or.inl (by decide), by decide, by decide, by decide, by decide⟩

/-- C8, amended: the getter fallback chain.  For every existing box and each
facet whose inline declaration is empty, `initial` or `inherit`: the getters
for alignment, weight, slant, color and decoration return the computed value
when it is not empty and otherwise left, normal, normal, #000000, none; the
family getter returns the computed value with every quote character removed
when the computed value is not empty, and otherwise Arial; the size getter
returns the number parsed from the computed value when that number is not zero,
and 16 when the computed value does not parse to a number. -/
theorem getter_fallback_chain (P : Platform) (box : Elem) :
    (NoExplicitInline box "text-align" →
      getTextAlignFromDiv P (some box) =
        if (P.getComputedStyle box).getPropertyValue "text-align" ≠ ""
        then (P.getComputedStyle box).getPropertyValue "text-align" else "left") ∧
    (NoExplicitInline box "font-weight" →
      getFontWeightFromDiv P (some box) =
        if (P.getComputedStyle box).getPropertyValue "font-weight" ≠ ""
        then (P.getComputedStyle box).getPropertyValue "font-weight" else "normal") ∧
    (NoExplicitInline box "font-style" →
      getFontStyleFromDiv P (some box) =
        if (P.getComputedStyle box).getPropertyValue "font-style" ≠ ""
        then (P.getComputedStyle box).getPropertyValue "font-style" else "normal") ∧
    (NoExplicitInline box "color" →
      getColorFromDiv P (some box) =
        if (P.getComputedStyle box).getPropertyValue "color" ≠ ""
        then (P.getComputedStyle box).getPropertyValue "color" else "#000000") ∧
    (NoExplicitInline box "text-decoration" →
      getTextDecorationFromDiv P (some box) =
        if (P.getComputedStyle box).getPropertyValue "text-decoration" ≠ ""
        then (P.getComputedStyle box).getPropertyValue "text-decoration" else "none") ∧
    (NoExplicitInline box "font-family" →
      getFontFamilyFromDiv P (some box) =
        if (P.getComputedStyle box).getPropertyValue "font-family" ≠ ""
        then removeQuotes ((P.getComputedStyle box).getPropertyValue "font-family")
        else "Arial") ∧
    (NoExplicitInline box "font-size" →
      (∀ q : ℚ, P.parseFloat ((P.getComputedStyle box).getPropertyValue "font-size") = .num q →
        q ≠ 0 → getFontSizeFromDiv P (some box) = .num q) ∧
      (P.parseFloat ((P.getComputedStyle box).getPropertyValue "font-size") = .nan →
        getFontSizeFromDiv P (some box) = .num 16)) := by
  refine ⟨?_, ?_, ?_, ?_, ?_, ?_, ?_⟩ <;> intro h <;>
    have hex := explicitInline_eq_false_of_noExplicitInline h
  · simp [getTextAlignFromDiv, hex]
  · simp [getFontWeightFromDiv, hex]
  · simp [getFontStyleFromDiv, hex]
  · simp [getColorFromDiv, hex]
  · simp [getTextDecorationFromDiv, hex]
  · simp [getFontFamilyFromDiv, hex]
  · constructor
    · intro q hq hq0
      simp [getFontSizeFromDiv, hex, hq, orSixteen, JSNumber.truthy, hq0]
    · intro hnan
      simp [getFontSizeFromDiv, hex, hnan, orSixteen, JSNumber.truthy]

/-- C8, amended, on a box whose inline font family is `inherit` and whose
computed font family is `"Arial Black"`: the getter returns `Arial Black`. -/
theorem getter_fallback_chain_witness :
    NoExplicitInline ⟨"div", [], [("font-family", "inherit")]⟩ "font-family" ∧
    getFontFamilyFromDiv quotedFamilyPlatform (some ⟨"div", [], [("font-family", "inherit")]⟩)
      = "Arial Black" :=
  ⟨Or.inr (Or.inr (by decide)),
    ((getter_fallback_chain quotedFamilyPlatform
      ⟨"div", [], [("font-family", "inherit")]⟩).2.2.2.2.2.1
        (Or.inr (Or.inr (by decide)))).trans (by decide)⟩

/-! ## Documents -/

/-- The node behind the reference that was updated. -/
theorem Document.getElem?_update_self (doc : Document) (ref : NodeRef) (f : Elem → Elem) :
    (doc.update ref f)[ref]? = (doc[ref]?).map (fun n => { n with elem := f n.elem }) := by
  unfold Document.update
  rw [List.getElem?_modify_eq]
  rfl

/-- Every other node is left as it was. -/
theorem Document.getElem?_update_of_ne (doc : Document) (ref r : NodeRef) (f : Elem → Elem)
    (h : r ≠ ref) : (doc.update ref f)[r]? = doc[r]? := by
  unfold Document.update
  exact List.getElem?_modify_ne _ doc (fun e => h e.symm)

/-- The element behind the reference that was updated. -/
theorem Document.elem?_update_self (doc : Document) (ref : NodeRef) (f : Elem → Elem) :
    (doc.update ref f).elem? ref = (doc.elem? ref).map f := by
  unfold Document.elem?
  rw [Document.getElem?_update_self]
  cases doc[ref]? <;> rfl

/-- Every setter assigns one value to the property it is named after. -/
theorem StyleCommand.run_some (P : Platform) (c : StyleCommand) (box : Elem) :
    ∃ v, c.run P (some box) = some { box with style := box.style.setProperty c.property v } := by
  cases c <;> exact ⟨_, rfl⟩

/-- C10: setter frame.  For every existing box and each facet setter
(`setTextAlignOnDiv`, `setFontWeightOnDiv`, `setFontStyleOnDiv`,
`setFontFamilyOnDiv`, `setFontSizeOnDiv`, `setColorOnDiv`,
`setTextDecorationOnDiv`, and `setTextAnchorOnDiv` as well; `c.run` is the setter
and `c.property` the facet it is named after), the call changes only the inline
declaration of that facet on the box: every other inline declaration of the box
stays as it is, and so does every other node of the document, the containing
text shape with all its attributes among them. -/
theorem setter_frame (P : Platform) (doc : Document) (textDiv : NodeRef) (box : Elem)
    (c : StyleCommand) (hbox : doc.elem? textDiv = some box) :
    (∃ box', (doc.applySetter textDiv (c.run P)).elem? textDiv = some box' ∧
      (∀ q, q ≠ c.property → box'.style.getPropertyValue q = box.style.getPropertyValue q) ∧
      box'.style.filter (fun decl => decl.1 != c.property)
        = box.style.filter (fun decl => decl.1 != c.property)) ∧
    (∀ r, r ≠ textDiv → (doc.applySetter textDiv (c.run P))[r]? = doc[r]?) ∧
    (doc.applySetter textDiv (c.run P)).length = doc.length := by
  obtain ⟨v, hv⟩ := StyleCommand.run_some P c box
  refine ⟨⟨{ box with style := box.style.setProperty c.property v }, ?_, ?_, ?_⟩, ?_, ?_⟩
  · unfold Document.applySetter
    rw [Document.elem?_update_self, hbox, Option.map_some', hv]
    rfl
  · intro q hq
    exact StyleDecl.getPropertyValue_setProperty_of_ne _ _ _ _ hq
  · exact StyleDecl.filter_setProperty _ _ _
  · intro r hr
    exact Document.getElem?_update_of_ne doc textDiv r _ hr
  · unfold Document.applySetter Document.update
    exact List.length_modify _ _ _

/-- C10 on a styled-box shape: setting the weight of its box (node 2) changes
neither the other declarations of the box nor any other node. -/
theorem setter_frame_witness :
    styledShape.toDocument.elem? 2
      = some ⟨"div", [("style", "text-align: center; font-weight: bold; font-style: italic")],
          [("text-align", "center"), ("font-weight", "bold"), ("font-style", "italic")]⟩ ∧
    (∃ box',
      (styledShape.toDocument.applySetter 2
        ((StyleCommand.fontWeight "normal").run referencePlatform)).elem? 2 = some box' ∧
      (∀ q, q ≠ "font-weight" → box'.style.getPropertyValue q =
        StyleDecl.getPropertyValue
          [("text-align", "center"), ("font-weight", "bold"), ("font-style", "italic")] q) ∧
      box'.style.filter (fun decl => decl.1 != "font-weight")
        = List.filter (fun decl => decl.1 != "font-weight")
            [("text-align", "center"), ("font-weight", "bold"), ("font-style", "italic")]) ∧
    (∀ r, r ≠ 2 →
      (styledShape.toDocument.applySetter 2
        ((StyleCommand.fontWeight "normal").run referencePlatform))[r]?
      = styledShape.toDocument[r]?) ∧
    (styledShape.toDocument.applySetter 2
        ((StyleCommand.fontWeight "normal").run referencePlatform)).length
      = styledShape.toDocument.length :=
  ⟨by decide,
    setter_frame referencePlatform styledShape.toDocument 2
      ⟨"div", [("style", "text-align: center; font-weight: bold; font-style: italic")],
        [("text-align", "center"), ("font-weight", "bold"), ("font-style", "italic")]⟩
      (StyleCommand.fontWeight "normal") (by decide)⟩

/-! ## Style restoration pass -/

theorem SameShape.refl (d : Document) : SameShape d d := fun _ => rfl

theorem SameShape.trans {a b c : Document} (h₁ : SameShape a b) (h₂ : SameShape b c) :
    SameShape a c := fun r => (h₁ r).trans (h₂ r)

theorem SameShape.symm {a b : Document} (h : SameShape a b) : SameShape b a :=
  fun r => (h r).symm

theorem SameShape.update (d : Document) (ref : NodeRef) (f : Elem → Elem)
    (hf : ∀ e, (f e).tagName = e.tagName ∧ (f e).attributes = e.attributes) :
    SameShape (d.update ref f) d := by
  intro r
  by_cases h : r = ref
  · subst h
    rw [Document.getElem?_update_self]
    cases d[r]? with
    | none => rfl
    | some n => simp [DomNode.shape, (hf n.elem).1, (hf n.elem).2]
  · rw [Document.getElem?_update_of_ne d ref r f h]

theorem SameShape.descendants {d d' : Document} (h : SameShape d d') (r : NodeRef) :
    d.descendants r = d'.descendants r := by
  have := h r
  unfold Document.descendants
  cases h1 : d[r]? with
  | none =>
    cases h2 : d'[r]? with
    | none => rfl
    | some n' => rw [h1, h2] at this; simp at this
  | some n =>
    cases h2 : d'[r]? with
    | none => rw [h1, h2] at this; simp at this
    | some n' =>
      rw [h1, h2] at this
      simp only [Option.map_some', Option.some.injEq, DomNode.shape, Prod.mk.injEq] at this
      simp [this.2.2]

theorem structural_textForeignObjectSelector : Structural textForeignObjectSelector := by
  intro e e' h1 h2
  simp [textForeignObjectSelector, Elem.getAttribute, h1, h2]

theorem structural_divSelector : Structural divSelector := by
  intro e e' h1 _
  simp [divSelector, h1]

theorem SameShape.querySelectorAll {d d' : Document} (h : SameShape d d') (r : NodeRef)
    {selector : Elem → Bool} (hs : Structural selector) :
    d.querySelectorAll r selector = d'.querySelectorAll r selector := by
  unfold Document.querySelectorAll
  rw [h.descendants r]
  apply List.filter_congr
  intro x _
  have := h x
  unfold Document.elem?
  cases h1 : d[x]? with
  | none =>
    cases h2 : d'[x]? with
    | none => rfl
    | some n' => rw [h1, h2] at this; simp at this
  | some n =>
    cases h2 : d'[x]? with
    | none => rw [h1, h2] at this; simp at this
    | some n' =>
      rw [h1, h2] at this
      simp only [Option.map_some', Option.some.injEq, DomNode.shape, Prod.mk.injEq] at this
      exact hs _ _ this.1 this.2.1

theorem SameShape.querySelector {d d' : Document} (h : SameShape d d') (r : NodeRef)
    {selector : Elem → Bool} (hs : Structural selector) :
    d.querySelector r selector = d'.querySelector r selector := by
  unfold Document.querySelector
  rw [h.querySelectorAll r hs]

theorem SameShape.textDivs {d d' : Document} (h : SameShape d d') (root : NodeRef) :
    d.textDivs root = d'.textDivs root := by
  unfold Document.textDivs
  rw [h.querySelectorAll root structural_textForeignObjectSelector]
  apply List.filterMap_congr
  intro x _
  exact h.querySelector x structural_divSelector

theorem restoreElem_shape (P : Platform) (e : Elem) :
    (restoreElem P e).tagName = e.tagName ∧ (restoreElem P e).attributes = e.attributes := by
  unfold restoreElem
  split
  · exact ⟨rfl, rfl⟩
  · split <;> exact ⟨rfl, rfl⟩

theorem restoreElem_idem (P : Platform) (e : Elem) :
    restoreElem P (restoreElem P e) = restoreElem P e := by
  cases h : e.getAttribute "style" with
  | none => simp [restoreElem, h]
  | some s =>
    by_cases hs : (s != "") = true
    · have h1 : restoreElem P e = { e with style := P.parseCss s } := by
        simp only [restoreElem, h, hs, if_true]
      have h2 : ({ e with style := P.parseCss s } : Elem).getAttribute "style" = some s := h
      rw [h1]
      simp only [restoreElem, h2, hs, if_true]
    · have h1 : restoreElem P e = e := by
        simp only [restoreElem, h, hs]; rfl
      rw [h1, h1]

theorem Document.update_congr (doc : Document) (ref : NodeRef) (f g : Elem → Elem)
    (h : ∀ n, doc[ref]? = some n → f n.elem = g n.elem) :
    doc.update ref f = doc.update ref g := by
  apply List.ext_getElem?
  intro r
  by_cases hr : r = ref
  · subst hr
    rw [Document.getElem?_update_self, Document.getElem?_update_self]
    cases hn : doc[r]? with
    | none => rfl
    | some n => simp [h n hn]
  · rw [Document.getElem?_update_of_ne doc ref r f hr, Document.getElem?_update_of_ne doc ref r g hr]

theorem Document.update_id (doc : Document) (ref : NodeRef) (f : Elem → Elem)
    (h : ∀ n, doc[ref]? = some n → f n.elem = n.elem) :
    doc.update ref f = doc := by
  apply List.ext_getElem?
  intro r
  by_cases hr : r = ref
  · subst hr
    rw [Document.getElem?_update_self]
    cases hn : doc[r]? with
    | none => rfl
    | some n => simp [h n hn]
  · rw [Document.getElem?_update_of_ne doc ref r f hr]

theorem Document.update_update (doc : Document) (ref : NodeRef) (f g : Elem → Elem) :
    (doc.update ref f).update ref g = doc.update ref (fun e => g (f e)) := by
  unfold Document.update
  rw [List.modify_modify_eq]
  rfl

/-- The loop body of the pass applies `restoreElem` to the embedded box. -/
theorem restoreTextDiv_eq (P : Platform) (doc : Document) (foreignObject : NodeRef) :
    restoreTextDiv P doc foreignObject =
      match doc.querySelector foreignObject divSelector with
      | none => doc
      | some textDiv => doc.update textDiv (restoreElem P) := by
  unfold restoreTextDiv
  cases doc.querySelector foreignObject divSelector with
  | none => rfl
  | some textDiv =>
    simp only
    cases hattr : doc.getAttribute textDiv "style" with
    | none =>
      simp only
      symm
      apply Document.update_id
      intro n hn
      have : n.elem.getAttribute "style" = none := by
        simpa [Document.getAttribute, Document.elem?, hn] using hattr
      simp [restoreElem, this]
    | some styleAttr =>
      simp only
      have hget : ∀ n, doc[textDiv]? = some n → n.elem.getAttribute "style" = some styleAttr := by
        intro n hn
        simpa [Document.getAttribute, Document.elem?, hn] using hattr
      by_cases hs : (styleAttr != "") = true
      · rw [if_pos hs]
        unfold Document.setCssText
        rw [Document.update_update]
        apply Document.update_congr
        intro n hn
        simp only [restoreElem, hget n hn, hs, if_true]
      · rw [if_neg hs]
        symm
        apply Document.update_id
        intro n hn
        simp only [restoreElem, hget n hn, hs]
        rfl

/-- Applying an idempotent change to a list of nodes, one after the other. -/
theorem Document.getElem?_foldl_update (g : Elem → Elem) (hg : ∀ e, g (g e) = g e)
    (refs : List NodeRef) (doc : Document) (j : NodeRef) :
    (refs.foldl (fun d b => d.update b g) doc)[j]? =
      if j ∈ refs then (doc[j]?).map (fun n => { n with elem := g n.elem }) else doc[j]? := by
  induction refs generalizing doc with
  | nil => simp
  | cons b bs ih =>
    rw [List.foldl_cons, ih]
    by_cases hj : j = b
    · subst hj
      rw [Document.getElem?_update_self]
      have hmem : j ∈ j :: bs := List.mem_cons_self _ _
      rw [if_pos hmem]
      by_cases hbs : j ∈ bs
      · rw [if_pos hbs]
        cases doc[j]? with
        | none => rfl
        | some n => simp [hg]
      · rw [if_neg hbs]
    · rw [Document.getElem?_update_of_ne doc b j g hj]
      by_cases hbs : j ∈ bs
      · rw [if_pos hbs, if_pos (List.mem_cons_of_mem _ hbs)]
      · have : j ∉ b :: bs := by
          intro hmem
          rcases List.mem_cons.1 hmem with h | h
          · exact hj h
          · exact hbs h
        rw [if_neg hbs, if_neg this]

theorem foldl_update_sameShape (g : Elem → Elem)
    (hg : ∀ e, (g e).tagName = e.tagName ∧ (g e).attributes = e.attributes)
    (refs : List NodeRef) (doc : Document) :
    SameShape (refs.foldl (fun d b => d.update b g) doc) doc := by
  induction refs generalizing doc with
  | nil => exact SameShape.refl _
  | cons b bs ih =>
    rw [List.foldl_cons]
    exact (ih _).trans (SameShape.update doc b g hg)

/-- The pass as a sequence of in-place changes of the embedded boxes found in
the document the pass started from. -/
theorem foldl_restoreTextDiv_eq (P : Platform) (doc : Document) (fos : List NodeRef)
    (d : Document) (hd : SameShape d doc) :
    fos.foldl (restoreTextDiv P) d =
      (fos.filterMap (fun fo => doc.querySelector fo divSelector)).foldl
        (fun d b => d.update b (restoreElem P)) d := by
  induction fos generalizing d with
  | nil => rfl
  | cons fo fos ih =>
    rw [List.foldl_cons, restoreTextDiv_eq, hd.querySelector fo structural_divSelector]
    cases hq : doc.querySelector fo divSelector with
    | none =>
      simp only [List.filterMap_cons, hq]
      exact ih d hd
    | some b =>
      simp only [List.filterMap_cons, hq, List.foldl_cons]
      exact ih _ ((SameShape.update d b _ (restoreElem_shape P)).trans hd)

theorem restoreTextDivStyles_eq (P : Platform) (doc : Document) (root : NodeRef) :
    restoreTextDivStyles P doc (some root) =
      (doc.textDivs root).foldl (fun d b => d.update b (restoreElem P)) doc := by
  unfold restoreTextDivStyles Document.textDivs
  exact foldl_restoreTextDiv_eq P doc _ doc (SameShape.refl doc)

/-- Every node after the pass: the embedded boxes of the text containers below
the root are restored, every other node is as before. -/
theorem restoreTextDivStyles_getElem? (P : Platform) (doc : Document) (root j : NodeRef) :
    (restoreTextDivStyles P doc (some root))[j]? =
      if j ∈ doc.textDivs root then
        (doc[j]?).map (fun n => { n with elem := restoreElem P n.elem })
      else doc[j]? := by
  rw [restoreTextDivStyles_eq]
  exact Document.getElem?_foldl_update _ (restoreElem_idem P) _ _ _

theorem restoreTextDivStyles_sameShape (P : Platform) (doc : Document)
    (svgContent : Option NodeRef) : SameShape (restoreTextDivStyles P doc svgContent) doc := by
  cases svgContent with
  | none => exact SameShape.refl _
  | some root =>
    rw [restoreTextDivStyles_eq]
    exact foldl_update_sameShape _ (restoreElem_shape P) _ _

/-- The box of a text container below the root after the pass. -/
theorem restoreTextDivStyles_elem?_textDiv (P : Platform) (doc : Document)
    (svgContent foreignObject textDiv : NodeRef) (box : Elem) (styleAttr : String)
    (hfo : foreignObject ∈ doc.querySelectorAll svgContent textForeignObjectSelector)
    (hdiv : doc.querySelector foreignObject divSelector = some textDiv)
    (hbox : doc.elem? textDiv = some box)
    (hattr : box.getAttribute "style" = some styleAttr) (hne : styleAttr ≠ "") :
    (restoreTextDivStyles P doc (some svgContent)).elem? textDiv
      = some { box with style := P.parseCss styleAttr } := by
  have hmem : textDiv ∈ doc.textDivs svgContent := by
    unfold Document.textDivs
    exact List.mem_filterMap.2 ⟨foreignObject, hfo, hdiv⟩
  have hrestore : restoreElem P box = { box with style := P.parseCss styleAttr } := by
    have hs : (styleAttr != "") = true := by simpa using hne
    simp only [restoreElem, hattr, hs, if_true]
  unfold Document.elem? at hbox ⊢
  rw [restoreTextDivStyles_getElem?, if_pos hmem]
  cases hn : doc[textDiv]? with
  | none => rw [hn] at hbox; simp at hbox
  | some n =>
    rw [hn] at hbox
    simp only [Option.map_some', Option.some.injEq] at hbox
    simp [hbox, hrestore]

/-- C2 as stated fails when the subtree handed to the pass is itself a text
container: `querySelectorAll` looks below the root only, so the box of the root
is not restored.  Here the box declares text-align left in its style text, and
its live text-align still reads empty after the pass. -/
theorem restoration_root_counterexample :
    (loneContainer.toDocument.elem? 0).map textForeignObjectSelector = some true ∧
    loneContainer.toDocument.querySelector 0 divSelector = some 1 ∧
    loneContainer.toDocument.getAttribute 1 "style" = some "text-align: left; font-weight: bold" ∧
    (referencePlatform.parseCss "text-align: left; font-weight: bold").getPropertyValue
      "text-align" = "left" ∧
    ((restoreTextDivStyles referencePlatform loneContainer.toDocument (some 0)).elem? 1).map
      (fun box => box.style.getPropertyValue "text-align") = some "" := by
  decide

/-- C2, amended: restoration postcondition.  After `restoreTextDivStyles` ran on
a subtree, for every text container (foreignObject with se:type="text") that is
a descendant of the root of the subtree and whose embedded box carries
non-empty style text, the live style declaration of the box is the one the host
parses from that style text, whatever it was before the pass; so every style
fact read from it has the value declared in the style text. -/
theorem restoration_postcondition (P : Platform) (doc : Document)
    (svgContent foreignObject textDiv : NodeRef) (box : Elem) (styleAttr : String)
    (hfo : foreignObject ∈ doc.querySelectorAll svgContent textForeignObjectSelector)
    (hdiv : doc.querySelector foreignObject divSelector = some textDiv)
    (hbox : doc.elem? textDiv = some box)
    (hattr : box.getAttribute "style" = some styleAttr) (hne : styleAttr ≠ "") :
    ((restoreTextDivStyles P doc (some svgContent)).elem? textDiv).map (fun e => e.style)
      = some (P.parseCss styleAttr) ∧
    ∀ property,
      ((restoreTextDivStyles P doc (some svgContent)).elem? textDiv).map
        (fun e => e.style.getPropertyValue property)
      = some ((P.parseCss styleAttr).getPropertyValue property) := by
  have key := restoreTextDivStyles_elem?_textDiv P doc svgContent foreignObject textDiv box
    styleAttr hfo hdiv hbox hattr hne
  rw [key]
  exact ⟨rfl, fun _ => rfl⟩

/-- C2, amended, on the tree of the repository's test: the first box, whose
style text declares text-align left and font-weight bold and whose live style
was cleared, reads alignment `left` and weight `bold` after the pass. -/
theorem restoration_postcondition_witness :
    ((restoreTextDivStyles referencePlatform testSvg.toDocument (some 0)).elem? 2).map
        (fun e => e.style.getPropertyValue "text-align") = some "left" ∧
    ((restoreTextDivStyles referencePlatform testSvg.toDocument (some 0)).elem? 2).map
        (fun e => e.style.getPropertyValue "font-weight") = some "bold" :=
  ⟨((restoration_postcondition referencePlatform testSvg.toDocument 0 1 2
      ⟨"div", [("style", "color: blue; text-align: left; font-weight: bold;")], []⟩
      "color: blue; text-align: left; font-weight: bold;"
      (by decide) (by decide) (by decide) (by decide) (by decide)).2 "text-align").trans
      (by decide),
    ((restoration_postcondition referencePlatform testSvg.toDocument 0 1 2
      ⟨"div", [("style", "color: blue; text-align: left; font-weight: bold;")], []⟩
      "color: blue; text-align: left; font-weight: bold;"
      (by decide) (by decide) (by decide) (by decide) (by decide)).2 "font-weight").trans
      (by decide)⟩

/-- C3: restoration idempotence.  For every subtree (and for a missing one),
running `restoreTextDivStyles` twice leaves the whole document, so the style
text and the live style declaration of every box, in exactly the state that
running it once does. -/
theorem restoration_idempotent (P : Platform) (doc : Document) (svgContent : Option NodeRef) :
    restoreTextDivStyles P (restoreTextDivStyles P doc svgContent) svgContent
      = restoreTextDivStyles P doc svgContent := by
  cases svgContent with
  | none => rfl
  | some root =>
    apply List.ext_getElem?
    intro j
    have hshape := restoreTextDivStyles_sameShape P doc (some root)
    rw [restoreTextDivStyles_getElem? P (restoreTextDivStyles P doc (some root)),
      hshape.textDivs root, restoreTextDivStyles_getElem? P doc]
    by_cases hj : j ∈ doc.textDivs root
    · simp only [if_pos hj]
      cases doc[j]? with
      | none => rfl
      | some n => simp [restoreElem_idem]
    · simp only [if_neg hj]

/-! ## The anchor view and the size and family facets -/

/-- C11: round trip through the presentational-vocabulary view.  For every
existing box and each anchor `a` among start, middle, end, justify, after
`setTextAnchorOnDiv(box, a)` the call `getTextAnchorFromDiv(box)` returns `a`
and `getTextAlignFromDiv(box)` returns `textAnchorToTextAlign[a]`, whatever the
computed style of the box is (the host `P` is arbitrary). -/
theorem anchor_view_round_trip (P : Platform) (box : Elem) :
    ∀ a ∈ anchorKeywords, ∃ box',
      setTextAnchorOnDiv P (some box) a = some box' ∧
      getTextAnchorFromDiv P (some box') = a ∧
      some (getTextAlignFromDiv P (some box')) = Table.get P textAnchorToTextAlign a := by
  intro a ha
  simp only [anchorKeywords, List.mem_cons, List.mem_singleton, List.not_mem_nil, or_false] at ha
  rcases ha with rfl | rfl | rfl | rfl
  · refine ⟨{ box with style := box.style.setProperty "text-align" "left" }, rfl, ?_, ?_⟩ <;>
      simp only [getTextAnchorFromDiv, getTextAlignFromDiv,
        StyleDecl.getPropertyValue_setProperty_self] <;> rfl
  · refine ⟨{ box with style := box.style.setProperty "text-align" "center" }, rfl, ?_, ?_⟩ <;>
      simp only [getTextAnchorFromDiv, getTextAlignFromDiv,
        StyleDecl.getPropertyValue_setProperty_self] <;> rfl
  · refine ⟨{ box with style := box.style.setProperty "text-align" "right" }, rfl, ?_, ?_⟩ <;>
      simp only [getTextAnchorFromDiv, getTextAlignFromDiv,
        StyleDecl.getPropertyValue_setProperty_self] <;> rfl
  · refine ⟨{ box with style := box.style.setProperty "text-align" "justify" }, rfl, ?_, ?_⟩ <;>
      simp only [getTextAnchorFromDiv, getTextAlignFromDiv,
        StyleDecl.getPropertyValue_setProperty_self] <;> rfl

/-- C11 on a left-aligned box whose computed alignment is `start`: anchored at
`end`, it reads anchor `end` and alignment `right`. -/
theorem anchor_view_round_trip_witness :
    "end" ∈ anchorKeywords ∧
    ∃ box', setTextAnchorOnDiv
        { referencePlatform with getComputedStyle := fun _ => [("text-align", "start")] }
        (some ⟨"div", [], [("text-align", "left")]⟩) "end" = some box' ∧
      getTextAnchorFromDiv
        { referencePlatform with getComputedStyle := fun _ => [("text-align", "start")] }
        (some box') = "end" ∧
      some (getTextAlignFromDiv
        { referencePlatform with getComputedStyle := fun _ => [("text-align", "start")] }
        (some box'))
        = Table.get
          { referencePlatform with getComputedStyle := fun _ => [("text-align", "start")] }
          textAnchorToTextAlign "end" :=
  ⟨by decide,
    anchor_view_round_trip
      { referencePlatform with getComputedStyle := fun _ => [("text-align", "start")] }
      ⟨"div", [], [("text-align", "left")]⟩ "end" (by decide)⟩

/-- An anchor that is neither a key of the table nor the name of an inherited
member is mapped to `left`. -/
theorem setTextAnchorOnDiv_of_get_eq_none (P : Platform) (box : Elem) (anchor : String)
    (h : Table.get P textAnchorToTextAlign anchor = none) :
    (setTextAnchorOnDiv P (some box) anchor).map
      (fun box' => box'.style.getPropertyValue "text-align") = some "left" := by
  simp only [setTextAnchorOnDiv, h, orDefault, setTextAlignOnDiv, Option.map_some',
    StyleDecl.getPropertyValue_setProperty_self]

/-- C12 fails for an inherited name: `textAnchorToTextAlign["constructor"]` is
the member every object inherits, which is truthy, so `|| 'left'` does not
apply and `setTextAnchorOnDiv(box, "constructor")` assigns the string form of
that member; the inline text-align of the box is not `left` afterwards.  A
missing value, looked up as `undefined`, does give `left`. -/
theorem setTextAnchorOnDiv_inherited_name :
    Table.get referencePlatform textAnchorToTextAlign "constructor"
      = some "function constructor() [native code]" ∧
    (setTextAnchorOnDiv referencePlatform (some ⟨"div", [], [("text-align", "right")]⟩)
        "constructor").map (fun box' => box'.style.getPropertyValue "text-align")
      = some "function constructor() [native code]" ∧
    (setTextAnchorOnDiv referencePlatform (some ⟨"div", [], [("text-align", "right")]⟩)
        "constructor").map (fun box' => box'.style.getPropertyValue "text-align")
      ≠ some "left" ∧
    (setTextAnchorOnDiv referencePlatform (some ⟨"div", [], [("text-align", "right")]⟩)
        "undefined").map (fun box' => box'.style.getPropertyValue "text-align")
      = some "left" := by
  decide

/-- The anchor view in terms of the alignment reading. -/
theorem getTextAnchorFromDiv_eq (P : Platform) (textDiv : Option Elem) :
    getTextAnchorFromDiv P textDiv =
      orDefault (Table.get P textAlignToTextAnchor (getTextAlignFromDiv P textDiv)) "start" :=
  rfl

/-- The own keys of `textAlignToTextAnchor`. -/
theorem lookup_textAlignToTextAnchor (s : String) :
    textAlignToTextAnchor.lookup s =
      if s = "left" then some "start" else if s = "center" then some "middle"
      else if s = "right" then some "end" else if s = "justify" then some "justify"
      else none := by
  simp only [textAlignToTextAnchor, lookup_cons_ite, List.lookup_nil]

/-- C13: `getTextAnchorFromDiv` returns one of start, middle, end, justify.  For
every box (a missing one included) it returns the anchor paired with the
alignment when `getTextAlignFromDiv` reads left, center, right or justify, and
`start` for every other alignment reading, such as `start` or `-webkit-auto`.
For the other readings this rests on the host: the reading comes from the
style declarations the host keeps, so it is a CSS keyword and never the name of
a member inherited from `Object.prototype`. -/
theorem getTextAnchorFromDiv_range (P : Platform) (textDiv : Option Elem) :
    (getTextAlignFromDiv P textDiv = "left" → getTextAnchorFromDiv P textDiv = "start") ∧
    (getTextAlignFromDiv P textDiv = "center" → getTextAnchorFromDiv P textDiv = "middle") ∧
    (getTextAlignFromDiv P textDiv = "right" → getTextAnchorFromDiv P textDiv = "end") ∧
    (getTextAlignFromDiv P textDiv = "justify" → getTextAnchorFromDiv P textDiv = "justify") ∧
    (getTextAlignFromDiv P textDiv ∉ alignKeywords →
      P.objectPrototype (getTextAlignFromDiv P textDiv) = none →
      getTextAnchorFromDiv P textDiv = "start") ∧
    (P.objectPrototype (getTextAlignFromDiv P textDiv) = none →
      getTextAnchorFromDiv P textDiv ∈ anchorKeywords) := by
  rw [getTextAnchorFromDiv_eq]
  generalize getTextAlignFromDiv P textDiv = al
  unfold Table.get
  rw [lookup_textAlignToTextAnchor]
  by_cases h1 : al = "left"
  · subst h1; simp [orDefault, anchorKeywords, alignKeywords]
  by_cases h2 : al = "center"
  · subst h2; simp [orDefault, anchorKeywords, alignKeywords]
  by_cases h3 : al = "right"
  · subst h3; simp [orDefault, anchorKeywords, alignKeywords]
  by_cases h4 : al = "justify"
  · subst h4; simp [orDefault, anchorKeywords, alignKeywords]
  simp only [h1, h2, h3, h4, if_false, false_implies, true_and]
  constructor
  · intro _ hhost
    simp [hhost, orDefault]
  · intro hhost
    simp [hhost, orDefault, anchorKeywords]

/-- C13 on a box without inline alignment whose computed alignment is
`-webkit-auto`: the anchor view reads `start`. -/
theorem getTextAnchorFromDiv_range_witness :
    getTextAlignFromDiv
      { referencePlatform with getComputedStyle := fun _ => [("text-align", "-webkit-auto")] }
      (some ⟨"div", [], []⟩) = "-webkit-auto" ∧
    getTextAnchorFromDiv
      { referencePlatform with getComputedStyle := fun _ => [("text-align", "-webkit-auto")] }
      (some ⟨"div", [], []⟩) = "start" :=
  ⟨by decide,
    (getTextAnchorFromDiv_range
      { referencePlatform with getComputedStyle := fun _ => [("text-align", "-webkit-auto")] }
      (some ⟨"div", [], []⟩)).2.2.2.2.1 (by decide) (by decide)⟩

/-- C14 fails at zero: after `setFontSizeOnDiv(box, 0)` the inline font-size of
the box is `0px`, `parseFloat` reads the number 0 from it, and since 0 is falsy
`parseFloat(inlineSize) || 16` makes `getFontSizeFromDiv` return 16. -/
theorem getFontSizeFromDiv_zero :
    (setFontSizeOnDiv referencePlatform (some ⟨"div", [], []⟩) (.num 0)).map
      (fun box' => box'.style.getPropertyValue "font-size") = some "0px" ∧
    referencePlatform.parseFloat "0px" = .num 0 ∧
    getFontSizeFromDiv referencePlatform
      (setFontSizeOnDiv referencePlatform (some ⟨"div", [], []⟩) (.num 0)) = .num 16 := by
  decide

/-- A size that is not zero reads back: when the inline font-size is explicit
and `parseFloat` reads a number other than zero from it, the getter returns
that number. -/
theorem getFontSizeFromDiv_of_parseFloat (P : Platform) (box : Elem) (q : ℚ)
    (hex : explicitInline (box.style.getPropertyValue "font-size") = true)
    (hparse : P.parseFloat (box.style.getPropertyValue "font-size") = .num q) (hq : q ≠ 0) :
    getFontSizeFromDiv P (some box) = .num q := by
  simp [getFontSizeFromDiv, hex, hparse, orSixteen, JSNumber.truthy, hq]

/-- Dropping quotes from a string that has none. -/
theorem removeQuotes_of_quoteFree (s : String) (h : QuoteFree s) : removeQuotes s = s := by
  unfold removeQuotes
  have : s.data.filter (fun c => c != Char.ofNat 39 && c != Char.ofNat 34) = s.data := by
    apply List.filter_eq_self.2
    intro c hc
    have := h c hc
    simp [this.1, this.2]
  rw [this]

/-- C15 as stated fails for a quoted family name: on a box whose inline
font-family is `"Arial Black"` (with the quotes), the getter returns
`Arial Black`, which is not the inline value. -/
theorem getFontFamilyFromDiv_quoted_counterexample :
    StyleDecl.getPropertyValue [("font-family", quotedArialBlack)] "font-family"
      = quotedArialBlack ∧
    quotedArialBlack ≠ "" ∧ quotedArialBlack ≠ "initial" ∧ quotedArialBlack ≠ "inherit" ∧
    getFontFamilyFromDiv referencePlatform (some ⟨"div", [], [("font-family", quotedArialBlack)]⟩)
      = "Arial Black" ∧
    getFontFamilyFromDiv referencePlatform (some ⟨"div", [], [("font-family", quotedArialBlack)]⟩)
      ≠ quotedArialBlack := by
  decide

/-- C15, amended: the family getter reads back the inline declaration without
its quotes.  For every existing box whose inline font-family declaration is a
non-empty value `v` other than `initial` and `inherit`, `getFontFamilyFromDiv`
returns `v` with every single and double quote character removed, so `v` itself
when `v` has no quote character; and right after `setFontFamilyOnDiv(box, v)`
the inline declaration is `v`. -/
theorem getFontFamilyFromDiv_inline (P : Platform) (box : Elem) (v : String)
    (hne : v ≠ "") (hinitial : v ≠ "initial") (hinherit : v ≠ "inherit") :
    (box.style.getPropertyValue "font-family" = v →
      getFontFamilyFromDiv P (some box) = removeQuotes v ∧
      (QuoteFree v → getFontFamilyFromDiv P (some box) = v)) ∧
    ∃ box', setFontFamilyOnDiv (some box) v = some box' ∧
      box'.style.getPropertyValue "font-family" = v ∧
      getFontFamilyFromDiv P (some box') = removeQuotes v := by
  have hex : explicitInline v = true := (explicitInline_iff v).2 ⟨hne, hinitial, hinherit⟩
  have key : ∀ b : Elem, b.style.getPropertyValue "font-family" = v →
      getFontFamilyFromDiv P (some b) = removeQuotes v := by
    intro b hb
    simp only [getFontFamilyFromDiv, hb, hex, if_true]
  refine ⟨fun hbox => ⟨key box hbox, fun hq => ?_⟩, ?_⟩
  · rw [key box hbox, removeQuotes_of_quoteFree v hq]
  · refine ⟨{ box with style := box.style.setProperty "font-family" v }, rfl, ?_, ?_⟩
    · exact StyleDecl.getPropertyValue_setProperty_self _ _ _
    · exact key _ (StyleDecl.getPropertyValue_setProperty_self _ _ _)

/-- C15, amended, on the family `Helvetica`: set on a box, it reads back as
`Helvetica`. -/
theorem getFontFamilyFromDiv_inline_witness :
    ∃ box', setFontFamilyOnDiv (some ⟨"div", [], [("color", "red")]⟩) "Helvetica" = some box' ∧
      box'.style.getPropertyValue "font-family" = "Helvetica" ∧
      getFontFamilyFromDiv referencePlatform (some box') = removeQuotes "Helvetica" :=
  (getFontFamilyFromDiv_inline referencePlatform ⟨"div", [], [("color", "red")]⟩ "Helvetica"
    (by decide) (by decide) (by decide)).2

/-! ## What the restoration pass leaves alone -/

/-- Every result of `querySelectorAll` is an element that matches the selector. -/
theorem Document.elem?_of_mem_querySelectorAll {doc : Document} {root r : NodeRef}
    {selector : Elem → Bool} (h : r ∈ doc.querySelectorAll root selector) :
    ∃ e, doc.elem? r = some e ∧ selector e = true := by
  unfold Document.querySelectorAll at h
  have h2 := (List.mem_filter.1 h).2
  cases he : doc.elem? r with
  | none => rw [he] at h2; simp at h2
  | some e => rw [he] at h2; exact ⟨e, rfl, h2⟩

/-- A node that is not the embedded box of a text container is not visited. -/
theorem not_mem_textDivs_of_notAnEmbeddedBox {doc : Document} {j : NodeRef}
    (h : NotAnEmbeddedBox doc j) (root : NodeRef) : j ∉ doc.textDivs root := by
  intro hmem
  unfold Document.textDivs at hmem
  obtain ⟨fo, hfo, hbox⟩ := List.mem_filterMap.1 hmem
  obtain ⟨e, he, hsel⟩ := Document.elem?_of_mem_querySelectorAll hfo
  exact h fo e he hsel hbox

/-- A check of every node decides that a node is no embedded box. -/
theorem notAnEmbeddedBox_of_all (doc : Document) (j : NodeRef)
    (h : (List.range doc.length).all (fun fo =>
      !((doc.elem? fo).map textForeignObjectSelector == some true) ||
        !(doc.querySelector fo divSelector == some j)) = true) : NotAnEmbeddedBox doc j := by
  intro fo e he hsel hq
  have hlt : fo < doc.length := by
    unfold Document.elem? at he
    by_contra hge
    rw [List.getElem?_eq_none (Nat.le_of_not_lt hge)] at he
    simp at he
  have := (List.all_eq_true.1 h) fo (List.mem_range.2 hlt)
  simp [he, hsel, hq] at this

/-- C16: the restoration pass touches nothing it should not.
`restoreTextDivStyles` is a total function (it raises no error) and leaves the
document unchanged for a missing subtree; its loop body leaves the document
unchanged for a text container that has no embedded box; and the whole pass
leaves a node as it was when the node carries no or empty style text, and when
the node is not the embedded box of a foreignObject with se:type="text" (such
as a div inside a foreignObject without that type tag). -/
theorem restoration_frame (P : Platform) (doc : Document) :
    restoreTextDivStyles P doc none = doc ∧
    (∀ foreignObject, doc.querySelector foreignObject divSelector = none →
      restoreTextDiv P doc foreignObject = doc) ∧
    (∀ svgContent j,
      doc.getAttribute j "style" = none ∨ doc.getAttribute j "style" = some "" →
      (restoreTextDivStyles P doc svgContent)[j]? = doc[j]?) ∧
    (∀ svgContent j, NotAnEmbeddedBox doc j →
      (restoreTextDivStyles P doc svgContent)[j]? = doc[j]?) := by
  refine ⟨rfl, ?_, ?_, ?_⟩
  · intro fo hfo
    rw [restoreTextDiv_eq, hfo]
  · intro svgContent j hattr
    cases svgContent with
    | none => rfl
    | some root =>
      rw [restoreTextDivStyles_getElem?]
      split
      · cases hn : doc[j]? with
        | none => rfl
        | some n =>
          have hstyle : n.elem.getAttribute "style" = none ∨
              n.elem.getAttribute "style" = some "" := by
            simpa [Document.getAttribute, Document.elem?, hn] using hattr
          have : restoreElem P n.elem = n.elem := by
            rcases hstyle with h | h <;> simp [restoreElem, h]
          simp [this]
      · rfl
  · intro svgContent j hj
    cases svgContent with
    | none => rfl
    | some root =>
      rw [restoreTextDivStyles_getElem?, if_neg (not_mem_textDivs_of_notAnEmbeddedBox hj root)]

/-- C16 on the tree of the repository's test: the div inside the foreignObject
without the type tag (node 6) is the same after the pass. -/
theorem restoration_frame_witness :
    NotAnEmbeddedBox testSvg.toDocument 6 ∧
    (restoreTextDivStyles referencePlatform testSvg.toDocument (some 0))[6]?
      = testSvg.toDocument[6]? :=
  ⟨notAnEmbeddedBox_of_all _ _ (by decide),
    (restoration_frame referencePlatform testSvg.toDocument).2.2.2 (some 0) 6
      (notAnEmbeddedBox_of_all _ _ (by decide))⟩

/-! ## Caret and selection engine -/

/-- Indexing with a natural number. -/
theorem arrayGet?_natCast {α : Type} (array : List α) (k : Nat) :
    arrayGet? array (k : Int) = array[k]? := by
  unfold arrayGet?
  have : ¬ ((k : Int) < 0) := by omega
  rw [if_neg this]
  simp

/-- The index for a point that hits character `i`. -/
theorem getIndexFromPoint_of_hit (chardata : List CharData) (engine : ℚ → ℚ → Int)
    (x y : ℚ) (n : Nat) (hlen : chardata.length = n + 1) (hn : 1 ≤ n)
    (hi : 0 ≤ engine x y) :
    getIndexFromPoint chardata engine x y =
      (arrayGet? chardata (min (engine x y) ((n : Int) - 1))).bind (fun charbb =>
        if x > charbb.x + charbb.width / 2 then some (min (engine x y) ((n : Int) - 1) + 1)
        else some (min (engine x y) ((n : Int) - 1))) := by
  unfold getIndexFromPoint
  have h1 : ¬ chardata.length = 1 := by omega
  have h2 : ¬ engine x y < 0 := by omega
  have h3 : (chardata.length : Int) - 2 = (n : Int) - 1 := by rw [hlen]; push_cast; ring
  rw [if_neg h1]
  simp only [h2, if_false, h3]
  by_cases h4 : engine x y ≥ (n : Int) - 1
  · rw [if_pos h4, min_eq_right h4]
    dsimp only
    cases arrayGet? chardata ((n : Int) - 1) <;> rfl
  · rw [if_neg h4, min_eq_left (by omega)]
    dsimp only
    cases arrayGet? chardata (engine x y) <;> rfl

/-- The horizontal midpoint of cell `k`. -/
theorem cellX_eq {chardata : List CharData} {k : Nat} {cell : CharData}
    (h : chardata[k]? = some cell) : cellX chardata k = cell.x := by
  simp [cellX, h]

theorem cellWidth_eq {chardata : List CharData} {k : Nat} {cell : CharData}
    (h : chardata[k]? = some cell) : cellWidth chardata k = cell.width := by
  simp [cellWidth, h]

/-- Cells laid out left to right start further right the later they come. -/
theorem LeftToRight.cellX_mono {chardata : List CharData} (h : LeftToRight chardata)
    (k k' : Nat) (hk : k ≤ k') (hk' : k' < chardata.length) :
    cellX chardata k ≤ cellX chardata k' := by
  induction k' with
  | zero =>
    have : k = 0 := by omega
    subst this
    exact le_refl _
  | succ m ih =>
    by_cases hkm : k = m + 1
    · subst hkm; exact le_refl _
    · have h1 := ih (by omega) (by omega)
      have h2 := h.2 m hk'
      have h3 := h.1 m (by omega)
      linarith

/-- The midpoint of a cell lies between its start and the start of the next cell. -/
theorem LeftToRight.mid_bounds {chardata : List CharData} (h : LeftToRight chardata)
    (k : Nat) (hk : k + 1 < chardata.length) :
    cellX chardata k ≤ cellX chardata k + cellWidth chardata k / 2 ∧
    cellX chardata k + cellWidth chardata k / 2 ≤ cellX chardata (k + 1) := by
  have h2 := h.2 k hk
  have h3 := h.1 k (by omega)
  constructor <;> linarith

/-- Midpoints are further right the later the cell comes. -/
theorem LeftToRight.mid_mono {chardata : List CharData} (h : LeftToRight chardata)
    (k k' : Nat) (hk : k ≤ k') (hk' : k' + 1 < chardata.length) :
    cellX chardata k + cellWidth chardata k / 2
      ≤ cellX chardata k' + cellWidth chardata k' / 2 := by
  by_cases hkk : k = k'
  · subst hkk; exact le_refl _
  · have h1 := (h.mid_bounds (k) (by omega)).2
    have h2 := h.cellX_mono (k + 1) (k') (by omega) (by omega)
    have h3 := (h.mid_bounds k' hk').1
    linarith

/-- The index for a point that hits no character. -/
theorem getIndexFromPoint_of_miss (chardata : List CharData) (engine : ℚ → ℚ → Int)
    (x y : ℚ) (n : Nat) (hlen : chardata.length = n + 1) (hn : 1 ≤ n)
    (hi : engine x y < 0) (c : Nat) (hc : c = if x ≤ cellX chardata 0 then 0 else n - 1) :
    getIndexFromPoint chardata engine x y =
      if x > cellX chardata c + cellWidth chardata c / 2 then some ((c : Int) + 1)
      else some (c : Int) := by
  unfold getIndexFromPoint
  have h1 : ¬ chardata.length = 1 := by omega
  have h3 : (chardata.length : Int) - 2 = ((n - 1 : Nat) : Int) := by rw [hlen]; omega
  have hpos : 0 < chardata.length := by omega
  have h0 : chardata[0]? = some chardata[0] := List.getElem?_eq_getElem hpos
  have hclt : c < chardata.length := by
    rw [hc]; split <;> omega
  have hcell : chardata[c]? = some (chardata[c]) := List.getElem?_eq_getElem hclt
  rw [if_neg h1]
  simp only [hi, if_true, h3, h0]
  rw [cellX_eq h0] at hc
  by_cases hx : x ≤ chardata[0].x
  · rw [if_pos hx] at hc ⊢
    subst hc
    dsimp only
    have : arrayGet? chardata 0 = some chardata[0] := by
      have := arrayGet?_natCast chardata 0
      simpa [h0] using this
    rw [this]
    simp [cellX_eq h0, cellWidth_eq h0]
  · rw [if_neg hx] at hc ⊢
    subst hc
    dsimp only
    rw [arrayGet?_natCast, hcell]
    simp [cellX_eq hcell, cellWidth_eq hcell]

/-- C18: caret placement with midpoint tie-break.  For a text with no
characters (one cell) `getIndexFromPoint` returns 0.  For a text of n >= 1
characters (n + 1 cells) and a point the hosting engine reports as hitting
character `i`, let `c = min(i, n-1)`: the cell `c` exists, and
`getIndexFromPoint` returns `c` when the x of the point is at most the
horizontal midpoint `x + width/2` of that cell and `c + 1` when it is to the
right of it. -/
theorem caret_midpoint (chardata : List CharData) (engine : ℚ → ℚ → Int) (x y : ℚ) :
    (chardata.length = 1 → getIndexFromPoint chardata engine x y = some 0) ∧
    ∀ (n : Nat) (i : Int), chardata.length = n + 1 → 1 ≤ n → engine x y = i → 0 ≤ i →
      ∃ cell, arrayGet? chardata (min i ((n : Int) - 1)) = some cell ∧
        (x ≤ cell.x + cell.width / 2 →
          getIndexFromPoint chardata engine x y = some (min i ((n : Int) - 1))) ∧
        (cell.x + cell.width / 2 < x →
          getIndexFromPoint chardata engine x y = some (min i ((n : Int) - 1) + 1)) := by
  constructor
  · intro h
    unfold getIndexFromPoint
    rw [if_pos h]
  · intro n i hlen hn hhit hi
    subst hhit
    have hc0 : 0 ≤ min (engine x y) ((n : Int) - 1) := le_min hi (by omega)
    have hc1 : min (engine x y) ((n : Int) - 1) ≤ (n : Int) - 1 := min_le_right _ _
    have hlt : (min (engine x y) ((n : Int) - 1)).toNat < chardata.length := by omega
    have hcell : arrayGet? chardata (min (engine x y) ((n : Int) - 1))
        = some (chardata[(min (engine x y) ((n : Int) - 1)).toNat]) := by
      unfold arrayGet?
      rw [if_neg (by omega), List.getElem?_eq_getElem hlt]
    refine ⟨_, hcell, ?_, ?_⟩
    · intro hx
      rw [getIndexFromPoint_of_hit chardata engine x y n hlen hn hi, hcell, Option.some_bind,
        if_neg (not_lt.2 hx)]
    · intro hx
      rw [getIndexFromPoint_of_hit chardata engine x y n hlen hn hi, hcell, Option.some_bind,
        if_pos hx]

/-- C18 on a text of three characters: a point at x = 14 hits character 1,
whose midpoint is 15, and the caret goes to index 1. -/
theorem caret_midpoint_witness :
    sampleCharNumAtPosition 14 0 = 1 ∧
    ∃ cell, arrayGet? sampleChardata (min 1 (((3 : Nat) : Int) - 1)) = some cell ∧
      (14 ≤ cell.x + cell.width / 2 →
        getIndexFromPoint sampleChardata sampleCharNumAtPosition 14 0
          = some (min 1 (((3 : Nat) : Int) - 1))) ∧
      (cell.x + cell.width / 2 < 14 →
        getIndexFromPoint sampleChardata sampleCharNumAtPosition 14 0
          = some (min 1 (((3 : Nat) : Int) - 1) + 1)) :=
  ⟨by norm_num [sampleCharNumAtPosition],
    (caret_midpoint sampleChardata sampleCharNumAtPosition 14 0).2 3 1 (by decide) (by decide)
      (by norm_num [sampleCharNumAtPosition]) (by decide)⟩

/-- The cell `init` builds for character `i`. -/
theorem foldl_initChardata (textbb : BBox) (position : Nat → ℚ × ℚ) (centre : ℚ) (len : Nat) :
    (List.range len).foldl
      (fun (state : List CharData × ℚ) (i : Nat) =>
        (state.1 ++ [⟨(position i).1, some textbb.y, (position i).2 - (position i).1,
            some textbb.height⟩], (position i).2))
      ([], centre)
    = ((List.range len).map (fun i =>
          (⟨(position i).1, some textbb.y, (position i).2 - (position i).1,
            some textbb.height⟩ : CharData)),
        if len = 0 then centre else (position (len - 1)).2) := by
  induction len with
  | zero => rfl
  | succ k ih =>
    rw [List.range_succ, List.foldl_append, ih]
    simp

/-- C19: character cells.  After `init` on a primitive text shape whose text has
`len` characters, the cell list has exactly `len + 1` entries (on every
platform).  On a platform with accurate character positions, entry `i < len`
has `x` equal to the start position of character `i` and `width` equal to its
end position minus its start position (and the `y` and `height` of the bounding
box), and the last entry is a zero-width cell whose `x` is the end position of
the last character, or the horizontal centre of the bounding box of the text
when `len = 0`. -/
theorem initChardata_cells (len : Nat) (textbb : BBox) (getStart getEnd : Nat → ℚ)
    (zoom contentW : ℚ) :
    (∀ good, (initChardata len textbb getStart getEnd good zoom contentW).length = len + 1) ∧
    (∀ i, i < len →
      (initChardata len textbb getStart getEnd true zoom contentW)[i]?
        = some ⟨getStart i, some textbb.y, getEnd i - getStart i, some textbb.height⟩) ∧
    (initChardata len textbb getStart getEnd true zoom contentW)[len]?
      = some ⟨if len = 0 then textbb.x + textbb.width / 2 else getEnd (len - 1), none, 0,
          none⟩ := by
  refine ⟨?_, ?_, ?_⟩
  · intro good
    unfold initChardata
    simp only [foldl_initChardata textbb
      (charPositions getStart getEnd good zoom contentW)]
    simp
  · intro i hi
    unfold initChardata
    simp only [foldl_initChardata textbb
      (charPositions getStart getEnd true zoom contentW)]
    rw [List.getElem?_append_left (by simpa using hi)]
    simp [hi, charPositions]
  · unfold initChardata
    simp only [foldl_initChardata textbb
      (charPositions getStart getEnd true zoom contentW)]
    rw [List.getElem?_append_right (by simp)]
    simp [charPositions]

/-- C19 on a text of two characters that start at 3 and 8 and end at 8 and 15. -/
theorem initChardata_cells_witness :
    (1 : Nat) < 2 ∧
    (initChardata 2 ⟨3, 7, 12, 9⟩ (fun i => if i = 0 then 3 else 8)
        (fun i => if i = 0 then 8 else 15) true 1 0)[1]?
      = some ⟨(fun i => if i = 0 then (3 : ℚ) else 8) 1, some 7,
          (fun i => if i = 0 then (8 : ℚ) else 15) 1 - (fun i => if i = 0 then (3 : ℚ) else 8) 1,
          some 9⟩ :=
  ⟨by decide,
    (initChardata_cells 2 ⟨3, 7, 12, 9⟩ (fun i => if i = 0 then 3 else 8)
      (fun i => if i = 0 then 8 else 15) 1 0).2.1 1 (by decide)⟩

/-- Once there is a cell list, `getIndexFromPoint` returns an index, and the
index is that of a cell. -/
theorem getIndexFromPoint_isSome (chardata : List CharData) (engine : ℚ → ℚ → Int) (x y : ℚ)
    (hcells : 1 ≤ chardata.length) :
    ∃ i : Int, getIndexFromPoint chardata engine x y = some i ∧ 0 ≤ i ∧
      i < chardata.length := by
  by_cases hone : chardata.length = 1
  · exact ⟨0, by simp [getIndexFromPoint, hone], le_refl _, by omega⟩
  · obtain ⟨n, hlen⟩ : ∃ n, chardata.length = n + 1 := ⟨chardata.length - 1, by omega⟩
    have hn : 1 ≤ n := by omega
    by_cases hi : 0 ≤ engine x y
    · have hc0 : 0 ≤ min (engine x y) ((n : Int) - 1) := le_min hi (by omega)
      have hc1 : min (engine x y) ((n : Int) - 1) ≤ (n : Int) - 1 := min_le_right _ _
      have hlt : (min (engine x y) ((n : Int) - 1)).toNat < chardata.length := by omega
      have hcell : arrayGet? chardata (min (engine x y) ((n : Int) - 1))
          = some (chardata[(min (engine x y) ((n : Int) - 1)).toNat]) := by
        unfold arrayGet?
        rw [if_neg (by omega), List.getElem?_eq_getElem hlt]
      rw [getIndexFromPoint_of_hit chardata engine x y n hlen hn hi, hcell, Option.some_bind]
      split
      · exact ⟨_, rfl, by omega, by omega⟩
      · exact ⟨_, rfl, by omega, by omega⟩
    · rw [getIndexFromPoint_of_miss chardata engine x y n hlen hn (by omega) _ rfl]
      split <;> split <;> exact ⟨_, rfl, by omega, by omega⟩

/-- C20: selection ranges are normalised.  Once `init` has built a cell list,
for every selection start index `i1` held by the input surface and every
pointer position, `getIndexFromPoint` gives an index `i2` and
`setEndSelectionFromPoint` hands `setSelection` the range with start
`min(i1, i2)` and end `max(i1, i2)` (whatever `setSelection` then does with it),
so start <= end; and `setSelection` with start = end hands that index to
`setCursor` and does nothing else, so the selection collapses to a caret. -/
theorem selection_normalised {α : Type} (i1 : Int) (chardata : List CharData)
    (engine : ℚ → ℚ → Int) (x y : ℚ) (apply : Bool) (hcells : 1 ≤ chardata.length) :
    (∃ i2 : Int, getIndexFromPoint chardata engine x y = some i2 ∧
      (∀ request : Int → Int → Bool → α,
        setEndSelectionFromPoint i1 chardata engine request x y apply
          = some (request (min i1 i2) (max i1 i2) (!apply))) ∧
      min i1 i2 ≤ max i1 i2 ∧
      (∀ (setCursor : Int → α) (drawSelection : Int → Int → Bool → α), i1 = i2 →
        setEndSelectionFromPoint i1 chardata engine (setSelection setCursor drawSelection)
          x y apply = some (setCursor i2))) ∧
    (∀ (setCursor : Int → α) (drawSelection : Int → Int → Bool → α) (k : Int) (skipInput : Bool),
      setSelection setCursor drawSelection k k skipInput = setCursor k) := by
  obtain ⟨i2, hindex, _, _⟩ := getIndexFromPoint_isSome chardata engine x y hcells
  refine ⟨⟨i2, hindex, ?_, min_le_max, ?_⟩, ?_⟩
  · intro request
    simp only [setEndSelectionFromPoint, hindex]
  · intro setCursor drawSelection h
    subst h
    simp only [setEndSelectionFromPoint, hindex, setSelection, min_self, max_self, if_true]
  · intro setCursor drawSelection k skipInput
    simp only [setSelection, if_true]

/-- C20 on a text of three characters, with the selection start at 3: for the
pointer at x = 14 the range asked for is normalised, and a collapsed range
goes to `setCursor`. -/
theorem selection_normalised_witness :
    (∃ i2 : Int, getIndexFromPoint sampleChardata sampleCharNumAtPosition 14 0 = some i2 ∧
      (∀ request : Int → Int → Bool → Int × Int × Bool,
        setEndSelectionFromPoint 3 sampleChardata sampleCharNumAtPosition request 14 0 false
          = some (request (min 3 i2) (max 3 i2) (!false))) ∧
      min 3 i2 ≤ max 3 i2 ∧
      (∀ (setCursor : Int → Int × Int × Bool)
        (drawSelection : Int → Int → Bool → Int × Int × Bool), 3 = i2 →
        setEndSelectionFromPoint 3 sampleChardata sampleCharNumAtPosition
          (setSelection setCursor drawSelection) 14 0 false = some (setCursor i2))) ∧
    (∀ (setCursor : Int → Int × Int × Bool)
      (drawSelection : Int → Int → Bool → Int × Int × Bool) (k : Int) (skipInput : Bool),
      setSelection setCursor drawSelection k k skipInput = setCursor k) :=
  selection_normalised 3 sampleChardata sampleCharNumAtPosition 14 0 false (by decide)

/-- Where a point lies relative to the midpoints around the index it gets: the
index `r` is at most `n`, the point is not left of the midpoint of cell `r - 1`
and not right of the midpoint of cell `r`. -/
theorem getIndexFromPoint_between_midpoints (chardata : List CharData)
    (engine : ℚ → ℚ → Int) (x y : ℚ) (n : Nat) (hlen : chardata.length = n + 1) (hn : 1 ≤ n)
    (hlayout : LeftToRight chardata)
    (hreport : ReportsContainingCell chardata (engine x y) x) :
    ∃ r : Nat, getIndexFromPoint chardata engine x y = some (r : Int) ∧ r ≤ n ∧
      (r = 0 ∨ cellX chardata (r - 1) + cellWidth chardata (r - 1) / 2 ≤ x) ∧
      (r = n ∨ x ≤ cellX chardata r + cellWidth chardata r / 2) := by
  rcases hreport with ⟨hi0, hilt, hleft, hright⟩ | ⟨hneg, hside⟩
  · -- the point hits character `k`
    obtain ⟨k, hk⟩ : ∃ k : Nat, engine x y = (k : Int) := ⟨(engine x y).toNat, by omega⟩
    rw [hk] at hilt hleft hright
    simp only [Int.toNat_ofNat] at hleft hright
    have hkn : k < n := by omega
    have hklen : k < chardata.length := by omega
    have hcell : chardata[k]? = some chardata[k] := List.getElem?_eq_getElem hklen
    have hget := getIndexFromPoint_of_hit chardata engine x y n hlen hn hi0
    have hmin : min (engine x y) ((n : Int) - 1) = (k : Int) := by
      rw [hk]; exact min_eq_left (by omega)
    rw [hmin, arrayGet?_natCast, hcell, Option.some_bind] at hget
    rw [← cellX_eq hcell, ← cellWidth_eq hcell] at hget
    by_cases hx : x > cellX chardata k + cellWidth chardata k / 2
    · rw [if_pos hx] at hget
      refine ⟨k + 1, by rw [hget]; push_cast; rfl, by omega, Or.inr ?_, ?_⟩
      · simpa using le_of_lt hx
      · by_cases hlast : k + 1 = n
        · exact Or.inl hlast
        · right
          have h1 := hlayout.2 k (by omega)
          have h2 := (hlayout.mid_bounds (k + 1) (by omega)).1
          linarith
    · rw [if_neg hx] at hget
      refine ⟨k, hget, by omega, ?_, Or.inr (not_lt.1 hx)⟩
      by_cases hk0 : k = 0
      · exact Or.inl hk0
      · right
        have h1 := (hlayout.mid_bounds (k - 1) (by omega)).2
        have h2 : k - 1 + 1 = k := by omega
        rw [h2] at h1
        linarith
  · -- the point hits no character
    have hlast : chardata.length - 1 = n := by omega
    rw [hlast] at hside
    by_cases hx0 : x ≤ cellX chardata 0
    · have hget := getIndexFromPoint_of_miss chardata engine x y n hlen hn hneg 0
        (by rw [if_pos hx0])
      have hm := (hlayout.mid_bounds (0) (by omega)).1
      rw [if_neg (by linarith)] at hget
      exact ⟨0, hget, by omega, Or.inl rfl, Or.inr (by linarith)⟩
    · have hend : cellX chardata n ≤ x := by
        rcases hside with h | h
        · exact absurd h hx0
        · exact h
      have hget := getIndexFromPoint_of_miss chardata engine x y n hlen hn hneg (n - 1)
        (by rw [if_neg hx0])
      by_cases hx : x > cellX chardata (n - 1) + cellWidth chardata (n - 1) / 2
      · rw [if_pos hx] at hget
        refine ⟨n, ?_, le_refl _, Or.inr (le_of_lt hx), Or.inl rfl⟩
        rw [hget]
        congr 1
        omega
      · rw [if_neg hx] at hget
        refine ⟨n - 1, hget, by omega, ?_, Or.inr (not_lt.1 hx)⟩
        by_cases hn1 : n - 1 = 0
        · exact Or.inl hn1
        · right
          have h1 := (hlayout.mid_bounds (n - 1 - 1) (by omega)).2
          have h2 : n - 1 - 1 + 1 = n - 1 := by omega
          rw [h2] at h1
          have h3 := hlayout.cellX_mono (n - 1) (n) (by omega) (by omega)
          linarith

/-- C17: caret index monotonicity.  Take a primitive text shape after `init`
(at least one cell) whose character cells are laid out left to right without
gaps, and a hosting engine that reports, for the points looked at, the
character whose cell contains the point (or no character at or beyond an end
of the text).  Then for all pointer x-coordinates `x1 <= x2` and the same y,
`getIndexFromPoint` returns an index for both and the index for `x1` is at most
the index for `x2`. -/
theorem caret_index_monotone (chardata : List CharData) (engine : ℚ → ℚ → Int)
    (x1 x2 y : ℚ) (hcells : 1 ≤ chardata.length) (hlayout : LeftToRight chardata)
    (hreport1 : ReportsContainingCell chardata (engine x1 y) x1)
    (hreport2 : ReportsContainingCell chardata (engine x2 y) x2)
    (hx : x1 ≤ x2) :
    ∃ r1 r2 : Int, getIndexFromPoint chardata engine x1 y = some r1 ∧
      getIndexFromPoint chardata engine x2 y = some r2 ∧ r1 ≤ r2 := by
  by_cases hone : chardata.length = 1
  · refine ⟨0, 0, ?_, ?_, le_refl _⟩ <;> simp [getIndexFromPoint, hone]
  · obtain ⟨n, hlen⟩ : ∃ n, chardata.length = n + 1 := ⟨chardata.length - 1, by omega⟩
    have hn : 1 ≤ n := by omega
    obtain ⟨r1, hr1, hr1n, hlow1, _⟩ :=
      getIndexFromPoint_between_midpoints chardata engine x1 y n hlen hn hlayout hreport1
    obtain ⟨r2, hr2, _, _, hup2⟩ :=
      getIndexFromPoint_between_midpoints chardata engine x2 y n hlen hn hlayout hreport2
    refine ⟨r1, r2, hr1, hr2, ?_⟩
    by_contra hgt
    have hlt : r2 < r1 := by
      have : ¬ ((r1 : Int) ≤ (r2 : Int)) := hgt
      omega
    have hlow : cellX chardata (r1 - 1) + cellWidth chardata (r1 - 1) / 2 ≤ x1 := by
      rcases hlow1 with h | h
      · omega
      · exact h
    have hup : x2 ≤ cellX chardata r2 + cellWidth chardata r2 / 2 := by
      rcases hup2 with h | h
      · omega
      · exact h
    have hmid := hlayout.mid_mono (r2) (r1 - 1) (by omega) (by omega)
    have hsame : x1 = x2 := by linarith
    rw [hsame, hr2] at hr1
    have : (r2 : Int) = (r1 : Int) := Option.some.inj hr1
    omega

/-- The sample cells are laid out left to right without gaps. -/
theorem leftToRight_sampleChardata : LeftToRight sampleChardata := by
  constructor
  · intro k hk
    have hk4 : k < 4 := by simpa [sampleChardata] using hk
    interval_cases k <;> norm_num [cellWidth, sampleChardata]
  · intro k hk
    have hk4 : k + 1 < 4 := by simpa [sampleChardata] using hk
    have : k < 3 := by omega
    interval_cases k <;> norm_num [cellX, cellWidth, sampleChardata]

/-- C17 on a text of three characters: the point at x = 4 gets index 0 or more
and the point at x = 26 an index that is not smaller. -/
theorem caret_index_monotone_witness :
    ∃ r1 r2 : Int, getIndexFromPoint sampleChardata sampleCharNumAtPosition 4 0 = some r1 ∧
      getIndexFromPoint sampleChardata sampleCharNumAtPosition 26 0 = some r2 ∧ r1 ≤ r2 :=
  caret_index_monotone sampleChardata sampleCharNumAtPosition 4 26 0 (by decide)
    leftToRight_sampleChardata
    (Or.inl (by
      have h : sampleCharNumAtPosition 4 0 = 0 := by norm_num [sampleCharNumAtPosition]
      rw [h]
      norm_num [sampleChardata, cellX, cellWidth]))
    (Or.inl (by
      have h : sampleCharNumAtPosition 26 0 = 2 := by norm_num [sampleCharNumAtPosition]
      have h2 : (2 : Int).toNat = 2 := rfl
      rw [h, h2]
      norm_num [sampleChardata, cellX, cellWidth]))
    (by norm_num)

/-! ## Identity tables and decoration tokens -/

theorem lookup_identity_table (keys : List String) (key : String) :
    (keys.map (fun k => (k, k))).lookup key = if key ∈ keys then some key else none := by
  induction keys with
  | nil => simp
  | cons k ks ih =>
    rw [List.map_cons, lookup_cons_ite, ih]
    by_cases h : key = k
    · simp [h]
    · simp [h]

/-! ## Word selection -/

theorem substr_eq_take (str : List Nat) (k : Nat) (hk : k ≤ str.length) :
    substr str 0 (some (k : Int)) = str.take k := by
  unfold substr
  have h1 : min (0 : Int) (str.length : Int) = 0 := by omega
  have h2 : min (max (k : Int) 0) (str.length : Int) = k := by omega
  simp only [lt_self_iff_false, if_false, h1, h2, zero_add]
  have h3 : min (k : Int) (str.length : Int) = k := by omega
  simp [h3]

theorem substr_eq_drop (str : List Nat) (k : Nat) (hk : k ≤ str.length) :
    substr str (k : Int) none = str.drop k := by
  unfold substr
  have h0 : ¬ ((k : Int) < 0) := by omega
  have h1 : min (k : Int) (str.length : Int) = k := by omega
  have h2 : min ((k : Int) + (str.length : Int)) (str.length : Int) = str.length := by omega
  simp only [h0, if_false, h1, h2]
  have h3 : ((str.length : Int) - (k : Int)).toNat = str.length - k := by omega
  rw [h3, Int.toNat_ofNat]
  exact List.take_of_length_le (by simp)

theorem replaceTrailingWord_spec (s : List Nat) :
    (replaceTrailingWord s).length ≤ s.length ∧
    (∀ j, (replaceTrailingWord s).length ≤ j → j < s.length →
      ∃ c, s[j]? = some c ∧ isWordUnit c = true) ∧
    (∀ c, 0 < (replaceTrailingWord s).length →
      s[(replaceTrailingWord s).length - 1]? = some c → isWordUnit c = false) := by
  induction s with
  | nil => simp [replaceTrailingWord]
  | cons c cs ih =>
    obtain ⟨ih1, ih2, ih3⟩ := ih
    by_cases hall : (c :: cs).all isWordUnit = true
    · have hr : replaceTrailingWord (c :: cs) = [] := by simp [replaceTrailingWord, hall]
      rw [hr]
      refine ⟨by simp, ?_, ?_⟩
      · intro j _ hj
        have hmem : (c :: cs)[j] ∈ c :: cs := List.getElem_mem hj
        exact ⟨(c :: cs)[j], List.getElem?_eq_getElem hj, (List.all_eq_true.mp hall) _ hmem⟩
      · intro x hx
        simp at hx
    · have hr : replaceTrailingWord (c :: cs) = c :: replaceTrailingWord cs := by
        simp only [replaceTrailingWord, hall]
        simp
      rw [hr]
      refine ⟨by simpa using ih1, ?_, ?_⟩
      · intro j hj hlt
        obtain ⟨j', rfl⟩ : ∃ j', j = j' + 1 := ⟨j - 1, by simp at hj; omega⟩
        simp only [List.length_cons] at hj hlt
        simpa using ih2 j' (by omega) (by omega)
      · intro x _ hx
        simp only [List.length_cons, Nat.add_sub_cancel] at hx
        by_cases hzero : (replaceTrailingWord cs).length = 0
        · rw [hzero] at hx
          simp at hx
          subst hx
          by_contra hword
          apply hall
          rw [List.all_cons]
          simp only [Bool.and_eq_true]
          refine ⟨by simpa using hword, ?_⟩
          rw [List.all_eq_true]
          intro y hy
          obtain ⟨n, hn, rfl⟩ := List.getElem_of_mem hy
          obtain ⟨c', hc', hw⟩ := ih2 n (by omega) hn
          rw [List.getElem?_eq_getElem hn] at hc'
          cases hc'
          exact hw
        · obtain ⟨m, hm⟩ : ∃ m, (replaceTrailingWord cs).length = m + 1 :=
            ⟨(replaceTrailingWord cs).length - 1, by omega⟩
          rw [hm] at hx
          simp only [List.getElem?_cons_succ] at hx
          exact ih3 x (by omega) (by rw [hm]; simpa using hx)

theorem takeWhile_isWordUnit_spec (s : List Nat) :
    (s.takeWhile isWordUnit).length ≤ s.length ∧
    (∀ j, j < (s.takeWhile isWordUnit).length → ∃ c, s[j]? = some c ∧ isWordUnit c = true) ∧
    (∀ c, s[(s.takeWhile isWordUnit).length]? = some c → isWordUnit c = false) := by
  induction s with
  | nil => simp
  | cons c cs ih =>
    obtain ⟨ih1, ih2, ih3⟩ := ih
    by_cases hc : isWordUnit c = true
    · rw [List.takeWhile_cons_of_pos hc]
      refine ⟨by simpa using ih1, ?_, ?_⟩
      · intro j hj
        cases j with
        | zero => exact ⟨c, by simp, hc⟩
        | succ j' =>
          simp only [List.length_cons] at hj
          simpa using ih2 j' (by omega)
      · intro x hx
        simp only [List.length_cons, List.getElem?_cons_succ] at hx
        exact ih3 x hx
    · rw [List.takeWhile_cons_of_neg hc]
      refine ⟨by simp, by simp, ?_⟩
      intro x hx
      simp at hx
      subst hx
      simpa using hc

/-- The range `selectWord` computes for a hit index inside the text. -/
theorem wordRange_spec (str : List Nat) (k : Nat) (hk : k ≤ str.length) :
    ∃ first last : Nat, wordRange str (k : Int) = ((first : Int), (last : Int)) ∧
      first ≤ k ∧ k ≤ last ∧ last ≤ str.length ∧
      (∀ j, first ≤ j → j < last → ∃ c, str[j]? = some c ∧ isWordUnit c = true) ∧
      (∀ c, 0 < first → str[first - 1]? = some c → isWordUnit c = false) ∧
      (∀ c, str[last]? = some c → isWordUnit c = false) := by
  obtain ⟨p1, p2, p3⟩ := replaceTrailingWord_spec (str.take k)
  obtain ⟨t1, t2, t3⟩ := takeWhile_isWordUnit_spec (str.drop k)
  have hlenTake : (str.take k).length = k := by simp [hk]
  have hlenDrop : (str.drop k).length = str.length - k := by simp
  refine ⟨(replaceTrailingWord (str.take k)).length,
    k + ((str.drop k).takeWhile isWordUnit).length, ?_, ?_, ?_, ?_, ?_, ?_, ?_⟩
  · unfold wordRange
    rw [substr_eq_take str k hk, substr_eq_drop str k hk]
    unfold matchLeadingWord
    by_cases hrun : (str.drop k).takeWhile isWordUnit = []
    · simp [hrun]
    · have hne : ((str.drop k).takeWhile isWordUnit).isEmpty = false := by
        cases h : (str.drop k).takeWhile isWordUnit with
        | nil => exact absurd h hrun
        | cons _ _ => rfl
      simp only [hne]
      simp [add_comm]
  · omega
  · omega
  · omega
  · intro j hj hlt
    by_cases hjk : j < k
    · obtain ⟨c, hc, hw⟩ := p2 j hj (by omega)
      refine ⟨c, ?_, hw⟩
      rw [List.getElem?_take] at hc
      simpa [hjk] using hc
    · obtain ⟨c, hc, hw⟩ := t2 (j - k) (by omega)
      refine ⟨c, ?_, hw⟩
      rw [List.getElem?_drop] at hc
      rwa [show k + (j - k) = j by omega] at hc
  · intro c hpos hc
    apply p3 c hpos
    rw [List.getElem?_take]
    have : (replaceTrailingWord (str.take k)).length - 1 < k := by omega
    simpa [this] using hc
  · intro c hc
    apply t3 c
    rw [List.getElem?_drop]
    exact hc

/-- C27: identity tables.  A key of the weight table is looked up with a value
iff the key is one of `normal`, `bold`, `bolder`, `lighter`, `100`, ..., `900`
and the value is the key itself; the same holds for the slant table with
`normal`, `italic`, `oblique` and for the decoration table with `none`,
`underline`, `overline`, `line-through`.  So each table maps each of its
keywords to itself and has no other key. -/
theorem identity_tables (key value : String) :
    (svgFontWeightToCssFontWeight.lookup key = some value ↔
      key ∈ fontWeightKeywords ∧ value = key) ∧
    (svgFontStyleToCssFontStyle.lookup key = some value ↔
      key ∈ fontStyleKeywords ∧ value = key) ∧
    (svgTextDecorationToCssTextDecoration.lookup key = some value ↔
      key ∈ decorationKeywords ∧ value = key) := by
  have hw : svgFontWeightToCssFontWeight = fontWeightKeywords.map (fun k => (k, k)) := rfl
  have hs : svgFontStyleToCssFontStyle = fontStyleKeywords.map (fun k => (k, k)) := rfl
  have hd : svgTextDecorationToCssTextDecoration = decorationKeywords.map (fun k => (k, k)) :=
    rfl
  rw [hw, hs, hd, lookup_identity_table, lookup_identity_table, lookup_identity_table]
  refine ⟨?_, ?_, ?_⟩ <;>
  · split_ifs with h
    · simp only [Option.some.injEq]
      exact ⟨fun e => ⟨h, e.symm⟩, fun e => e.2.symm⟩
    · simp [h]

/-- A decoration token is an own key of the decoration table and is mapped to
itself, on every host. -/
theorem get_decoration_token (P : Platform) (token : String) (h : token ∈ decorationKeywords) :
    Table.get P svgTextDecorationToCssTextDecoration token = some token := by
  have hd : svgTextDecorationToCssTextDecoration = decorationKeywords.map (fun k => (k, k)) :=
    rfl
  unfold Table.get
  rw [hd, lookup_identity_table, if_pos h]

/-- C28, as stated, fails: the decoration table has no entry for the value
`underline overline`, so the mapping does not yield the same value for it (the
lookup yields `undefined`). -/
theorem decoration_two_tokens_counterexample :
    Table.get referencePlatform svgTextDecorationToCssTextDecoration "underline overline"
      ≠ some "underline overline" ∧
    Table.get referencePlatform svgTextDecorationToCssTextDecoration "underline overline"
      = none := by
  decide

/-- C28, amended: the decoration table maps each of the tokens `none`,
`underline`, `overline`, `line-through` to itself, so a sequence of these
tokens mapped token by token is the same sequence, token for token and in the
same order; looked up whole, a value is a key of the table iff it is one of
the four single tokens. -/
theorem decoration_tokens_unchanged (P : Platform) (tokens : List String)
    (htokens : ∀ token ∈ tokens, token ∈ decorationKeywords) :
    tokens.map (fun token => Table.get P svgTextDecorationToCssTextDecoration token)
      = tokens.map some ∧
    (∀ value : String, svgTextDecorationToCssTextDecoration.lookup value ≠ none ↔
      value ∈ decorationKeywords) := by
  refine ⟨?_, ?_⟩
  · apply List.map_congr_left
    intro token hmem
    exact get_decoration_token P token (htokens token hmem)
  · intro value
    have hd : svgTextDecorationToCssTextDecoration = decorationKeywords.map (fun k => (k, k)) :=
      rfl
    rw [hd, lookup_identity_table]
    split_ifs with h <;> simp [h]

/-- C28 (amended) on the tokens of `underline overline`. -/
theorem decoration_tokens_unchanged_witness :
    (∀ token ∈ ["underline", "overline"], token ∈ decorationKeywords) ∧
    ["underline", "overline"].map
        (fun token => Table.get referencePlatform svgTextDecorationToCssTextDecoration token)
      = ["underline", "overline"].map some :=
  ⟨by decide, (decoration_tokens_unchanged referencePlatform ["underline", "overline"]
      (by decide)).1⟩

/-! ## Validity of the caret index -/

theorem length_initChardata (len : Nat) (textbb : BBox) (getStart getEnd : Nat → ℚ)
    (good : Bool) (zoom contentW : ℚ) :
    (initChardata len textbb getStart getEnd good zoom contentW).length = len + 1 := by
  unfold initChardata
  simp only [foldl_initChardata textbb (charPositions getStart getEnd good zoom contentW)]
  simp

/-- C29: the caret index is always a valid cell index.  For the cell list
`init` builds for a text of `len` characters, for every point and every
character number the hosting engine reports, `getIndexFromPoint` returns an
index `i` with `0 ≤ i ≤ len`, and the cell `chardata[i]` that `setCursor` reads
exists.  For every selection start `i1` of the input surface with
`0 ≤ i1 ≤ len`, the cells `chardata[min i1 i]` and `chardata[max i1 i]` that
`setSelection` reads after `setEndSelectionFromPoint` exist as well. -/
theorem caret_index_valid (len : Nat) (textbb : BBox) (getStart getEnd : Nat → ℚ)
    (good : Bool) (zoom contentW : ℚ) (engine : ℚ → ℚ → Int) (x y : ℚ) :
    ∃ i : Int,
      getIndexFromPoint (initChardata len textbb getStart getEnd good zoom contentW) engine x y
        = some i ∧
      0 ≤ i ∧ i ≤ len ∧
      (arrayGet? (initChardata len textbb getStart getEnd good zoom contentW) i).isSome = true ∧
      ∀ i1 : Int, 0 ≤ i1 → i1 ≤ len →
        (arrayGet? (initChardata len textbb getStart getEnd good zoom contentW)
          (min i1 i)).isSome = true ∧
        (arrayGet? (initChardata len textbb getStart getEnd good zoom contentW)
          (max i1 i)).isSome = true := by
  have hlen := length_initChardata len textbb getStart getEnd good zoom contentW
  obtain ⟨i, hi, h0, hlt⟩ := getIndexFromPoint_isSome
    (initChardata len textbb getStart getEnd good zoom contentW) engine x y (by omega)
  have hcell : ∀ j : Int, 0 ≤ j → j ≤ len →
      (arrayGet? (initChardata len textbb getStart getEnd good zoom contentW) j).isSome
        = true := by
    intro j hj0 hjn
    have hnot : ¬ j < 0 := by omega
    have hj : j.toNat < (initChardata len textbb getStart getEnd good zoom contentW).length := by
      omega
    simp [arrayGet?, hnot, List.getElem?_eq_getElem hj]
  rw [hlen] at hlt
  refine ⟨i, hi, h0, by omega, hcell i h0 (by omega), ?_⟩
  intro i1 h1 h2
  exact ⟨hcell _ (le_min h1 h0) (by omega), hcell _ (by omega) (by omega)⟩

/-- C29 on a text of two characters, a point that hits no character and a
selection that starts at the end of the text. -/
theorem caret_index_valid_witness :
    ∃ i : Int,
      getIndexFromPoint (initChardata 2 ⟨3, 7, 12, 9⟩ (fun k => if k = 0 then 3 else 8)
        (fun k => if k = 0 then 8 else 15) true 1 0) (fun _ _ => -1) 40 0 = some i ∧
      0 ≤ i ∧ i ≤ (2 : Nat) ∧
      (arrayGet? (initChardata 2 ⟨3, 7, 12, 9⟩ (fun k => if k = 0 then 3 else 8)
        (fun k => if k = 0 then 8 else 15) true 1 0) (min 2 i)).isSome = true := by
  obtain ⟨i, hi, h0, hn, _, hsel⟩ := caret_index_valid 2 ⟨3, 7, 12, 9⟩
    (fun k => if k = 0 then 3 else 8) (fun k => if k = 0 then 8 else 15) true 1 0
    (fun _ _ => -1) 40 0
  exact ⟨i, hi, h0, hn, (hsel 2 (by decide) (by decide)).1⟩

/-! ## Text-edit mode controller: the caret functions return -/

theorem Editor.setCursor_isSome (H : TextHost) (e : Editor) (index : Int) (input : TextInput)
    (textbb : BBox) (hinput : e.textinput = some input) (hbb : e.textbb = some textbb)
    (hcell : (arrayGet? e.chardata index).isSome = true) :
    (Editor.setCursor H (some index) e).isSome = true := by
  obtain ⟨cell, hcell⟩ := Option.isSome_iff_exists.mp hcell
  unfold Editor.setCursor
  rw [hinput]
  cases hb : e.blinker <;> simp [Editor.emit, hcell, hbb, hb]

theorem Editor.drawSelection_isSome (H : TextHost) (e : Editor) (start endIndex : Int)
    (skipInput : Bool) (input : TextInput) (textbb : BBox) (line : CursorLine)
    (hinput : e.textinput = some input) (hbb : e.textbb = some textbb)
    (hcursor : e.cursor = some line)
    (hstart : (arrayGet? e.chardata start).isSome = true)
    (hend : (arrayGet? e.chardata endIndex).isSome = true) :
    (Editor.drawSelection H start endIndex skipInput e).isSome = true := by
  obtain ⟨startbb, hstart⟩ := Option.isSome_iff_exists.mp hstart
  obtain ⟨endbb, hend⟩ := Option.isSome_iff_exists.mp hend
  unfold Editor.drawSelection
  cases skipInput <;> simp [hinput, hstart, hend, hbb, hcursor]

theorem Editor.setSelection_isSome (H : TextHost) (e : Editor) (start endIndex : Int)
    (skipInput : Bool) (input : TextInput) (textbb : BBox) (line : CursorLine)
    (hinput : e.textinput = some input) (hbb : e.textbb = some textbb)
    (hcursor : e.cursor = some line)
    (hstart : (arrayGet? e.chardata start).isSome = true)
    (hend : (arrayGet? e.chardata endIndex).isSome = true) :
    (Editor.setSelection H start endIndex skipInput e).isSome = true := by
  unfold Editor.setSelection SvgEdit.setSelection
  split_ifs
  · exact Editor.setCursor_isSome H e endIndex input textbb hinput hbb hend
  · exact Editor.drawSelection_isSome H e start endIndex skipInput input textbb line hinput hbb
      hcursor hstart hend

theorem arrayGet?_isSome_of_lt {α : Type} (array : List α) (k : Nat) (h : k < array.length) :
    (arrayGet? array (k : Int)).isSome = true := by
  have hnot : ¬ ((k : Int) < 0) := by omega
  simp [arrayGet?, hnot, List.getElem?_eq_getElem h]

/-- C21: word selection.  When double-click is allowed, for every text and
every hit index `k` with `0 ≤ k ≤ length`, `selectWord` hands to `setSelection`
a range `[first, last)` with `first ≤ k ≤ last ≤ length` in which every code
unit is an ASCII letter or digit, and the range is maximal: the code unit just
before `first` (if any) and the code unit at `last` (if any) are not ASCII
letters or digits.  Afterwards it registers `selectAll` as click callback.
While the caret exists and there is a cell for every index up to the length of
the text, the call returns. -/
theorem selectWord_range (H : TextHost) (target shape : NodeRef) (pageX pageY : ℚ)
    (e : Editor) (k : Nat)
    (hdbl : e.allowDbl = true) (hcur : e.curtext = some shape)
    (hhit : Editor.getIndexFromPoint H e
      (screenToPt H e ((H.transformPoint pageX pageY H.rootSctm).1 * H.zoom)
        ((H.transformPoint pageX pageY H.rootSctm).2 * H.zoom)).1
      (screenToPt H e ((H.transformPoint pageX pageY H.rootSctm).1 * H.zoom)
        ((H.transformPoint pageX pageY H.rootSctm).2 * H.zoom)).2 = some (k : Int))
    (hk : k ≤ (H.textContent shape).length) :
    ∃ first last : Nat,
      first ≤ k ∧ k ≤ last ∧ last ≤ (H.textContent shape).length ∧
      (∀ j, first ≤ j → j < last →
        ∃ c, (H.textContent shape)[j]? = some c ∧ isWordUnit c = true) ∧
      (∀ c, 0 < first → (H.textContent shape)[first - 1]? = some c → isWordUnit c = false) ∧
      (∀ c, (H.textContent shape)[last]? = some c → isWordUnit c = false) ∧
      Editor.selectWord H target pageX pageY e =
        (Editor.setSelection H (first : Int) (last : Int) false e).map (fun e' =>
          (e'.addEventListener target "click" "selectAll").emit
            (.setTimeout "removeSelectAll" 300)) ∧
      (e.textinput ≠ none → e.textbb ≠ none → e.cursor ≠ none →
        e.chardata.length = (H.textContent shape).length + 1 →
        (Editor.selectWord H target pageX pageY e).isSome = true) := by
  obtain ⟨first, last, hrange, h1, h2, h3, h4, h5, h6⟩ :=
    wordRange_spec (H.textContent shape) k hk
  have hcall : Editor.selectWord H target pageX pageY e =
      (Editor.setSelection H (first : Int) (last : Int) false e).map (fun e' =>
        (e'.addEventListener target "click" "selectAll").emit
          (.setTimeout "removeSelectAll" 300)) := by
    unfold Editor.selectWord
    rw [hdbl, hcur]
    simp only [hhit, hrange]
    cases Editor.setSelection H (first : Int) (last : Int) false e <;> rfl
  refine ⟨first, last, h1, h2, h3, h4, h5, h6, hcall, ?_⟩
  intro hinput hbb hcursor hcells
  obtain ⟨input, hinput⟩ := Option.ne_none_iff_exists'.mp hinput
  obtain ⟨textbb, hbb⟩ := Option.ne_none_iff_exists'.mp hbb
  obtain ⟨line, hcursor⟩ := Option.ne_none_iff_exists'.mp hcursor
  rw [hcall, Option.isSome_map']
  exact Editor.setSelection_isSome H e first last false input textbb line hinput hbb hcursor
    (arrayGet?_isSome_of_lt _ _ (by omega)) (arrayGet?_isSome_of_lt _ _ (by omega))

theorem sampleSession_hit :
    Editor.getIndexFromPoint (sampleTextHost sampleTextContent) sampleSession
      (screenToPt (sampleTextHost sampleTextContent) sampleSession
        (((sampleTextHost sampleTextContent).transformPoint 37 8
          (sampleTextHost sampleTextContent).rootSctm).1 * (sampleTextHost sampleTextContent).zoom)
        (((sampleTextHost sampleTextContent).transformPoint 37 8
          (sampleTextHost sampleTextContent).rootSctm).2 *
            (sampleTextHost sampleTextContent).zoom)).1
      (screenToPt (sampleTextHost sampleTextContent) sampleSession
        (((sampleTextHost sampleTextContent).transformPoint 37 8
          (sampleTextHost sampleTextContent).rootSctm).1 * (sampleTextHost sampleTextContent).zoom)
        (((sampleTextHost sampleTextContent).transformPoint 37 8
          (sampleTextHost sampleTextContent).rootSctm).2 *
            (sampleTextHost sampleTextContent).zoom)).2 = some ((4 : Nat) : Int) := by
  have h3 : (3 : Int).toNat = 3 := rfl
  norm_num [Editor.getIndexFromPoint, getIndexFromPoint, sampleSession, sampleTextHost,
    sampleTextContent, screenToPt, arrayGet?, h3]

/-- C21 on the text `ab cd` with a double-click on the letter `c`: the hit
index is 4, and the call returns. -/
theorem selectWord_range_witness :
    ∃ first last : Nat,
      first ≤ 4 ∧ 4 ≤ last ∧ last ≤ ((sampleTextHost sampleTextContent).textContent 5).length ∧
      (∀ j, first ≤ j → j < last →
        ∃ c, ((sampleTextHost sampleTextContent).textContent 5)[j]? = some c ∧
          isWordUnit c = true) ∧
      Editor.selectWord (sampleTextHost sampleTextContent) 5 37 8 sampleSession =
        (Editor.setSelection (sampleTextHost sampleTextContent) (first : Int) (last : Int) false
          sampleSession).map (fun e' =>
            (e'.addEventListener 5 "click" "selectAll").emit
              (.setTimeout "removeSelectAll" 300)) ∧
      (Editor.selectWord (sampleTextHost sampleTextContent) 5 37 8 sampleSession).isSome
        = true := by
  obtain ⟨first, last, h1, h2, h3, h4, _, _, hcall, hreturns⟩ :=
    selectWord_range (sampleTextHost sampleTextContent) 5 5 37 8 sampleSession 4 rfl rfl
      sampleSession_hit (by decide)
  exact ⟨first, last, h1, h2, h3, h4, hcall,
    hreturns (by decide) (by decide) (by decide) (by decide)⟩

/-! ## Text-edit mode controller: what each block changes -/

@[simp] theorem Editor.emit_curtext (e : Editor) (effect : Effect) :
    (e.emit effect).curtext = e.curtext := by
  rfl

@[simp] theorem Editor.emit_textinput (e : Editor) (effect : Effect) :
    (e.emit effect).textinput = e.textinput := by
  rfl

@[simp] theorem Editor.emit_cursor (e : Editor) (effect : Effect) :
    (e.emit effect).cursor = e.cursor := by
  rfl

@[simp] theorem Editor.emit_selblock (e : Editor) (effect : Effect) :
    (e.emit effect).selblock = e.selblock := by
  rfl

@[simp] theorem Editor.emit_blinker (e : Editor) (effect : Effect) :
    (e.emit effect).blinker = e.blinker := by
  rfl

@[simp] theorem Editor.emit_chardata (e : Editor) (effect : Effect) :
    (e.emit effect).chardata = e.chardata := by
  rfl

@[simp] theorem Editor.emit_textbb (e : Editor) (effect : Effect) :
    (e.emit effect).textbb = e.textbb := by
  rfl

@[simp] theorem Editor.emit_matrix (e : Editor) (effect : Effect) :
    (e.emit effect).matrix = e.matrix := by
  rfl

@[simp] theorem Editor.emit_lastX (e : Editor) (effect : Effect) :
    (e.emit effect).lastX = e.lastX := by
  rfl

@[simp] theorem Editor.emit_lastY (e : Editor) (effect : Effect) :
    (e.emit effect).lastY = e.lastY := by
  rfl

@[simp] theorem Editor.emit_allowDbl (e : Editor) (effect : Effect) :
    (e.emit effect).allowDbl = e.allowDbl := by
  rfl

@[simp] theorem Editor.emit_currentTextDiv (e : Editor) (effect : Effect) :
    (e.emit effect).currentTextDiv = e.currentTextDiv := by
  rfl

@[simp] theorem Editor.emit_listeners (e : Editor) (effect : Effect) :
    (e.emit effect).listeners = e.listeners := by
  rfl

@[simp] theorem Editor.emit_intervals (e : Editor) (effect : Effect) :
    (e.emit effect).intervals = e.intervals := by
  rfl

@[simp] theorem Editor.emit_timerCount (e : Editor) (effect : Effect) :
    (e.emit effect).timerCount = e.timerCount := by
  rfl

@[simp] theorem Editor.emit_canvas (e : Editor) (effect : Effect) :
    (e.emit effect).canvas = e.canvas.apply effect := by
  rfl

@[simp] theorem Editor.emit_log (e : Editor) (effect : Effect) :
    (e.emit effect).log = e.log ++ [effect] := by
  rfl

@[simp] theorem Editor.addEventListener_curtext (e : Editor) (target : NodeRef) (type callback : String) :
    (e.addEventListener target type callback).curtext = e.curtext := by
  unfold Editor.addEventListener; split_ifs <;> rfl

@[simp] theorem Editor.addEventListener_textinput (e : Editor) (target : NodeRef) (type callback : String) :
    (e.addEventListener target type callback).textinput = e.textinput := by
  unfold Editor.addEventListener; split_ifs <;> rfl

@[simp] theorem Editor.addEventListener_cursor (e : Editor) (target : NodeRef) (type callback : String) :
    (e.addEventListener target type callback).cursor = e.cursor := by
  unfold Editor.addEventListener; split_ifs <;> rfl

@[simp] theorem Editor.addEventListener_selblock (e : Editor) (target : NodeRef) (type callback : String) :
    (e.addEventListener target type callback).selblock = e.selblock := by
  unfold Editor.addEventListener; split_ifs <;> rfl

@[simp] theorem Editor.addEventListener_blinker (e : Editor) (target : NodeRef) (type callback : String) :
    (e.addEventListener target type callback).blinker = e.blinker := by
  unfold Editor.addEventListener; split_ifs <;> rfl

@[simp] theorem Editor.addEventListener_chardata (e : Editor) (target : NodeRef) (type callback : String) :
    (e.addEventListener target type callback).chardata = e.chardata := by
  unfold Editor.addEventListener; split_ifs <;> rfl

@[simp] theorem Editor.addEventListener_textbb (e : Editor) (target : NodeRef) (type callback : String) :
    (e.addEventListener target type callback).textbb = e.textbb := by
  unfold Editor.addEventListener; split_ifs <;> rfl

@[simp] theorem Editor.addEventListener_matrix (e : Editor) (target : NodeRef) (type callback : String) :
    (e.addEventListener target type callback).matrix = e.matrix := by
  unfold Editor.addEventListener; split_ifs <;> rfl

@[simp] theorem Editor.addEventListener_lastX (e : Editor) (target : NodeRef) (type callback : String) :
    (e.addEventListener target type callback).lastX = e.lastX := by
  unfold Editor.addEventListener; split_ifs <;> rfl

@[simp] theorem Editor.addEventListener_lastY (e : Editor) (target : NodeRef) (type callback : String) :
    (e.addEventListener target type callback).lastY = e.lastY := by
  unfold Editor.addEventListener; split_ifs <;> rfl

@[simp] theorem Editor.addEventListener_allowDbl (e : Editor) (target : NodeRef) (type callback : String) :
    (e.addEventListener target type callback).allowDbl = e.allowDbl := by
  unfold Editor.addEventListener; split_ifs <;> rfl

@[simp] theorem Editor.addEventListener_currentTextDiv (e : Editor) (target : NodeRef) (type callback : String) :
    (e.addEventListener target type callback).currentTextDiv = e.currentTextDiv := by
  unfold Editor.addEventListener; split_ifs <;> rfl

@[simp] theorem Editor.addEventListener_intervals (e : Editor) (target : NodeRef) (type callback : String) :
    (e.addEventListener target type callback).intervals = e.intervals := by
  unfold Editor.addEventListener; split_ifs <;> rfl

@[simp] theorem Editor.addEventListener_timerCount (e : Editor) (target : NodeRef) (type callback : String) :
    (e.addEventListener target type callback).timerCount = e.timerCount := by
  unfold Editor.addEventListener; split_ifs <;> rfl

@[simp] theorem Editor.addEventListener_canvas (e : Editor) (target : NodeRef) (type callback : String) :
    (e.addEventListener target type callback).canvas = e.canvas := by
  unfold Editor.addEventListener; split_ifs <;> rfl

@[simp] theorem Editor.addEventListener_log (e : Editor) (target : NodeRef) (type callback : String) :
    (e.addEventListener target type callback).log = e.log := by
  unfold Editor.addEventListener; split_ifs <;> rfl

@[simp] theorem Editor.removeEventListener_curtext (e : Editor) (target : NodeRef) (type callback : String) :
    (e.removeEventListener target type callback).curtext = e.curtext := by
  rfl

@[simp] theorem Editor.removeEventListener_textinput (e : Editor) (target : NodeRef) (type callback : String) :
    (e.removeEventListener target type callback).textinput = e.textinput := by
  rfl

@[simp] theorem Editor.removeEventListener_cursor (e : Editor) (target : NodeRef) (type callback : String) :
    (e.removeEventListener target type callback).cursor = e.cursor := by
  rfl

@[simp] theorem Editor.removeEventListener_selblock (e : Editor) (target : NodeRef) (type callback : String) :
    (e.removeEventListener target type callback).selblock = e.selblock := by
  rfl

@[simp] theorem Editor.removeEventListener_blinker (e : Editor) (target : NodeRef) (type callback : String) :
    (e.removeEventListener target type callback).blinker = e.blinker := by
  rfl

@[simp] theorem Editor.removeEventListener_chardata (e : Editor) (target : NodeRef) (type callback : String) :
    (e.removeEventListener target type callback).chardata = e.chardata := by
  rfl

@[simp] theorem Editor.removeEventListener_textbb (e : Editor) (target : NodeRef) (type callback : String) :
    (e.removeEventListener target type callback).textbb = e.textbb := by
  rfl

@[simp] theorem Editor.removeEventListener_matrix (e : Editor) (target : NodeRef) (type callback : String) :
    (e.removeEventListener target type callback).matrix = e.matrix := by
  rfl

@[simp] theorem Editor.removeEventListener_lastX (e : Editor) (target : NodeRef) (type callback : String) :
    (e.removeEventListener target type callback).lastX = e.lastX := by
  rfl

@[simp] theorem Editor.removeEventListener_lastY (e : Editor) (target : NodeRef) (type callback : String) :
    (e.removeEventListener target type callback).lastY = e.lastY := by
  rfl

@[simp] theorem Editor.removeEventListener_allowDbl (e : Editor) (target : NodeRef) (type callback : String) :
    (e.removeEventListener target type callback).allowDbl = e.allowDbl := by
  rfl

@[simp] theorem Editor.removeEventListener_currentTextDiv (e : Editor) (target : NodeRef) (type callback : String) :
    (e.removeEventListener target type callback).currentTextDiv = e.currentTextDiv := by
  rfl

@[simp] theorem Editor.removeEventListener_intervals (e : Editor) (target : NodeRef) (type callback : String) :
    (e.removeEventListener target type callback).intervals = e.intervals := by
  rfl

@[simp] theorem Editor.removeEventListener_timerCount (e : Editor) (target : NodeRef) (type callback : String) :
    (e.removeEventListener target type callback).timerCount = e.timerCount := by
  rfl

@[simp] theorem Editor.removeEventListener_canvas (e : Editor) (target : NodeRef) (type callback : String) :
    (e.removeEventListener target type callback).canvas = e.canvas := by
  rfl

@[simp] theorem Editor.removeEventListener_log (e : Editor) (target : NodeRef) (type callback : String) :
    (e.removeEventListener target type callback).log = e.log := by
  rfl

@[simp] theorem Editor.removeEventListener_listeners (e : Editor) (target : NodeRef)
    (type callback : String) :
    (e.removeEventListener target type callback).listeners =
      e.listeners.filter (fun l => l != ⟨target, type, callback⟩) := by
  rfl

@[simp] theorem Editor.cleanupTextDiv_curtext (H : TextHost) (e : Editor) :
    (Editor.cleanupTextDiv H e).curtext = e.curtext := by
  unfold Editor.cleanupTextDiv
  split
  · split_ifs <;> simp only [Editor.emit_curtext, Editor.removeEventListener_curtext]
  · rfl

@[simp] theorem Editor.cleanupTextDiv_textinput (H : TextHost) (e : Editor) :
    (Editor.cleanupTextDiv H e).textinput = e.textinput := by
  unfold Editor.cleanupTextDiv
  split
  · split_ifs <;> simp only [Editor.emit_textinput, Editor.removeEventListener_textinput]
  · rfl

@[simp] theorem Editor.cleanupTextDiv_cursor (H : TextHost) (e : Editor) :
    (Editor.cleanupTextDiv H e).cursor = e.cursor := by
  unfold Editor.cleanupTextDiv
  split
  · split_ifs <;> simp only [Editor.emit_cursor, Editor.removeEventListener_cursor]
  · rfl

@[simp] theorem Editor.cleanupTextDiv_selblock (H : TextHost) (e : Editor) :
    (Editor.cleanupTextDiv H e).selblock = e.selblock := by
  unfold Editor.cleanupTextDiv
  split
  · split_ifs <;> simp only [Editor.emit_selblock, Editor.removeEventListener_selblock]
  · rfl

@[simp] theorem Editor.cleanupTextDiv_blinker (H : TextHost) (e : Editor) :
    (Editor.cleanupTextDiv H e).blinker = e.blinker := by
  unfold Editor.cleanupTextDiv
  split
  · split_ifs <;> simp only [Editor.emit_blinker, Editor.removeEventListener_blinker]
  · rfl

@[simp] theorem Editor.cleanupTextDiv_chardata (H : TextHost) (e : Editor) :
    (Editor.cleanupTextDiv H e).chardata = e.chardata := by
  unfold Editor.cleanupTextDiv
  split
  · split_ifs <;> simp only [Editor.emit_chardata, Editor.removeEventListener_chardata]
  · rfl

@[simp] theorem Editor.cleanupTextDiv_textbb (H : TextHost) (e : Editor) :
    (Editor.cleanupTextDiv H e).textbb = e.textbb := by
  unfold Editor.cleanupTextDiv
  split
  · split_ifs <;> simp only [Editor.emit_textbb, Editor.removeEventListener_textbb]
  · rfl

@[simp] theorem Editor.cleanupTextDiv_matrix (H : TextHost) (e : Editor) :
    (Editor.cleanupTextDiv H e).matrix = e.matrix := by
  unfold Editor.cleanupTextDiv
  split
  · split_ifs <;> simp only [Editor.emit_matrix, Editor.removeEventListener_matrix]
  · rfl

@[simp] theorem Editor.cleanupTextDiv_lastX (H : TextHost) (e : Editor) :
    (Editor.cleanupTextDiv H e).lastX = e.lastX := by
  unfold Editor.cleanupTextDiv
  split
  · split_ifs <;> simp only [Editor.emit_lastX, Editor.removeEventListener_lastX]
  · rfl

@[simp] theorem Editor.cleanupTextDiv_lastY (H : TextHost) (e : Editor) :
    (Editor.cleanupTextDiv H e).lastY = e.lastY := by
  unfold Editor.cleanupTextDiv
  split
  · split_ifs <;> simp only [Editor.emit_lastY, Editor.removeEventListener_lastY]
  · rfl

@[simp] theorem Editor.cleanupTextDiv_allowDbl (H : TextHost) (e : Editor) :
    (Editor.cleanupTextDiv H e).allowDbl = e.allowDbl := by
  unfold Editor.cleanupTextDiv
  split
  · split_ifs <;> simp only [Editor.emit_allowDbl, Editor.removeEventListener_allowDbl]
  · rfl

@[simp] theorem Editor.cleanupTextDiv_intervals (H : TextHost) (e : Editor) :
    (Editor.cleanupTextDiv H e).intervals = e.intervals := by
  unfold Editor.cleanupTextDiv
  split
  · split_ifs <;> simp only [Editor.emit_intervals, Editor.removeEventListener_intervals]
  · rfl

@[simp] theorem Editor.cleanupTextDiv_timerCount (H : TextHost) (e : Editor) :
    (Editor.cleanupTextDiv H e).timerCount = e.timerCount := by
  unfold Editor.cleanupTextDiv
  split
  · split_ifs <;> simp only [Editor.emit_timerCount, Editor.removeEventListener_timerCount]
  · rfl

@[simp] theorem Editor.cleanupTextDiv_currentTextDiv (H : TextHost) (e : Editor) :
    (Editor.cleanupTextDiv H e).currentTextDiv = none := by
  unfold Editor.cleanupTextDiv
  split
  · split_ifs <;> simp only
  · assumption

@[simp] theorem Editor.cleanupCaret_curtext (e : Editor) :
    (Editor.cleanupCaret e).curtext = e.curtext := by
  unfold Editor.cleanupCaret
  dsimp only
  split <;> simp only [Editor.emit_curtext]

@[simp] theorem Editor.cleanupCaret_textinput (e : Editor) :
    (Editor.cleanupCaret e).textinput = e.textinput := by
  unfold Editor.cleanupCaret
  dsimp only
  split <;> simp only [Editor.emit_textinput]

@[simp] theorem Editor.cleanupCaret_chardata (e : Editor) :
    (Editor.cleanupCaret e).chardata = e.chardata := by
  unfold Editor.cleanupCaret
  dsimp only
  split <;> simp only [Editor.emit_chardata]

@[simp] theorem Editor.cleanupCaret_textbb (e : Editor) :
    (Editor.cleanupCaret e).textbb = e.textbb := by
  unfold Editor.cleanupCaret
  dsimp only
  split <;> simp only [Editor.emit_textbb]

@[simp] theorem Editor.cleanupCaret_matrix (e : Editor) :
    (Editor.cleanupCaret e).matrix = e.matrix := by
  unfold Editor.cleanupCaret
  dsimp only
  split <;> simp only [Editor.emit_matrix]

@[simp] theorem Editor.cleanupCaret_lastX (e : Editor) :
    (Editor.cleanupCaret e).lastX = e.lastX := by
  unfold Editor.cleanupCaret
  dsimp only
  split <;> simp only [Editor.emit_lastX]

@[simp] theorem Editor.cleanupCaret_lastY (e : Editor) :
    (Editor.cleanupCaret e).lastY = e.lastY := by
  unfold Editor.cleanupCaret
  dsimp only
  split <;> simp only [Editor.emit_lastY]

@[simp] theorem Editor.cleanupCaret_allowDbl (e : Editor) :
    (Editor.cleanupCaret e).allowDbl = e.allowDbl := by
  unfold Editor.cleanupCaret
  dsimp only
  split <;> simp only [Editor.emit_allowDbl]

@[simp] theorem Editor.cleanupCaret_currentTextDiv (e : Editor) :
    (Editor.cleanupCaret e).currentTextDiv = e.currentTextDiv := by
  unfold Editor.cleanupCaret
  dsimp only
  split <;> simp only [Editor.emit_currentTextDiv]

@[simp] theorem Editor.cleanupCaret_listeners (e : Editor) :
    (Editor.cleanupCaret e).listeners = e.listeners := by
  unfold Editor.cleanupCaret
  dsimp only
  split <;> simp only [Editor.emit_listeners]

@[simp] theorem Editor.cleanupCaret_timerCount (e : Editor) :
    (Editor.cleanupCaret e).timerCount = e.timerCount := by
  unfold Editor.cleanupCaret
  dsimp only
  split <;> simp only [Editor.emit_timerCount]

@[simp] theorem Editor.selectShape_curtext (selectElem : Bool) (e : Editor) :
    (Editor.selectShape selectElem e).curtext = e.curtext := by
  unfold Editor.selectShape
  split_ifs
  · dsimp only
    split <;> simp only [Editor.emit_curtext]
  · rfl

@[simp] theorem Editor.selectShape_textinput (selectElem : Bool) (e : Editor) :
    (Editor.selectShape selectElem e).textinput = e.textinput := by
  unfold Editor.selectShape
  split_ifs
  · dsimp only
    split <;> simp only [Editor.emit_textinput]
  · rfl

@[simp] theorem Editor.selectShape_cursor (selectElem : Bool) (e : Editor) :
    (Editor.selectShape selectElem e).cursor = e.cursor := by
  unfold Editor.selectShape
  split_ifs
  · dsimp only
    split <;> simp only [Editor.emit_cursor]
  · rfl

@[simp] theorem Editor.selectShape_selblock (selectElem : Bool) (e : Editor) :
    (Editor.selectShape selectElem e).selblock = e.selblock := by
  unfold Editor.selectShape
  split_ifs
  · dsimp only
    split <;> simp only [Editor.emit_selblock]
  · rfl

@[simp] theorem Editor.selectShape_blinker (selectElem : Bool) (e : Editor) :
    (Editor.selectShape selectElem e).blinker = e.blinker := by
  unfold Editor.selectShape
  split_ifs
  · dsimp only
    split <;> simp only [Editor.emit_blinker]
  · rfl

@[simp] theorem Editor.selectShape_chardata (selectElem : Bool) (e : Editor) :
    (Editor.selectShape selectElem e).chardata = e.chardata := by
  unfold Editor.selectShape
  split_ifs
  · dsimp only
    split <;> simp only [Editor.emit_chardata]
  · rfl

@[simp] theorem Editor.selectShape_textbb (selectElem : Bool) (e : Editor) :
    (Editor.selectShape selectElem e).textbb = e.textbb := by
  unfold Editor.selectShape
  split_ifs
  · dsimp only
    split <;> simp only [Editor.emit_textbb]
  · rfl

@[simp] theorem Editor.selectShape_matrix (selectElem : Bool) (e : Editor) :
    (Editor.selectShape selectElem e).matrix = e.matrix := by
  unfold Editor.selectShape
  split_ifs
  · dsimp only
    split <;> simp only [Editor.emit_matrix]
  · rfl

@[simp] theorem Editor.selectShape_lastX (selectElem : Bool) (e : Editor) :
    (Editor.selectShape selectElem e).lastX = e.lastX := by
  unfold Editor.selectShape
  split_ifs
  · dsimp only
    split <;> simp only [Editor.emit_lastX]
  · rfl

@[simp] theorem Editor.selectShape_lastY (selectElem : Bool) (e : Editor) :
    (Editor.selectShape selectElem e).lastY = e.lastY := by
  unfold Editor.selectShape
  split_ifs
  · dsimp only
    split <;> simp only [Editor.emit_lastY]
  · rfl

@[simp] theorem Editor.selectShape_allowDbl (selectElem : Bool) (e : Editor) :
    (Editor.selectShape selectElem e).allowDbl = e.allowDbl := by
  unfold Editor.selectShape
  split_ifs
  · dsimp only
    split <;> simp only [Editor.emit_allowDbl]
  · rfl

@[simp] theorem Editor.selectShape_currentTextDiv (selectElem : Bool) (e : Editor) :
    (Editor.selectShape selectElem e).currentTextDiv = e.currentTextDiv := by
  unfold Editor.selectShape
  split_ifs
  · dsimp only
    split <;> simp only [Editor.emit_currentTextDiv]
  · rfl

@[simp] theorem Editor.selectShape_listeners (selectElem : Bool) (e : Editor) :
    (Editor.selectShape selectElem e).listeners = e.listeners := by
  unfold Editor.selectShape
  split_ifs
  · dsimp only
    split <;> simp only [Editor.emit_listeners]
  · rfl

@[simp] theorem Editor.selectShape_intervals (selectElem : Bool) (e : Editor) :
    (Editor.selectShape selectElem e).intervals = e.intervals := by
  unfold Editor.selectShape
  split_ifs
  · dsimp only
    split <;> simp only [Editor.emit_intervals]
  · rfl

@[simp] theorem Editor.selectShape_timerCount (selectElem : Bool) (e : Editor) :
    (Editor.selectShape selectElem e).timerCount = e.timerCount := by
  unfold Editor.selectShape
  split_ifs
  · dsimp only
    split <;> simp only [Editor.emit_timerCount]
  · rfl

@[simp] theorem Editor.deleteEmptyText_curtext (H : TextHost) (e : Editor) :
    (Editor.deleteEmptyText H e).curtext = e.curtext := by
  unfold Editor.deleteEmptyText
  split
  · split_ifs <;> simp only [Editor.emit_curtext]
  · rfl

@[simp] theorem Editor.deleteEmptyText_textinput (H : TextHost) (e : Editor) :
    (Editor.deleteEmptyText H e).textinput = e.textinput := by
  unfold Editor.deleteEmptyText
  split
  · split_ifs <;> simp only [Editor.emit_textinput]
  · rfl

@[simp] theorem Editor.deleteEmptyText_cursor (H : TextHost) (e : Editor) :
    (Editor.deleteEmptyText H e).cursor = e.cursor := by
  unfold Editor.deleteEmptyText
  split
  · split_ifs <;> simp only [Editor.emit_cursor]
  · rfl

@[simp] theorem Editor.deleteEmptyText_selblock (H : TextHost) (e : Editor) :
    (Editor.deleteEmptyText H e).selblock = e.selblock := by
  unfold Editor.deleteEmptyText
  split
  · split_ifs <;> simp only [Editor.emit_selblock]
  · rfl

@[simp] theorem Editor.deleteEmptyText_blinker (H : TextHost) (e : Editor) :
    (Editor.deleteEmptyText H e).blinker = e.blinker := by
  unfold Editor.deleteEmptyText
  split
  · split_ifs <;> simp only [Editor.emit_blinker]
  · rfl

@[simp] theorem Editor.deleteEmptyText_chardata (H : TextHost) (e : Editor) :
    (Editor.deleteEmptyText H e).chardata = e.chardata := by
  unfold Editor.deleteEmptyText
  split
  · split_ifs <;> simp only [Editor.emit_chardata]
  · rfl

@[simp] theorem Editor.deleteEmptyText_textbb (H : TextHost) (e : Editor) :
    (Editor.deleteEmptyText H e).textbb = e.textbb := by
  unfold Editor.deleteEmptyText
  split
  · split_ifs <;> simp only [Editor.emit_textbb]
  · rfl

@[simp] theorem Editor.deleteEmptyText_matrix (H : TextHost) (e : Editor) :
    (Editor.deleteEmptyText H e).matrix = e.matrix := by
  unfold Editor.deleteEmptyText
  split
  · split_ifs <;> simp only [Editor.emit_matrix]
  · rfl

@[simp] theorem Editor.deleteEmptyText_lastX (H : TextHost) (e : Editor) :
    (Editor.deleteEmptyText H e).lastX = e.lastX := by
  unfold Editor.deleteEmptyText
  split
  · split_ifs <;> simp only [Editor.emit_lastX]
  · rfl

@[simp] theorem Editor.deleteEmptyText_lastY (H : TextHost) (e : Editor) :
    (Editor.deleteEmptyText H e).lastY = e.lastY := by
  unfold Editor.deleteEmptyText
  split
  · split_ifs <;> simp only [Editor.emit_lastY]
  · rfl

@[simp] theorem Editor.deleteEmptyText_allowDbl (H : TextHost) (e : Editor) :
    (Editor.deleteEmptyText H e).allowDbl = e.allowDbl := by
  unfold Editor.deleteEmptyText
  split
  · split_ifs <;> simp only [Editor.emit_allowDbl]
  · rfl

@[simp] theorem Editor.deleteEmptyText_currentTextDiv (H : TextHost) (e : Editor) :
    (Editor.deleteEmptyText H e).currentTextDiv = e.currentTextDiv := by
  unfold Editor.deleteEmptyText
  split
  · split_ifs <;> simp only [Editor.emit_currentTextDiv]
  · rfl

@[simp] theorem Editor.deleteEmptyText_listeners (H : TextHost) (e : Editor) :
    (Editor.deleteEmptyText H e).listeners = e.listeners := by
  unfold Editor.deleteEmptyText
  split
  · split_ifs <;> simp only [Editor.emit_listeners]
  · rfl

@[simp] theorem Editor.deleteEmptyText_intervals (H : TextHost) (e : Editor) :
    (Editor.deleteEmptyText H e).intervals = e.intervals := by
  unfold Editor.deleteEmptyText
  split
  · split_ifs <;> simp only [Editor.emit_intervals]
  · rfl

@[simp] theorem Editor.deleteEmptyText_timerCount (H : TextHost) (e : Editor) :
    (Editor.deleteEmptyText H e).timerCount = e.timerCount := by
  unfold Editor.deleteEmptyText
  split
  · split_ifs <;> simp only [Editor.emit_timerCount]
  · rfl

@[simp] theorem Editor.cleanupTextDiv_listeners (H : TextHost) (e : Editor) :
    (Editor.cleanupTextDiv H e).listeners =
      (match e.currentTextDiv with
        | some box =>
          ((e.listeners.filter (fun l => l != ⟨box, "input", "handleTextInput"⟩)).filter
            (fun l => l != ⟨box, "blur", "handleTextBlur"⟩)).filter
            (fun l => l != ⟨box, "keydown", "handleTextKeydown"⟩)
        | none => e.listeners) := by
  unfold Editor.cleanupTextDiv
  split
  · split_ifs <;>
      simp only [Editor.emit_listeners, Editor.removeEventListener_listeners]
  · rfl

@[simp] theorem Editor.cleanupTextDiv_canvas (H : TextHost) (e : Editor) :
    (Editor.cleanupTextDiv H e).canvas =
      (match e.currentTextDiv with
        | some box =>
          if (trim (H.textContent box)).isEmpty then e.canvas.apply .deleteSelectedElements
          else e.canvas
        | none => e.canvas) := by
  unfold Editor.cleanupTextDiv
  split
  · split_ifs <;>
      simp only [Editor.emit_canvas, Editor.removeEventListener_canvas, Canvas.apply]
  · rfl

@[simp] theorem Editor.cleanupTextDiv_log (H : TextHost) (e : Editor) :
    (Editor.cleanupTextDiv H e).log =
      (match e.currentTextDiv with
        | some box =>
          if (trim (H.textContent box)).isEmpty then
            e.log ++ [.blur box, .deleteSelectedElements]
          else e.log ++ [.blur box]
        | none => e.log) := by
  unfold Editor.cleanupTextDiv
  split
  · split_ifs <;>
      simp only [Editor.emit_log, Editor.removeEventListener_log, List.append_assoc,
        List.singleton_append]
  · rfl

@[simp] theorem Editor.cleanupCaret_canvas (e : Editor) :
    (Editor.cleanupCaret e).canvas = e.canvas := by
  unfold Editor.cleanupCaret
  dsimp only
  split <;> simp only [Editor.emit_canvas, Canvas.apply]

@[simp] theorem Editor.cleanupCaret_blinker (e : Editor) :
    (Editor.cleanupCaret e).blinker = none := by
  unfold Editor.cleanupCaret
  dsimp only
  split <;> simp only [Editor.emit_blinker]

@[simp] theorem Editor.cleanupCaret_intervals (e : Editor) :
    (Editor.cleanupCaret e).intervals = clearInterval e.blinker e.intervals := by
  unfold Editor.cleanupCaret
  dsimp only
  split <;> simp only [Editor.emit_intervals]

@[simp] theorem Editor.cleanupCaret_cursor (e : Editor) :
    (Editor.cleanupCaret e).cursor =
      e.cursor.map (fun (line : CursorLine) => { line with visibility := some "hidden" }) := by
  unfold Editor.cleanupCaret
  dsimp only
  split <;> simp only [Editor.emit_cursor]

@[simp] theorem Editor.cleanupCaret_selblock (e : Editor) :
    (Editor.cleanupCaret e).selblock =
      e.selblock.map (fun (block : SelectBlock) => { block with display := some "none" }) := by
  unfold Editor.cleanupCaret
  dsimp only
  split <;> simp only [Editor.emit_selblock]

@[simp] theorem Editor.cleanupCaret_log (e : Editor) :
    (Editor.cleanupCaret e).log =
      (match e.curtext with
        | some curtext => e.log ++ [.styleCursor curtext "move"]
        | none => e.log) := by
  unfold Editor.cleanupCaret
  dsimp only
  split <;> simp only [Editor.emit_log]

@[simp] theorem Editor.selectShape_canvas (selectElem : Bool) (e : Editor) :
    (Editor.selectShape selectElem e).canvas =
      if selectElem then
        (match e.curtext with
          | some curtext =>
            ({ e.canvas with selectedElements := [] } : Canvas).apply (.addToSelection curtext true)
          | none => { e.canvas with selectedElements := [] })
      else e.canvas := by
  unfold Editor.selectShape
  split_ifs
  · dsimp only
    simp only [Editor.emit_curtext]
    split <;> simp only [Editor.emit_canvas, Canvas.apply]
  · rfl

@[simp] theorem Editor.selectShape_log (selectElem : Bool) (e : Editor) :
    (Editor.selectShape selectElem e).log =
      if selectElem then
        (match e.curtext with
          | some curtext =>
            e.log ++ [.clearSelection, .styleCursor curtext "move",
              .call "selected" (some curtext), .addToSelection curtext true]
          | none => e.log ++ [.clearSelection])
      else e.log := by
  unfold Editor.selectShape
  split_ifs
  · dsimp only
    simp only [Editor.emit_curtext]
    split <;> simp only [Editor.emit_log, List.append_assoc, List.singleton_append,
      List.cons_append, List.nil_append]
  · rfl

@[simp] theorem Editor.deleteEmptyText_canvas (H : TextHost) (e : Editor) :
    (Editor.deleteEmptyText H e).canvas =
      (match e.curtext with
        | some curtext =>
          if (!isTextForeignObject (some (H.element curtext)) &&
              (H.textContent curtext).length == 0) = true
          then e.canvas.apply .deleteSelectedElements
          else e.canvas
        | none => e.canvas) := by
  unfold Editor.deleteEmptyText
  split
  · split_ifs <;> simp only [Editor.emit_canvas]
  · rfl

@[simp] theorem Editor.deleteEmptyText_log (H : TextHost) (e : Editor) :
    (Editor.deleteEmptyText H e).log =
      (match e.curtext with
        | some curtext =>
          if (!isTextForeignObject (some (H.element curtext)) &&
              (H.textContent curtext).length == 0) = true
          then e.log ++ [.deleteSelectedElements]
          else e.log
        | none => e.log) := by
  unfold Editor.deleteEmptyText
  split
  · split_ifs <;> simp only [Editor.emit_log]
  · rfl

/-- The editor `toSelectMode` returns once the input surface is installed. -/
theorem Editor.toSelectMode_eq (H : TextHost) (selectElem : Bool) (e : Editor)
    (hinput : e.textinput ≠ none) :
    Editor.toSelectMode H selectElem e =
      some { (Editor.deleteEmptyText H (Editor.selectShape selectElem (Editor.cleanupCaret
        (Editor.cleanupTextDiv H (e.emit (.setCurrentMode "select")))))).emit .blurInput with
        curtext := none } := by
  obtain ⟨input, hinput⟩ := Option.ne_none_iff_exists'.mp hinput
  unfold Editor.toSelectMode
  simp only [Editor.deleteEmptyText_textinput, Editor.selectShape_textinput,
    Editor.cleanupCaret_textinput, Editor.cleanupTextDiv_textinput, Editor.emit_textinput, hinput]

/-! ## Leaving edit mode -/

theorem getTextDiv_some (H : TextHost) (shape : NodeRef) :
    getTextDiv H (some shape) =
      if isTextForeignObject (some (H.element shape)) = true then H.querySelector shape divSelector
      else none := by
  by_cases h : isTextForeignObject (some (H.element shape)) = true
  · simp [getTextDiv, h]
  · simp [getTextDiv, h]

/-- C22: empty-shape deletion.  In a session on a shape that is selected and in
the document, with the current box being the box of the shape, `toSelectMode`
returns, and afterwards a primitive shape is deleted from the document iff its
text content has length zero, a styled-box shape (with its box) iff the text
content of the box is empty after trimming; when the shape is not deleted,
nothing is deleted. -/
theorem empty_shape_deletion (H : TextHost) (e : Editor) (selectElem : Bool) (shape : NodeRef)
    (hcur : e.curtext = some shape) (hinput : e.textinput ≠ none)
    (hsel : shape ∈ e.canvas.selectedElements) (hdoc : shape ∉ e.canvas.removed)
    (hbox : e.currentTextDiv = getTextDiv H (some shape)) :
    ∃ e', Editor.toSelectMode H selectElem e = some e' ∧
      (isTextForeignObject (some (H.element shape)) = false →
        (shape ∈ e'.canvas.removed ↔ (H.textContent shape).length = 0)) ∧
      (∀ box, isTextForeignObject (some (H.element shape)) = true →
        getTextDiv H (some shape) = some box →
        (shape ∈ e'.canvas.removed ↔ trim (H.textContent box) = [])) ∧
      (shape ∉ e'.canvas.removed → e'.canvas.removed = e.canvas.removed) := by
  refine ⟨_, Editor.toSelectMode_eq H selectElem e hinput, ?_⟩
  rw [getTextDiv_some] at hbox
  by_cases hfo : isTextForeignObject (some (H.element shape)) = true
  · rw [if_pos hfo] at hbox
    cases hq : H.querySelector shape divSelector with
    | none =>
      rw [hq] at hbox
      cases selectElem <;> simp [Canvas.apply, hcur, hbox, hfo, getTextDiv_some, hq]
    | some box =>
      rw [hq] at hbox
      by_cases hempty : trim (H.textContent box) = []
      · cases selectElem <;>
          simp [Canvas.apply, hcur, hbox, hfo, getTextDiv_some, hq, hempty, hsel]
      · cases selectElem <;>
          simp [Canvas.apply, hcur, hbox, hfo, getTextDiv_some, hq, hempty, hdoc]
  · have hfo' : isTextForeignObject (some (H.element shape)) = false := by
      simpa using hfo
    rw [if_neg hfo] at hbox
    by_cases hempty : (H.textContent shape).length = 0
    · cases selectElem <;>
        simp [Canvas.apply, hcur, hbox, hfo', getTextDiv_some, hempty, hsel]
    · cases selectElem <;>
        simp [Canvas.apply, hcur, hbox, hfo', getTextDiv_some, hempty, hdoc]

/-- C22 on the reference drawing: leaving the session on the primitive shape
that reads `ab cd`. -/
theorem empty_shape_deletion_witness :
    ∃ e', Editor.toSelectMode (sampleTextHost sampleTextContent) true sampleSession = some e' ∧
      (5 ∈ e'.canvas.removed ↔
        ((sampleTextHost sampleTextContent).textContent 5).length = 0) := by
  obtain ⟨e', hcall, hprimitive, _, _⟩ :=
    empty_shape_deletion (sampleTextHost sampleTextContent) sampleSession true 5 rfl
      (by decide) (by decide) (by decide) (by decide)
  exact ⟨e', hcall, hprimitive (by decide)⟩

theorem clearInterval_toList (blinker : Option Nat) :
    clearInterval blinker blinker.toList = [] := by
  cases blinker <;> simp [clearInterval]

theorem not_mem_clearInterval (timer : Nat) (intervals : List Nat) :
    timer ∉ clearInterval (some timer) intervals := by
  simp [clearInterval]

theorem boxListeners_filter_of_current (listeners : List Listener) (box : NodeRef)
    (h : ∀ l ∈ listeners.filter Listener.isBoxCallback, l.target = box) :
    ((((listeners.filter (fun l => l != ⟨box, "input", "handleTextInput"⟩)).filter
        (fun l => l != ⟨box, "blur", "handleTextBlur"⟩)).filter
        (fun l => l != ⟨box, "keydown", "handleTextKeydown"⟩)).filter
        Listener.isBoxCallback) = [] := by
  rw [List.filter_eq_nil_iff]
  intro l hl hcb
  simp only [List.mem_filter, bne_iff_ne, ne_eq, decide_eq_true_eq] at hl
  obtain ⟨⟨⟨hmem, h1⟩, h2⟩, h3⟩ := hl
  have htarget := h l (List.mem_filter.mpr ⟨hmem, hcb⟩)
  obtain ⟨target, type, callback⟩ := l
  simp only at htarget
  subst htarget
  simp only [Listener.isBoxCallback, boxCallbacks, List.mem_cons, Prod.mk.injEq,
    List.mem_singleton, decide_eq_true_eq, List.not_mem_nil, or_false] at hcb
  rcases hcb with ⟨rfl, rfl⟩ | ⟨rfl, rfl⟩ | ⟨rfl, rfl⟩
  · exact h1 rfl
  · exact h2 rfl
  · exact h3 rfl

/-- C24: teardown on exit.  Once the input surface is installed every
`toSelectMode` call returns, and in the state right after it the mode is
`select`, no blink timer is recorded and the recorded one is no longer live (no
interval timer is live at all when the recorded one was the only one), the
caret (if it exists) has visibility `hidden` and the selection highlight (if it
exists) has display `none`, none of the `input`, `blur` and `keydown` callbacks
is registered on the box that was current (no styled-box callback is
registered at all when they were registered on the current box only), and the
references to the current shape and the current box are cleared. -/
theorem toSelectMode_teardown (H : TextHost) (e : Editor) (selectElem : Bool)
    (hinput : e.textinput ≠ none) :
    ∃ e', Editor.toSelectMode H selectElem e = some e' ∧
      e'.canvas.currentMode = "select" ∧
      e'.blinker = none ∧
      (∀ timer, e.blinker = some timer → timer ∉ e'.intervals) ∧
      (e.intervals = e.blinker.toList → e'.intervals = []) ∧
      (∀ line, e'.cursor = some line → line.visibility = some "hidden") ∧
      (∀ block, e'.selblock = some block → block.display = some "none") ∧
      (∀ box, e.currentTextDiv = some box →
        (⟨box, "input", "handleTextInput"⟩ : Listener) ∉ e'.listeners ∧
        (⟨box, "blur", "handleTextBlur"⟩ : Listener) ∉ e'.listeners ∧
        (⟨box, "keydown", "handleTextKeydown"⟩ : Listener) ∉ e'.listeners) ∧
      ((∀ l ∈ e.boxListeners, some l.target = e.currentTextDiv) → e'.boxListeners = []) ∧
      e'.curtext = none ∧ e'.currentTextDiv = none := by
  refine ⟨_, Editor.toSelectMode_eq H selectElem e hinput, ?_, ?_, ?_, ?_, ?_, ?_, ?_, ?_, ?_, ?_⟩
  · simp only [Editor.emit_canvas, Editor.deleteEmptyText_canvas, Editor.selectShape_canvas,
      Editor.cleanupCaret_canvas, Editor.cleanupTextDiv_canvas, Editor.emit_currentTextDiv,
      Editor.selectShape_curtext, Editor.cleanupCaret_curtext, Editor.cleanupTextDiv_curtext,
      Editor.emit_curtext]
    cases e.currentTextDiv <;> cases e.curtext <;> cases selectElem <;>
      simp [Canvas.apply] <;> split_ifs <;> simp
  · simp
  · intro timer htimer
    simp only [Editor.emit_intervals, Editor.deleteEmptyText_intervals,
      Editor.selectShape_intervals, Editor.cleanupCaret_intervals,
      Editor.cleanupTextDiv_intervals, Editor.cleanupTextDiv_blinker, Editor.emit_blinker,
      htimer]
    exact not_mem_clearInterval timer _
  · intro hlive
    simp only [Editor.emit_intervals, Editor.deleteEmptyText_intervals,
      Editor.selectShape_intervals, Editor.cleanupCaret_intervals,
      Editor.cleanupTextDiv_intervals, Editor.cleanupTextDiv_blinker, Editor.emit_blinker,
      hlive]
    exact clearInterval_toList _
  · intro line hline
    simp only [Editor.emit_cursor, Editor.deleteEmptyText_cursor, Editor.selectShape_cursor,
      Editor.cleanupCaret_cursor, Editor.cleanupTextDiv_cursor] at hline
    cases hc : e.cursor with
    | none => simp [hc] at hline
    | some old =>
      simp only [hc, Option.map_some', Option.some.injEq] at hline
      rw [← hline]
  · intro block hblock
    simp only [Editor.emit_selblock, Editor.deleteEmptyText_selblock,
      Editor.selectShape_selblock, Editor.cleanupCaret_selblock,
      Editor.cleanupTextDiv_selblock] at hblock
    cases hc : e.selblock with
    | none => simp [hc] at hblock
    | some old =>
      simp only [hc, Option.map_some', Option.some.injEq] at hblock
      rw [← hblock]
  · intro box hbox
    simp only [Editor.emit_listeners, Editor.deleteEmptyText_listeners,
      Editor.selectShape_listeners, Editor.cleanupCaret_listeners,
      Editor.cleanupTextDiv_listeners, Editor.emit_currentTextDiv, hbox]
    simp [List.mem_filter]
  · intro hcurrent
    simp only [Editor.boxListeners, Editor.emit_listeners, Editor.deleteEmptyText_listeners,
      Editor.selectShape_listeners, Editor.cleanupCaret_listeners,
      Editor.cleanupTextDiv_listeners, Editor.emit_currentTextDiv]
    cases hdiv : e.currentTextDiv with
    | none =>
      simp only
      rw [List.filter_eq_nil_iff]
      intro l hl hcb
      have := hcurrent l (List.mem_filter.mpr ⟨hl, hcb⟩)
      rw [hdiv] at this
      cases this
    | some box =>
      simp only
      apply boxListeners_filter_of_current
      intro l hl
      have := hcurrent l hl
      rw [hdiv] at this
      exact (Option.some.inj this)
  · rfl
  · simp
theorem start_sampleBoxSession :
    Editor.start (sampleTextHost (fun _ => [])) 1
      { sampleEditor with canvas := ⟨"select", [1], []⟩ } = some sampleBoxSession := by
  decide

/-- C24 on the styled-box session of the reference drawing. -/
theorem toSelectMode_teardown_witness :
    ∃ e', Editor.toSelectMode (sampleTextHost (fun _ => [])) true sampleBoxSession = some e' ∧
      e'.canvas.currentMode = "select" ∧ e'.blinker = none ∧ e'.intervals = [] ∧
      ((⟨2, "input", "handleTextInput"⟩ : Listener) ∉ e'.listeners ∧
        (⟨2, "blur", "handleTextBlur"⟩ : Listener) ∉ e'.listeners ∧
        (⟨2, "keydown", "handleTextKeydown"⟩ : Listener) ∉ e'.listeners) ∧
      e'.boxListeners = [] ∧ e'.curtext = none ∧ e'.currentTextDiv = none := by
  obtain ⟨e', hcall, hmode, hblinker, _, hlive, _, _, hbox, hnone, hcur, hdiv⟩ :=
    toSelectMode_teardown (sampleTextHost (fun _ => [])) sampleBoxSession true (by decide)
  exact ⟨e', hcall, hmode, hblinker, hlive (by decide), hbox 2 (by decide),
    hnone (by decide), hcur, hdiv⟩

/-- C30 fails on the code: leaving the session on a styled-box shape whose box
is empty with `toSelectMode(true)` asks the canvas to delete the selected shape
and afterwards notifies `selected` for that shape and adds it to the selection
again, so that the deleted shape ends up selected.  On the primitive shape the
deletion is the last call to the canvas. -/
theorem toSelectMode_selects_deleted_box :
    (Editor.toSelectMode (sampleTextHost (fun _ => [])) true sampleBoxSession).map
        (fun e => (e.log.drop sampleBoxSession.log.length, e.canvas))
      = some ([.setCurrentMode "select", .blur 2, .deleteSelectedElements,
          .styleCursor 1 "move", .clearSelection, .styleCursor 1 "move",
          .call "selected" (some 1), .addToSelection 1 true, .blurInput],
        ⟨"select", [1], [1]⟩) ∧
    (Editor.toSelectMode (sampleTextHost (fun _ => [])) true sampleSession).map
        (fun e => (e.log.drop sampleSession.log.length, e.canvas))
      = some ([.setCurrentMode "select", .styleCursor 5 "move", .clearSelection,
          .styleCursor 5 "move", .call "selected" (some 5), .addToSelection 5 true,
          .deleteSelectedElements, .blurInput],
        ⟨"select", [], [5]⟩) := by
  decide

/-! ## Key intercept of a styled box -/

theorem Editor.toSelectMode_currentMode (H : TextHost) (selectElem : Bool) (e : Editor)
    (hinput : e.textinput ≠ none) :
    ∃ e', Editor.toSelectMode H selectElem e = some e' ∧ e'.canvas.currentMode = "select" ∧
      e'.curtext = none ∧ e'.currentTextDiv = none := by
  refine ⟨_, Editor.toSelectMode_eq H selectElem e hinput, ?_, rfl, by simp⟩
  simp only [Editor.emit_canvas, Editor.deleteEmptyText_canvas, Editor.selectShape_canvas,
    Editor.cleanupCaret_canvas, Editor.cleanupTextDiv_canvas, Editor.emit_currentTextDiv,
    Editor.selectShape_curtext, Editor.cleanupCaret_curtext, Editor.cleanupTextDiv_curtext,
    Editor.emit_curtext]
  cases e.currentTextDiv <;> cases e.curtext <;> cases selectElem <;>
    simp [Canvas.apply] <;> split_ifs <;> simp

/-- C26: key intercept while editing a styled box.  A keydown of `Escape`
cancels the default action and then is `toSelectMode(true)`, which (with the
input surface installed) returns with the mode `select` and no current shape.
A keydown of `Enter` returns an editor that differs from the one before only
in the calls made: the default action is cancelled, then, when the live
selection has a range, its contents are deleted, a line break is inserted
there and the selection is placed after it, and last `changed` is reported for
the current shape, exactly once; the mode and every variable of the module are
as before.  A keydown of any other key returns the editor unchanged. -/
theorem keydown_intercept (H : TextHost) (e : Editor) (key : String) :
    (key = "Escape" →
      Editor.handleTextKeydown H key e = Editor.toSelectMode H true (e.emit .preventDefault) ∧
      (e.textinput ≠ none →
        ∃ e', Editor.handleTextKeydown H key e = some e' ∧
          e'.log.take (e.log.length + 1) = e.log ++ [.preventDefault] ∧
          e'.canvas.currentMode = "select" ∧ e'.curtext = none ∧ e'.currentTextDiv = none)) ∧
    (key = "Enter" →
      Editor.handleTextKeydown H key e =
        some { e with log := e.log ++
          ([.preventDefault] ++
            (if H.rangeCount > 0 then
              [.rangeDeleteContents, .rangeInsertLineBreak, .selectionAfterLineBreak]
             else []) ++
            [.call "changed" e.curtext]) } ∧
      (([Effect.preventDefault] ++
            (if H.rangeCount > 0 then
              [Effect.rangeDeleteContents, Effect.rangeInsertLineBreak,
                Effect.selectionAfterLineBreak]
             else []) ++
            [Effect.call "changed" e.curtext]).count (Effect.call "changed" e.curtext) = 1)) ∧
    (key ≠ "Escape" → key ≠ "Enter" → Editor.handleTextKeydown H key e = some e) := by
  refine ⟨?_, ?_, ?_⟩
  · intro hkey
    have hcall : Editor.handleTextKeydown H key e =
        Editor.toSelectMode H true (e.emit .preventDefault) := by
      simp [Editor.handleTextKeydown, hkey]
    refine ⟨hcall, ?_⟩
    intro hinput
    have hinput' : (e.emit .preventDefault).textinput ≠ none := by simpa using hinput
    refine ⟨_, hcall.trans (Editor.toSelectMode_eq H true _ hinput'), ?_, ?_, rfl, by simp⟩
    · simp only [Editor.emit_log, Editor.deleteEmptyText_log, Editor.selectShape_log,
        Editor.cleanupCaret_log, Editor.cleanupTextDiv_log, Editor.emit_currentTextDiv,
        Editor.selectShape_curtext, Editor.cleanupCaret_curtext, Editor.cleanupTextDiv_curtext,
        Editor.emit_curtext]
      cases e.currentTextDiv <;> cases e.curtext <;>
        simp [List.take_append_eq_append_take] <;> split_ifs <;>
        simp [List.take_append_eq_append_take]
    · simp only [Editor.emit_canvas, Editor.deleteEmptyText_canvas, Editor.selectShape_canvas,
        Editor.cleanupCaret_canvas, Editor.cleanupTextDiv_canvas, Editor.emit_currentTextDiv,
        Editor.selectShape_curtext, Editor.cleanupCaret_curtext, Editor.cleanupTextDiv_curtext,
        Editor.emit_curtext]
      cases e.currentTextDiv <;> cases e.curtext <;>
        simp [Canvas.apply] <;> split_ifs <;> simp
  · intro hkey
    subst hkey
    refine ⟨?_, ?_⟩
    · by_cases hrange : H.rangeCount > 0
      · simp [Editor.handleTextKeydown, Editor.emit, Canvas.apply, hrange]
      · simp [Editor.handleTextKeydown, Editor.emit, Canvas.apply, hrange]
    · by_cases hrange : H.rangeCount > 0
      · simp [hrange, List.count_cons]
      · simp [hrange, List.count_cons]
  · intro h1 h2
    simp [Editor.handleTextKeydown, h1, h2]

/-- C26 on the styled-box session of the reference drawing: a keydown of
`Enter`. -/
theorem keydown_intercept_witness :
    Editor.handleTextKeydown (sampleTextHost (fun _ => [])) "Enter" sampleBoxSession =
      some { sampleBoxSession with log := sampleBoxSession.log ++
        ([.preventDefault] ++
          (if (sampleTextHost (fun _ => [])).rangeCount > 0 then
            [.rangeDeleteContents, .rangeInsertLineBreak, .selectionAfterLineBreak]
           else []) ++
          [.call "changed" sampleBoxSession.curtext]) } :=
  ((keydown_intercept (sampleTextHost (fun _ => [])) sampleBoxSession "Enter").2.1 rfl).1

/-! ## Text-edit mode controller: what the caret functions leave alone -/

/-- What a call of the caret engine leaves alone: the current shape, the
current box, the registered callbacks and the canvas; and a blink timer that is
the only live interval stays the only live interval. -/
theorem Editor.setCursor_frame (H : TextHost) (index : Option Int) (e e' : Editor)
    (h : Editor.setCursor H index e = some e') :
    e'.curtext = e.curtext ∧ e'.currentTextDiv = e.currentTextDiv ∧
    e'.listeners = e.listeners ∧ e'.canvas = e.canvas ∧
    (e.intervals = e.blinker.toList → e'.intervals = e'.blinker.toList) := by
  unfold Editor.setCursor at h
  split at h
  · cases h
  · dsimp only at h
    split at h
    · cases h
      exact ⟨rfl, rfl, rfl, rfl, fun hl => hl⟩
    · split at h
      · cases hb : e.blinker with
        | none =>
          simp only [hb, Editor.emit] at h
          cases h
          refine ⟨rfl, rfl, rfl, rfl, ?_⟩
          intro hl
          simp only [hb, Option.toList] at hl
          simp [hl]
        | some t =>
          simp only [hb, Editor.emit] at h
          cases h
          refine ⟨rfl, rfl, rfl, rfl, ?_⟩
          intro hl
          simpa [hb] using hl
      · cases h

theorem Editor.drawSelection_frame (H : TextHost) (start endIndex : Int) (skipInput : Bool)
    (e e' : Editor) (h : Editor.drawSelection H start endIndex skipInput e = some e') :
    e'.curtext = e.curtext ∧ e'.currentTextDiv = e.currentTextDiv ∧
    e'.listeners = e.listeners ∧ e'.canvas = e.canvas ∧
    (e.intervals = e.blinker.toList → e'.intervals = e'.blinker.toList) := by
  unfold Editor.drawSelection at h
  cases skipInput with
  | true =>
    simp only [Bool.not_true, Bool.false_eq_true, if_false] at h
    split at h
    · cases h
      exact ⟨rfl, rfl, rfl, rfl, fun hl => hl⟩
    · cases h
  | false =>
    cases hinput : e.textinput with
    | none => simp [hinput] at h
    | some input =>
      simp only [Bool.not_false, if_true, hinput] at h
      split at h
      · cases h
        exact ⟨rfl, rfl, rfl, rfl, fun hl => hl⟩
      · cases h

theorem Editor.setSelection_frame (H : TextHost) (start endIndex : Int) (skipInput : Bool)
    (e e' : Editor) (h : Editor.setSelection H start endIndex skipInput e = some e') :
    e'.curtext = e.curtext ∧ e'.currentTextDiv = e.currentTextDiv ∧
    e'.listeners = e.listeners ∧ e'.canvas = e.canvas ∧
    (e.intervals = e.blinker.toList → e'.intervals = e'.blinker.toList) := by
  unfold Editor.setSelection SvgEdit.setSelection at h
  split_ifs at h
  · exact Editor.setCursor_frame H _ e e' h
  · exact Editor.drawSelection_frame H _ _ _ e e' h

theorem Editor.setCursorFromPoint_frame (H : TextHost) (x y : ℚ) (e e' : Editor)
    (h : Editor.setCursorFromPoint H x y e = some e') :
    e'.curtext = e.curtext ∧ e'.currentTextDiv = e.currentTextDiv ∧
    e'.listeners = e.listeners ∧ e'.canvas = e.canvas ∧
    (e.intervals = e.blinker.toList → e'.intervals = e'.blinker.toList) := by
  unfold Editor.setCursorFromPoint at h
  split at h
  · cases h
  · exact Editor.setCursor_frame H _ e e' h

theorem Editor.setEndSelectionFromPoint_frame (H : TextHost) (x y : ℚ) (apply : Bool)
    (e e' : Editor) (h : Editor.setEndSelectionFromPoint H x y apply e = some e') :
    e'.curtext = e.curtext ∧ e'.currentTextDiv = e.currentTextDiv ∧
    e'.listeners = e.listeners ∧ e'.canvas = e.canvas ∧
    (e.intervals = e.blinker.toList → e'.intervals = e'.blinker.toList) := by
  unfold Editor.setEndSelectionFromPoint at h
  split at h
  · cases h
  · dsimp only at h
    split at h
    · cases h
    · exact Editor.setSelection_frame H _ _ _ e e' h

/-! ## Text-edit mode controller: what the blocks of toEditMode change -/

@[simp] theorem Editor.enterTextEdit_curtext (e : Editor) :
    (Editor.enterTextEdit e).curtext = e.curtext := by
  unfold Editor.enterTextEdit
  simp only [Editor.emit_curtext]

@[simp] theorem Editor.enterTextEdit_textinput (e : Editor) :
    (Editor.enterTextEdit e).textinput = e.textinput := by
  unfold Editor.enterTextEdit
  simp only [Editor.emit_textinput]

@[simp] theorem Editor.enterTextEdit_cursor (e : Editor) :
    (Editor.enterTextEdit e).cursor = e.cursor := by
  unfold Editor.enterTextEdit
  simp only [Editor.emit_cursor]

@[simp] theorem Editor.enterTextEdit_selblock (e : Editor) :
    (Editor.enterTextEdit e).selblock = e.selblock := by
  unfold Editor.enterTextEdit
  simp only [Editor.emit_selblock]

@[simp] theorem Editor.enterTextEdit_blinker (e : Editor) :
    (Editor.enterTextEdit e).blinker = e.blinker := by
  unfold Editor.enterTextEdit
  simp only [Editor.emit_blinker]

@[simp] theorem Editor.enterTextEdit_chardata (e : Editor) :
    (Editor.enterTextEdit e).chardata = e.chardata := by
  unfold Editor.enterTextEdit
  simp only [Editor.emit_chardata]

@[simp] theorem Editor.enterTextEdit_textbb (e : Editor) :
    (Editor.enterTextEdit e).textbb = e.textbb := by
  unfold Editor.enterTextEdit
  simp only [Editor.emit_textbb]

@[simp] theorem Editor.enterTextEdit_matrix (e : Editor) :
    (Editor.enterTextEdit e).matrix = e.matrix := by
  unfold Editor.enterTextEdit
  simp only [Editor.emit_matrix]

@[simp] theorem Editor.enterTextEdit_lastX (e : Editor) :
    (Editor.enterTextEdit e).lastX = e.lastX := by
  unfold Editor.enterTextEdit
  simp only [Editor.emit_lastX]

@[simp] theorem Editor.enterTextEdit_lastY (e : Editor) :
    (Editor.enterTextEdit e).lastY = e.lastY := by
  unfold Editor.enterTextEdit
  simp only [Editor.emit_lastY]

@[simp] theorem Editor.enterTextEdit_currentTextDiv (e : Editor) :
    (Editor.enterTextEdit e).currentTextDiv = e.currentTextDiv := by
  unfold Editor.enterTextEdit
  simp only [Editor.emit_currentTextDiv]

@[simp] theorem Editor.enterTextEdit_listeners (e : Editor) :
    (Editor.enterTextEdit e).listeners = e.listeners := by
  unfold Editor.enterTextEdit
  simp only [Editor.emit_listeners]

@[simp] theorem Editor.enterTextEdit_intervals (e : Editor) :
    (Editor.enterTextEdit e).intervals = e.intervals := by
  unfold Editor.enterTextEdit
  simp only [Editor.emit_intervals]

@[simp] theorem Editor.enterTextEdit_timerCount (e : Editor) :
    (Editor.enterTextEdit e).timerCount = e.timerCount := by
  unfold Editor.enterTextEdit
  simp only [Editor.emit_timerCount]

@[simp] theorem Editor.enterTextEdit_canvas (e : Editor) :
    (Editor.enterTextEdit e).canvas = { e.canvas with currentMode := "textedit" } := by
  unfold Editor.enterTextEdit
  simp only [Editor.emit_canvas, Canvas.apply]

@[simp] theorem Editor.enterTextEdit_log (e : Editor) :
    (Editor.enterTextEdit e).log =
      e.log ++ [.setCurrentMode "textedit", .showGrips e.curtext false] := by
  unfold Editor.enterTextEdit
  simp only [Editor.emit_log, Editor.emit_curtext, List.append_assoc, List.singleton_append]

@[simp] theorem Editor.editTextDiv_curtext (H : TextHost) (e : Editor) :
    (Editor.editTextDiv H e).curtext = e.curtext := by
  unfold Editor.editTextDiv
  dsimp only
  split <;> simp only [Editor.emit_curtext, Editor.addEventListener_curtext]

@[simp] theorem Editor.editTextDiv_textinput (H : TextHost) (e : Editor) :
    (Editor.editTextDiv H e).textinput = e.textinput := by
  unfold Editor.editTextDiv
  dsimp only
  split <;> simp only [Editor.emit_textinput, Editor.addEventListener_textinput]

@[simp] theorem Editor.editTextDiv_cursor (H : TextHost) (e : Editor) :
    (Editor.editTextDiv H e).cursor = e.cursor := by
  unfold Editor.editTextDiv
  dsimp only
  split <;> simp only [Editor.emit_cursor, Editor.addEventListener_cursor]

@[simp] theorem Editor.editTextDiv_selblock (H : TextHost) (e : Editor) :
    (Editor.editTextDiv H e).selblock = e.selblock := by
  unfold Editor.editTextDiv
  dsimp only
  split <;> simp only [Editor.emit_selblock, Editor.addEventListener_selblock]

@[simp] theorem Editor.editTextDiv_blinker (H : TextHost) (e : Editor) :
    (Editor.editTextDiv H e).blinker = e.blinker := by
  unfold Editor.editTextDiv
  dsimp only
  split <;> simp only [Editor.emit_blinker, Editor.addEventListener_blinker]

@[simp] theorem Editor.editTextDiv_chardata (H : TextHost) (e : Editor) :
    (Editor.editTextDiv H e).chardata = e.chardata := by
  unfold Editor.editTextDiv
  dsimp only
  split <;> simp only [Editor.emit_chardata, Editor.addEventListener_chardata]

@[simp] theorem Editor.editTextDiv_textbb (H : TextHost) (e : Editor) :
    (Editor.editTextDiv H e).textbb = e.textbb := by
  unfold Editor.editTextDiv
  dsimp only
  split <;> simp only [Editor.emit_textbb, Editor.addEventListener_textbb]

@[simp] theorem Editor.editTextDiv_matrix (H : TextHost) (e : Editor) :
    (Editor.editTextDiv H e).matrix = e.matrix := by
  unfold Editor.editTextDiv
  dsimp only
  split <;> simp only [Editor.emit_matrix, Editor.addEventListener_matrix]

@[simp] theorem Editor.editTextDiv_lastX (H : TextHost) (e : Editor) :
    (Editor.editTextDiv H e).lastX = e.lastX := by
  unfold Editor.editTextDiv
  dsimp only
  split <;> simp only [Editor.emit_lastX, Editor.addEventListener_lastX]

@[simp] theorem Editor.editTextDiv_lastY (H : TextHost) (e : Editor) :
    (Editor.editTextDiv H e).lastY = e.lastY := by
  unfold Editor.editTextDiv
  dsimp only
  split <;> simp only [Editor.emit_lastY, Editor.addEventListener_lastY]

@[simp] theorem Editor.editTextDiv_allowDbl (H : TextHost) (e : Editor) :
    (Editor.editTextDiv H e).allowDbl = e.allowDbl := by
  unfold Editor.editTextDiv
  dsimp only
  split <;> simp only [Editor.emit_allowDbl, Editor.addEventListener_allowDbl]

@[simp] theorem Editor.editTextDiv_intervals (H : TextHost) (e : Editor) :
    (Editor.editTextDiv H e).intervals = e.intervals := by
  unfold Editor.editTextDiv
  dsimp only
  split <;> simp only [Editor.emit_intervals, Editor.addEventListener_intervals]

@[simp] theorem Editor.editTextDiv_timerCount (H : TextHost) (e : Editor) :
    (Editor.editTextDiv H e).timerCount = e.timerCount := by
  unfold Editor.editTextDiv
  dsimp only
  split <;> simp only [Editor.emit_timerCount, Editor.addEventListener_timerCount]

@[simp] theorem Editor.editTextDiv_currentTextDiv (H : TextHost) (e : Editor) :
    (Editor.editTextDiv H e).currentTextDiv = getTextDiv H e.curtext := by
  unfold Editor.editTextDiv
  dsimp only
  split <;> simp only [Editor.emit_currentTextDiv, Editor.addEventListener_currentTextDiv]

@[simp] theorem Editor.editTextDiv_canvas (H : TextHost) (e : Editor) :
    (Editor.editTextDiv H e).canvas = e.canvas := by
  unfold Editor.editTextDiv
  dsimp only
  split <;> simp only [Editor.emit_canvas, Editor.addEventListener_canvas, Canvas.apply]

@[simp] theorem Editor.recordCells_curtext (H : TextHost) (curtext : NodeRef) (textbb : BBox) (e : Editor) :
    (Editor.recordCells H curtext textbb e).curtext = e.curtext := by
  unfold Editor.recordCells
  simp only [Editor.emit_curtext, Editor.addEventListener_curtext, Editor.removeEventListener_curtext]

@[simp] theorem Editor.recordCells_textinput (H : TextHost) (curtext : NodeRef) (textbb : BBox) (e : Editor) :
    (Editor.recordCells H curtext textbb e).textinput = e.textinput := by
  unfold Editor.recordCells
  simp only [Editor.emit_textinput, Editor.addEventListener_textinput, Editor.removeEventListener_textinput]

@[simp] theorem Editor.recordCells_cursor (H : TextHost) (curtext : NodeRef) (textbb : BBox) (e : Editor) :
    (Editor.recordCells H curtext textbb e).cursor = e.cursor := by
  unfold Editor.recordCells
  simp only [Editor.emit_cursor, Editor.addEventListener_cursor, Editor.removeEventListener_cursor]

@[simp] theorem Editor.recordCells_selblock (H : TextHost) (curtext : NodeRef) (textbb : BBox) (e : Editor) :
    (Editor.recordCells H curtext textbb e).selblock = e.selblock := by
  unfold Editor.recordCells
  simp only [Editor.emit_selblock, Editor.addEventListener_selblock, Editor.removeEventListener_selblock]

@[simp] theorem Editor.recordCells_blinker (H : TextHost) (curtext : NodeRef) (textbb : BBox) (e : Editor) :
    (Editor.recordCells H curtext textbb e).blinker = e.blinker := by
  unfold Editor.recordCells
  simp only [Editor.emit_blinker, Editor.addEventListener_blinker, Editor.removeEventListener_blinker]

@[simp] theorem Editor.recordCells_lastX (H : TextHost) (curtext : NodeRef) (textbb : BBox) (e : Editor) :
    (Editor.recordCells H curtext textbb e).lastX = e.lastX := by
  unfold Editor.recordCells
  simp only [Editor.emit_lastX, Editor.addEventListener_lastX, Editor.removeEventListener_lastX]

@[simp] theorem Editor.recordCells_lastY (H : TextHost) (curtext : NodeRef) (textbb : BBox) (e : Editor) :
    (Editor.recordCells H curtext textbb e).lastY = e.lastY := by
  unfold Editor.recordCells
  simp only [Editor.emit_lastY, Editor.addEventListener_lastY, Editor.removeEventListener_lastY]

@[simp] theorem Editor.recordCells_allowDbl (H : TextHost) (curtext : NodeRef) (textbb : BBox) (e : Editor) :
    (Editor.recordCells H curtext textbb e).allowDbl = e.allowDbl := by
  unfold Editor.recordCells
  simp only [Editor.emit_allowDbl, Editor.addEventListener_allowDbl, Editor.removeEventListener_allowDbl]

@[simp] theorem Editor.recordCells_currentTextDiv (H : TextHost) (curtext : NodeRef) (textbb : BBox) (e : Editor) :
    (Editor.recordCells H curtext textbb e).currentTextDiv = e.currentTextDiv := by
  unfold Editor.recordCells
  simp only [Editor.emit_currentTextDiv, Editor.addEventListener_currentTextDiv, Editor.removeEventListener_currentTextDiv]

@[simp] theorem Editor.recordCells_intervals (H : TextHost) (curtext : NodeRef) (textbb : BBox) (e : Editor) :
    (Editor.recordCells H curtext textbb e).intervals = e.intervals := by
  unfold Editor.recordCells
  simp only [Editor.emit_intervals, Editor.addEventListener_intervals, Editor.removeEventListener_intervals]

@[simp] theorem Editor.recordCells_timerCount (H : TextHost) (curtext : NodeRef) (textbb : BBox) (e : Editor) :
    (Editor.recordCells H curtext textbb e).timerCount = e.timerCount := by
  unfold Editor.recordCells
  simp only [Editor.emit_timerCount, Editor.addEventListener_timerCount, Editor.removeEventListener_timerCount]

@[simp] theorem Editor.recordCells_canvas (H : TextHost) (curtext : NodeRef) (textbb : BBox)
    (e : Editor) : (Editor.recordCells H curtext textbb e).canvas = e.canvas := by
  unfold Editor.recordCells
  simp only [Editor.emit_canvas, Editor.addEventListener_canvas,
    Editor.removeEventListener_canvas, Canvas.apply]

@[simp] theorem Editor.recordCells_textbb (H : TextHost) (curtext : NodeRef) (textbb : BBox)
    (e : Editor) : (Editor.recordCells H curtext textbb e).textbb = some textbb := by
  unfold Editor.recordCells
  simp only [Editor.emit_textbb, Editor.addEventListener_textbb,
    Editor.removeEventListener_textbb]

@[simp] theorem Editor.recordCells_chardata (H : TextHost) (curtext : NodeRef) (textbb : BBox)
    (e : Editor) :
    (Editor.recordCells H curtext textbb e).chardata =
      initChardata (H.textContent curtext).length textbb (H.getStartPositionOfChar curtext)
        (H.getEndPositionOfChar curtext) H.supportsGoodTextCharPos H.zoom H.contentW := by
  unfold Editor.recordCells
  simp only

/-! ## Exclusive edit sessions -/

theorem Editor.boxListeners_congr (e e' : Editor) (h : e'.listeners = e.listeners) :
    e'.boxListeners = e.boxListeners := by
  unfold Editor.boxListeners
  rw [h]

theorem Editor.boxListeners_addEventListener_of_not (e : Editor) (target : NodeRef)
    (type callback : String)
    (h : (⟨target, type, callback⟩ : Listener).isBoxCallback = false) :
    (e.addEventListener target type callback).boxListeners = e.boxListeners := by
  unfold Editor.addEventListener Editor.boxListeners
  split_ifs
  · rfl
  · simp only [List.filter_append, List.filter_cons, h, List.filter_nil, List.append_nil]
    simp

theorem Editor.boxListeners_removeEventListener_of_not (e : Editor) (target : NodeRef)
    (type callback : String)
    (h : (⟨target, type, callback⟩ : Listener).isBoxCallback = false) :
    (e.removeEventListener target type callback).boxListeners = e.boxListeners := by
  unfold Editor.boxListeners
  rw [Editor.removeEventListener_listeners, List.filter_filter]
  apply List.filter_congr
  intro l _
  by_cases hl : l.isBoxCallback = true
  · have hne : l ≠ ⟨target, type, callback⟩ := by
      intro heq
      rw [heq, h] at hl
      cases hl
    simp [hl, hne]
  · simp [hl]

theorem Editor.mem_boxListeners_addEventListener (e : Editor) (target : NodeRef)
    (type callback : String) (l : Listener)
    (h : l ∈ (e.addEventListener target type callback).boxListeners) :
    l ∈ e.boxListeners ∨ l.target = target := by
  unfold Editor.addEventListener Editor.boxListeners at h
  split_ifs at h
  · exact Or.inl h
  · simp only [List.filter_append, List.mem_append, List.mem_filter, List.mem_singleton] at h
    rcases h with h | ⟨h, _⟩
    · exact Or.inl (List.mem_filter.mpr h)
    · exact Or.inr (by rw [h])

theorem Editor.addEventListener_listeners (e : Editor) (target : NodeRef)
    (type callback : String) :
    (e.addEventListener target type callback).listeners =
      if (⟨target, type, callback⟩ : Listener) ∈ e.listeners then e.listeners
      else e.listeners ++ [⟨target, type, callback⟩] := by
  unfold Editor.addEventListener
  split_ifs <;> rfl

theorem Editor.recordCells_listeners (H : TextHost) (curtext : NodeRef) (textbb : BBox)
    (e : Editor) :
    (Editor.recordCells H curtext textbb e).listeners =
      ((e.removeEventListener curtext "dblclick" "selectWord").addEventListener curtext
        "dblclick" "selectWord").listeners := by
  unfold Editor.recordCells
  simp only [Editor.addEventListener_listeners, Editor.removeEventListener_listeners,
    Editor.emit_listeners]

theorem Editor.recordCells_boxListeners (H : TextHost) (curtext : NodeRef) (textbb : BBox)
    (e : Editor) : (Editor.recordCells H curtext textbb e).boxListeners = e.boxListeners := by
  rw [Editor.boxListeners_congr _ _ (Editor.recordCells_listeners H curtext textbb e),
    Editor.boxListeners_addEventListener_of_not _ _ _ _
      (by simp [Listener.isBoxCallback, boxCallbacks]),
    Editor.boxListeners_removeEventListener_of_not _ _ _ _
      (by simp [Listener.isBoxCallback, boxCallbacks])]

theorem Editor.mem_boxListeners_editTextDiv (H : TextHost) (e : Editor) (l : Listener)
    (h : l ∈ (Editor.editTextDiv H e).boxListeners) :
    l ∈ e.boxListeners ∨ some l.target = getTextDiv H e.curtext := by
  unfold Editor.editTextDiv at h
  dsimp only at h
  split at h
  · rename_i box hbox
    rcases Editor.mem_boxListeners_addEventListener _ _ _ _ _ h with h | h
    · rcases Editor.mem_boxListeners_addEventListener _ _ _ _ _ h with h | h
      · rcases Editor.mem_boxListeners_addEventListener _ _ _ _ _ h with h | h
        · exact Or.inl h
        · exact Or.inr (by rw [h, hbox])
      · exact Or.inr (by rw [h, hbox])
    · exact Or.inr (by rw [h, hbox])
  · exact Or.inl h

theorem getTextDiv_sameStructure (H H' : TextHost) (hs : H.SameStructure H')
    (fo : Option NodeRef) : getTextDiv H' fo = getTextDiv H fo := by
  unfold getTextDiv
  rw [hs.1, hs.2]

theorem getTextDiv_none (H : TextHost) : getTextDiv H none = none := rfl

theorem getTextDiv_of_not_foreignObject (H : TextHost) (shape : NodeRef)
    (h : isTextForeignObject (some (H.element shape)) = false) :
    getTextDiv H (some shape) = none := by
  simp [getTextDiv, h]

theorem Editor.Exclusive.of_frame (H : TextHost) (e e' : Editor) (hx : Editor.Exclusive H e)
    (hcur : e'.curtext = e.curtext) (hdiv : e'.currentTextDiv = e.currentTextDiv)
    (hl : e'.boxListeners = e.boxListeners)
    (hint : e.intervals = e.blinker.toList → e'.intervals = e'.blinker.toList)
    (hb : e.curtext = none → e'.blinker = none) : Editor.Exclusive H e' := by
  obtain ⟨h1, h2, h3, _⟩ := hx
  refine ⟨?_, ?_, hint h3, ?_⟩
  · rw [hl, hdiv]
    exact h1
  · rw [hdiv, hcur]
    exact h2
  · rw [hcur]
    exact hb

theorem Editor.locateText_frame (H : TextHost) (curtext selected : NodeRef) (e e1 : Editor)
    (hcur : e.curtext ≠ none)
    (h : Editor.locateText H curtext e = some (selected, e1)) :
    e1.curtext ≠ none ∧ e1.currentTextDiv = e.currentTextDiv ∧ e1.listeners = e.listeners ∧
    e1.intervals = e.intervals ∧ e1.blinker = e.blinker := by
  unfold Editor.locateText at h
  split_ifs at h
  · split at h
    · cases h
    · cases h
      exact ⟨by simp, rfl, rfl, rfl, rfl⟩
  · cases h
    exact ⟨hcur, rfl, rfl, rfl, rfl⟩

theorem Editor.init_frame (H : TextHost) (e e' : Editor) (shape : NodeRef)
    (hcur : e.curtext = some shape)
    (hfo : isTextForeignObject (some (H.element shape)) = false)
    (h : Editor.init H e = some e') :
    e'.curtext ≠ none ∧ e'.currentTextDiv = e.currentTextDiv ∧
    e'.boxListeners = e.boxListeners ∧
    (e.intervals = e.blinker.toList → e'.intervals = e'.blinker.toList) := by
  unfold Editor.init at h
  rw [hcur] at h
  simp only [hfo, Bool.false_eq_true, if_false] at h
  split at h
  · cases h
  · rename_i located e1 hloc
    obtain ⟨l1, l2, l3, l4, l5⟩ :=
      Editor.locateText_frame H shape located e e1 (by rw [hcur]; simp) hloc
    split at h
    · rename_i textbb input _ _
      obtain ⟨f1, f2, f3, _, f5⟩ := Editor.setSelection_frame H _ _ _ _ e' h
      refine ⟨?_, ?_, ?_, ?_⟩
      · rw [f1, Editor.recordCells_curtext]
        exact l1
      · rw [f2, Editor.recordCells_currentTextDiv, l2]
      · rw [Editor.boxListeners_congr _ _ f3, Editor.recordCells_boxListeners,
          Editor.boxListeners_congr _ _ l3]
      · intro hlive
        apply f5
        rw [Editor.recordCells_intervals, Editor.recordCells_blinker, l4, l5]
        exact hlive
    · cases h

theorem Editor.placeCursor_frame (H : TextHost) (point : Option (ℚ × ℚ)) (e e' : Editor)
    (h : Editor.placeCursor H point e = some e') :
    e.curtext ≠ none ∧ e'.curtext = e.curtext ∧ e'.currentTextDiv = e.currentTextDiv ∧
    e'.listeners = e.listeners ∧
    (e.intervals = e.blinker.toList → e'.intervals = e'.blinker.toList) := by
  unfold Editor.placeCursor at h
  split at h
  · cases h
  · rename_i curtext hcur
    dsimp only at h
    rw [Option.map_eq_some'] at h
    obtain ⟨e2, hplaced, rfl⟩ := h
    have hframe : e2.curtext = (e.emit (.styleCursor curtext "text")).curtext ∧
        e2.currentTextDiv = (e.emit (.styleCursor curtext "text")).currentTextDiv ∧
        e2.listeners = (e.emit (.styleCursor curtext "text")).listeners ∧
        e2.canvas = (e.emit (.styleCursor curtext "text")).canvas ∧
        ((e.emit (.styleCursor curtext "text")).intervals =
            (e.emit (.styleCursor curtext "text")).blinker.toList →
          e2.intervals = e2.blinker.toList) := by
      cases point with
      | none => exact Editor.setCursor_frame H none _ e2 hplaced
      | some p =>
        obtain ⟨x, y⟩ := p
        exact Editor.setCursorFromPoint_frame H _ _ _ e2 hplaced
    obtain ⟨f1, f2, f3, _, f5⟩ := hframe
    refine ⟨by rw [hcur]; simp, ?_, ?_, ?_, ?_⟩
    · simpa using f1
    · simpa using f2
    · simpa using f3
    · intro hlive
      simpa using f5 (by simpa using hlive)

theorem Editor.toSelectMode_textinput (H : TextHost) (selectElem : Bool) (e e' : Editor)
    (h : Editor.toSelectMode H selectElem e = some e') : e.textinput ≠ none := by
  intro hnone
  unfold Editor.toSelectMode at h
  simp only [Editor.deleteEmptyText_textinput, Editor.selectShape_textinput,
    Editor.cleanupCaret_textinput, Editor.cleanupTextDiv_textinput, Editor.emit_textinput,
    hnone] at h
  cases h

theorem Editor.toSelectMode_exclusive (H H' : TextHost) (selectElem : Bool) (e e' : Editor)
    (hlisteners : ∀ l ∈ e.boxListeners, some l.target = e.currentTextDiv)
    (hlive : e.intervals = e.blinker.toList)
    (h : Editor.toSelectMode H' selectElem e = some e') : Editor.Exclusive H e' := by
  have hinput := Editor.toSelectMode_textinput H' selectElem e e' h
  rw [Editor.toSelectMode_eq H' selectElem e hinput] at h
  cases h
  refine ⟨?_, ?_, ?_, ?_⟩
  · intro l hl
    exfalso
    simp only [Editor.boxListeners, Editor.emit_listeners, Editor.deleteEmptyText_listeners,
      Editor.selectShape_listeners, Editor.cleanupCaret_listeners,
      Editor.cleanupTextDiv_listeners, Editor.emit_currentTextDiv] at hl
    cases hdiv : e.currentTextDiv with
    | none =>
      rw [hdiv] at hl
      have := hlisteners l hl
      rw [hdiv] at this
      cases this
    | some box =>
      rw [hdiv] at hl
      dsimp only at hl
      rw [boxListeners_filter_of_current] at hl
      · cases hl
      · intro l' hl'
        have := hlisteners l' hl'
        rw [hdiv] at this
        exact Option.some.inj this
  · intro box hbox
    simp at hbox
  · simp only [Editor.emit_intervals, Editor.deleteEmptyText_intervals,
      Editor.selectShape_intervals, Editor.cleanupCaret_intervals,
      Editor.cleanupTextDiv_intervals, Editor.cleanupTextDiv_blinker, Editor.emit_blinker,
      Editor.deleteEmptyText_blinker, Editor.selectShape_blinker, Editor.cleanupCaret_blinker,
      hlive]
    rw [clearInterval_toList]
    rfl
  · intro _
    simp

theorem Editor.toEditMode_exclusive (H H' : TextHost) (hs : H.SameStructure H')
    (point : Option (ℚ × ℚ)) (e e' : Editor)
    (hlisteners : ∀ l ∈ e.boxListeners, some l.target = e.currentTextDiv)
    (hbox : ∀ box, e.currentTextDiv = some box → getTextDiv H e.curtext = some box)
    (hlive : e.intervals = e.blinker.toList)
    (h : Editor.toEditMode H' point e = some e') : Editor.Exclusive H e' := by
  unfold Editor.toEditMode at h
  simp only [Editor.enterTextEdit_curtext] at h
  split_ifs at h with hfo
  · cases h
    have hcur : e.curtext ≠ none := by
      intro hnone
      rw [hnone] at hfo
      simp [isTextForeignObject] at hfo
    refine ⟨?_, ?_, ?_, ?_⟩
    · intro l hl
      rw [Editor.editTextDiv_currentTextDiv, Editor.enterTextEdit_curtext,
        getTextDiv_sameStructure H H' hs]
      rcases Editor.mem_boxListeners_editTextDiv H' _ l hl with hold | hnew
      · rw [Editor.boxListeners_congr e _ (Editor.enterTextEdit_listeners e)] at hold
        exact (hbox l.target (hlisteners l hold).symm).symm
      · rw [Editor.enterTextEdit_curtext, getTextDiv_sameStructure H H' hs] at hnew
        exact hnew
    · intro box hdiv
      rw [Editor.editTextDiv_currentTextDiv, Editor.enterTextEdit_curtext,
        getTextDiv_sameStructure H H' hs] at hdiv
      rw [Editor.editTextDiv_curtext, Editor.enterTextEdit_curtext]
      exact hdiv
    · rw [Editor.editTextDiv_intervals, Editor.enterTextEdit_intervals,
        Editor.editTextDiv_blinker, Editor.enterTextEdit_blinker]
      exact hlive
    · intro hnone
      rw [Editor.editTextDiv_curtext, Editor.enterTextEdit_curtext] at hnone
      exact absurd hnone hcur
  · split at h
    · cases h
    · rename_i e2 hinit
      obtain ⟨p0, p1, p2, p3, p5⟩ := Editor.placeCursor_frame H' point e2 e' h
      cases hcur : e.curtext with
      | none =>
        exfalso
        unfold Editor.init at hinit
        simp only [Editor.enterTextEdit_curtext, hcur] at hinit
        cases hinit
        exact p0 (by rw [Editor.enterTextEdit_curtext, hcur])
      | some shape =>
        have hprimitive : isTextForeignObject (some (H'.element shape)) = false := by
          rw [hcur] at hfo
          simpa using hfo
        obtain ⟨i1, i2, i3, i5⟩ := Editor.init_frame H' (Editor.enterTextEdit e) e2 shape
          (by rw [Editor.enterTextEdit_curtext, hcur]) hprimitive hinit
        have hnodiv : e.currentTextDiv = none := by
          cases hdiv : e.currentTextDiv with
          | none => rfl
          | some box =>
            have := hbox box hdiv
            rw [hcur, ← getTextDiv_sameStructure H H' hs,
              getTextDiv_of_not_foreignObject H' shape hprimitive] at this
            cases this
        have hdiv' : e'.currentTextDiv = none := by
          rw [p2, i2, Editor.enterTextEdit_currentTextDiv, hnodiv]
        refine ⟨?_, ?_, ?_, ?_⟩
        · intro l hl
          rw [Editor.boxListeners_congr _ _ p3, i3,
            Editor.boxListeners_congr e _ (Editor.enterTextEdit_listeners e)] at hl
          rw [hdiv', ← hnodiv]
          exact hlisteners l hl
        · intro box hdiv
          rw [hdiv'] at hdiv
          cases hdiv
        · apply p5
          apply i5
          rw [Editor.enterTextEdit_intervals, Editor.enterTextEdit_blinker]
          exact hlive
        · intro hnone
          rw [p1] at hnone
          exact absurd hnone i1

theorem Editor.Exclusive.of_caret_frame (H : TextHost) (e e' : Editor)
    (hx : Editor.Exclusive H e) (hcur : e.curtext ≠ none)
    (hframe : e'.curtext = e.curtext ∧ e'.currentTextDiv = e.currentTextDiv ∧
      e'.listeners = e.listeners ∧ e'.canvas = e.canvas ∧
      (e.intervals = e.blinker.toList → e'.intervals = e'.blinker.toList)) :
    Editor.Exclusive H e' :=
  Editor.Exclusive.of_frame H e e' hx hframe.1 hframe.2.1
    (Editor.boxListeners_congr e e' hframe.2.2.1) hframe.2.2.2.2 (fun h => absurd h hcur)

theorem Editor.Exclusive.withCurtext (H : TextHost) (e : Editor) (target : NodeRef)
    (hx : Editor.Exclusive H e) (hfree : e.curtext = none ∨ e.curtext = some target) :
    (∀ l ∈ ({ e with curtext := some target } : Editor).boxListeners,
      some l.target = ({ e with curtext := some target } : Editor).currentTextDiv) ∧
    (∀ box, ({ e with curtext := some target } : Editor).currentTextDiv = some box →
      getTextDiv H ({ e with curtext := some target } : Editor).curtext = some box) ∧
    ({ e with curtext := some target } : Editor).intervals =
      ({ e with curtext := some target } : Editor).blinker.toList := by
  obtain ⟨h1, h2, h3, _⟩ := hx
  refine ⟨h1, ?_, h3⟩
  intro box hbox
  have hold := h2 box hbox
  rcases hfree with hnone | hsame
  · rw [hnone] at hold
    cases hold
  · rw [hsame] at hold
    exact hold

theorem Editor.init_exclusive (H H' : TextHost) (hs : H.SameStructure H') (e e' : Editor)
    (hx : Editor.Exclusive H e) (h : Editor.init H' e = some e') : Editor.Exclusive H e' := by
  cases hcur : e.curtext with
  | none =>
    unfold Editor.init at h
    simp only [hcur] at h
    cases h
    exact hx
  | some shape =>
    by_cases hfo : isTextForeignObject (some (H'.element shape)) = true
    · unfold Editor.init at h
      simp only [hcur, hfo, if_true] at h
      cases h
      obtain ⟨h1, h2, h3, h4⟩ := hx
      refine ⟨?_, ?_, h3, ?_⟩
      · intro l hl
        have hdiv := h2 l.target (h1 l hl).symm
        show some l.target = getTextDiv H' (some shape)
        rw [getTextDiv_sameStructure H H' hs, ← hcur]
        exact hdiv.symm
      · intro box hbox
        have hbox' : getTextDiv H' (some shape) = some box := hbox
        rw [getTextDiv_sameStructure H H' hs] at hbox'
        show getTextDiv H (some shape) = some box
        exact hbox'
      · intro hnone
        have hnone' : some shape = (none : Option NodeRef) := hnone
        cases hnone'
    · have hprimitive : isTextForeignObject (some (H'.element shape)) = false := by
        simpa using hfo
      obtain ⟨i1, i2, i3, i5⟩ := Editor.init_frame H' e e' shape hcur hprimitive h
      obtain ⟨h1, h2, h3, _⟩ := hx
      have hnodiv : e.currentTextDiv = none := by
        cases hdiv : e.currentTextDiv with
        | none => rfl
        | some box =>
          have := h2 box hdiv
          rw [hcur, ← getTextDiv_sameStructure H H' hs,
            getTextDiv_of_not_foreignObject H' shape hprimitive] at this
          cases this
      refine ⟨?_, ?_, i5 h3, fun hnone => absurd hnone i1⟩
      · intro l hl
        rw [i3] at hl
        rw [i2]
        exact h1 l hl
      · intro box hbox
        rw [i2, hnodiv] at hbox
        cases hbox

theorem Call.run_exclusive (H H' : TextHost) (hs : H.SameStructure H') (c : Call)
    (e e' : Editor) (hx : Editor.Exclusive H e) (hallowed : c.allowed e = true)
    (hrun : c.run H' e = some e') : Editor.Exclusive H e' := by
  cases c with
  | select target x y =>
    have hfree : e.curtext = none ∨ e.curtext = some target := by
      simpa [Call.allowed] using hallowed
    obtain ⟨w1, w2, w3⟩ := Editor.Exclusive.withCurtext H e target hx hfree
    exact Editor.toEditMode_exclusive H H' hs _ _ e' w1 w2 w3 hrun
  | start elem =>
    have hfree : e.curtext = none ∨ e.curtext = some elem := by
      simpa [Call.allowed] using hallowed
    obtain ⟨w1, w2, w3⟩ := Editor.Exclusive.withCurtext H e elem hx hfree
    exact Editor.toEditMode_exclusive H H' hs _ _ e' w1 w2 w3 hrun
  | toEditMode point =>
    exact Editor.toEditMode_exclusive H H' hs point e e' hx.1 hx.2.1 hx.2.2.1 hrun
  | toSelectMode selectElem =>
    exact Editor.toSelectMode_exclusive H H' selectElem e e' hx.1 hx.2.2.1 hrun
  | clear =>
    simp only [Call.run, Editor.clear] at hrun
    split_ifs at hrun
    · exact Editor.toSelectMode_exclusive H H' false e e' hx.1 hx.2.2.1 hrun
    · cases hrun
      exact hx
  | init => exact Editor.init_exclusive H H' hs e e' hx hrun
  | setInputElem elem =>
    simp only [Call.run, Option.some.injEq] at hrun
    subst hrun
    exact hx
  | setCursor index =>
    have hcur : e.curtext ≠ none := by simpa [Call.allowed] using hallowed
    exact Editor.Exclusive.of_caret_frame H e e' hx hcur
      (Editor.setCursor_frame H' index e e' hrun)
  | mouseDown startX startY =>
    have hcur : e.curtext ≠ none := by simpa [Call.allowed] using hallowed
    simp only [Call.run, Editor.mouseDown] at hrun
    split at hrun
    · cases hrun
    · split at hrun
      · cases hrun
      · rename_i e2 hplaced
        cases hrun
        obtain ⟨f1, f2, f3, f4, f5⟩ := Editor.setCursorFromPoint_frame H' _ _ _ e2 hplaced
        exact Editor.Exclusive.of_caret_frame H e _ hx hcur
          ⟨f1, f2, f3, by simpa [Canvas.apply] using f4, fun hl => f5 hl⟩
  | mouseMove mouseX mouseY =>
    have hcur : e.curtext ≠ none := by simpa [Call.allowed] using hallowed
    exact Editor.Exclusive.of_caret_frame H e e' hx hcur
      (Editor.setEndSelectionFromPoint_frame H' _ _ _ e e' hrun)
  | mouseUp target mouseX mouseY =>
    have hcur : e.curtext ≠ none := by simpa [Call.allowed] using hallowed
    simp only [Call.run, Editor.mouseUp] at hrun
    split at hrun
    · cases hrun
    · rename_i e2 hsel
      have hx2 : Editor.Exclusive H e2 := Editor.Exclusive.of_caret_frame H e e2 hx hcur
        (Editor.setEndSelectionFromPoint_frame H' _ _ _ e e2 hsel)
      split at hrun
      · split_ifs at hrun
        · exact Editor.toSelectMode_exclusive H H' true e2 e' hx2.1 hx2.2.2.1 hrun
        · cases hrun
          exact hx2
      · cases hrun
        exact hx2
  | input =>
    simp only [Call.run, Option.some.injEq] at hrun
    subst hrun
    exact hx
  | blur => exact Editor.toSelectMode_exclusive H H' true e e' hx.1 hx.2.2.1 hrun
  | keydown key =>
    have hx0 : ∀ effect, Editor.Exclusive H (e.emit effect) := fun effect =>
      Editor.Exclusive.of_frame H e _ hx rfl rfl rfl (fun hl => hl) hx.2.2.2
    simp only [Call.run, Editor.handleTextKeydown] at hrun
    by_cases hesc : key = "Escape"
    · simp only [hesc, if_true] at hrun
      exact Editor.toSelectMode_exclusive H H' true _ e' (hx0 _).1 (hx0 _).2.2.1 hrun
    · by_cases henter : key = "Enter"
      · subst henter
        rw [if_neg (by decide), if_pos rfl] at hrun
        by_cases hrange : H'.rangeCount > 0
        · simp only [hrange, if_true, Option.some.injEq] at hrun
          subst hrun
          exact Editor.Exclusive.of_frame H e _ hx (by simp) (by simp)
            (Editor.boxListeners_congr e _ (by simp)) (by simp) (by simpa using hx.2.2.2)
        · simp only [hrange, if_false, Option.some.injEq] at hrun
          subst hrun
          exact Editor.Exclusive.of_frame H e _ hx (by simp) (by simp)
            (Editor.boxListeners_congr e _ (by simp)) (by simp) (by simpa using hx.2.2.2)
      · simp only [hesc, henter, if_false, Option.some.injEq] at hrun
        subst hrun
        exact hx
  | dblclick target pageX pageY =>
    simp only [Call.run, Editor.selectWord] at hrun
    split at hrun
    · rename_i curtext hdbl hcur
      split at hrun
      · cases hrun
      · split at hrun
        · cases hrun
        · rename_i e2 hsel
          cases hrun
          obtain ⟨f1, f2, f3, _, f5⟩ := Editor.setSelection_frame H' _ _ _ e e2 hsel
          refine Editor.Exclusive.of_frame H e _ hx (by simpa using f1) (by simpa using f2)
            ?_ (by simpa using f5) (fun hnone => by rw [hcur] at hnone; cases hnone)
          rw [Editor.boxListeners_congr (e2.addEventListener target "click" "selectAll") _
            (Editor.emit_listeners _ _),
            Editor.boxListeners_addEventListener_of_not _ _ _ _
              (by simp [Listener.isBoxCallback, boxCallbacks]),
            Editor.boxListeners_congr e e2 f3]
    · cases hrun
      exact hx
  | click target =>
    simp only [Call.run, Editor.selectAll] at hrun
    split at hrun
    · cases hrun
    · rename_i curtext hcur
      split at hrun
      · cases hrun
      · rename_i e2 hsel
        cases hrun
        obtain ⟨f1, f2, f3, _, f5⟩ := Editor.setSelection_frame H' _ _ _ e e2 hsel
        refine Editor.Exclusive.of_frame H e _ hx (by simpa using f1) (by simpa using f2)
          ?_ (by simpa using f5) (fun hnone => by rw [hcur] at hnone; cases hnone)
        rw [Editor.boxListeners_removeEventListener_of_not _ _ _ _
            (by simp [Listener.isBoxCallback, boxCallbacks]),
          Editor.boxListeners_congr e e2 f3]
  | blink =>
    simp only [Call.run, Editor.blink] at hrun
    split at hrun
    · cases hrun
    · cases hrun
      exact hx
  | allowDblTimeout =>
    simp only [Call.run, Option.some.injEq] at hrun
    subst hrun
    exact hx
  | removeSelectAllTimeout target =>
    simp only [Call.run, Option.some.injEq] at hrun
    subst hrun
    refine Editor.Exclusive.of_frame H e _ hx rfl rfl ?_ (fun hl => hl) hx.2.2.2
    exact Editor.boxListeners_removeEventListener_of_not _ _ _ _
      (by simp [Listener.isBoxCallback, boxCallbacks])

theorem Editor.initial_exclusive (H : TextHost) (canvas : Canvas) :
    Editor.Exclusive H (Editor.initial canvas) := by
  refine ⟨?_, ?_, rfl, fun _ => rfl⟩
  · intro l hl
    simp [Editor.boxListeners, Editor.initial] at hl
  · intro box hbox
    simp [Editor.initial] at hbox

theorem TextHost.sameStructure_self (H : TextHost) : H.SameStructure H := ⟨rfl, rfl⟩

theorem Editor.Reachable.exclusive (H : TextHost) (canvas : Canvas) (e : Editor)
    (h : Editor.Reachable H canvas e) : Editor.Exclusive H e := by
  induction h with
  | initial => exact Editor.initial_exclusive H canvas
  | call H' c e e' _ hs hallowed hrun ih => exact Call.run_exclusive H H' hs c e e' ih hallowed hrun
  | host e canvas' input _ ih =>
    exact Editor.Exclusive.of_frame H e _ ih rfl rfl rfl (fun hl => hl) ih.2.2.2

theorem Editor.Reachable.of_runCalls (H : TextHost) (canvas : Canvas) (calls : List Call) :
    ∀ e e' : Editor, Editor.Reachable H canvas e → Editor.runCalls H calls e = some e' →
      Editor.Reachable H canvas e' := by
  induction calls with
  | nil =>
    intro e e' hreach hrun
    simp only [Editor.runCalls, Option.some.injEq] at hrun
    subst hrun
    exact hreach
  | cons c rest ih =>
    intro e e' hreach hrun
    simp only [Editor.runCalls] at hrun
    split_ifs at hrun with hallowed
    split at hrun
    · cases hrun
    · rename_i e1 hstep
      exact ih e1 e' (Editor.Reachable.call H c e e1 hreach (TextHost.sameStructure_self H)
        hallowed hstep) hrun

/-- C23, as stated, fails: `start` on a second styled-box shape while the
session of the first is active does not end the earlier session; afterwards the
`input`, `blur` and `keydown` callbacks are still registered on the box of the
earlier shape (node 2) next to those on the box of the new one (node 4).  And
`start` on a styled-box shape during a caret session leaves the blink timer of
that session live. -/
theorem start_keeps_earlier_session_counterexample :
    ((Editor.start (sampleTextHost (fun _ => [])) 1 sampleEditor).bind
        (Editor.start (sampleTextHost (fun _ => [])) 3)).map
        (fun e => (e.curtext, e.currentTextDiv, e.listeners))
      = some (some 3, some 4,
          [⟨2, "input", "handleTextInput"⟩, ⟨2, "blur", "handleTextBlur"⟩,
           ⟨2, "keydown", "handleTextKeydown"⟩, ⟨4, "input", "handleTextInput"⟩,
           ⟨4, "blur", "handleTextBlur"⟩, ⟨4, "keydown", "handleTextKeydown"⟩]) ∧
    ((Editor.start (sampleTextHost (fun _ => [])) 5 sampleEditor).bind
        (Editor.start (sampleTextHost (fun _ => [])) 1)).map
        (fun e => (e.curtext, e.blinker, e.intervals))
      = some (some 1, some 1, [1]) := by
  decide

/-- C23, amended: `select` and `start` do not end an earlier session
themselves.  In every state reached from the initial one by calls of the
module in which `select` or `start` on a shape is made only while no other
shape is current (every session is ended with `toSelectMode` before the next
one begins) and the caret is set only while a shape is current, at most one
shape is in an edit session: every styled-box callback that is registered is
registered on the current box, which is the box of the current shape; the only
live interval timer is the recorded blink timer; and while no shape is current,
no styled-box callback is registered, no box is current and no timer is
live. -/
theorem exclusive_sessions (H : TextHost) (canvas : Canvas) (e : Editor)
    (hreach : Editor.Reachable H canvas e) :
    Editor.Exclusive H e ∧
    (∀ l ∈ e.boxListeners, getTextDiv H e.curtext = some l.target) ∧
    (e.curtext = none →
      e.boxListeners = [] ∧ e.currentTextDiv = none ∧ e.blinker = none ∧ e.intervals = []) := by
  have hx := Editor.Reachable.exclusive H canvas e hreach
  obtain ⟨h1, h2, h3, h4⟩ := hx
  refine ⟨⟨h1, h2, h3, h4⟩, ?_, ?_⟩
  · intro l hl
    exact h2 l.target (h1 l hl).symm
  · intro hnone
    have hdiv : e.currentTextDiv = none := by
      cases hdiv : e.currentTextDiv with
      | none => rfl
      | some box =>
        have := h2 box hdiv
        rw [hnone] at this
        cases this
    refine ⟨?_, hdiv, h4 hnone, ?_⟩
    · apply List.eq_nil_iff_forall_not_mem.mpr
      intro l hl
      have := h1 l hl
      rw [hdiv] at this
      cases this
    · rw [h3, h4 hnone]
      rfl

/-- C23 (amended) on the reference drawing: a session on the first styled-box
shape, ended with `toSelectMode`, then a session on the second one. -/
theorem exclusive_sessions_witness :
    ∃ e, Editor.runCalls (sampleTextHost (fun _ => []))
        [.setInputElem ⟨[], 0, 0⟩, .start 1, .toSelectMode true, .start 3]
        (Editor.initial ⟨"select", [], []⟩) = some e ∧
      Editor.Exclusive (sampleTextHost (fun _ => [])) e ∧
      (∀ l ∈ e.boxListeners, getTextDiv (sampleTextHost (fun _ => [])) e.curtext
        = some l.target) := by
  have hreturns : (Editor.runCalls (sampleTextHost (fun _ => []))
      [.setInputElem ⟨[], 0, 0⟩, .start 1, .toSelectMode true, .start 3]
      (Editor.initial ⟨"select", [], []⟩)).isSome = true := by decide
  obtain ⟨e, he⟩ := Option.isSome_iff_exists.mp hreturns
  have hx := exclusive_sessions (sampleTextHost (fun _ => [])) ⟨"select", [], []⟩ e
    (Editor.Reachable.of_runCalls _ _ _ _ e Editor.Reachable.initial he)
  exact ⟨e, he, hx.1, hx.2.1⟩

/-! ## The two editing modes -/

/-- C25, as stated, fails: `toEditMode` on a primitive shape (node 5, entered
through `start`) in a state in which a styled box (node 2) is recorded as the
current box leaves that box recorded; leaving edit mode afterwards runs the
styled-box cleanup on it and, the box being empty, deletes the selected
primitive shape although its text is not empty. -/
theorem toEditMode_keeps_current_box_counterexample :
    ((Editor.start (sampleTextHost sampleTextContent) 1
          (Editor.setInputElem ⟨[97, 98, 32, 99, 100], 0, 0⟩
            (Editor.initial ⟨"select", [5], []⟩))).bind
        (Editor.start (sampleTextHost sampleTextContent) 5)).map
        (fun e => (e.curtext, e.currentTextDiv))
      = some (some 5, some 2) ∧
    (((Editor.start (sampleTextHost sampleTextContent) 1
          (Editor.setInputElem ⟨[97, 98, 32, 99, 100], 0, 0⟩
            (Editor.initial ⟨"select", [5], []⟩))).bind
        (Editor.start (sampleTextHost sampleTextContent) 5)).bind
        (Editor.toSelectMode (sampleTextHost sampleTextContent) false)).map
        (fun e => e.canvas.removed)
      = some [5] := by
  decide

/-- C25, amended: `toEditMode` on a styled-box shape returns and changes none
of the caret-engine state (character cells, caret, selection highlight, blink
timer and live timers, text bounding box, transform matrix); `toEditMode` on a
primitive shape registers and removes no styled-box callback and does not
change which box is recorded as the current box, so that none is recorded
afterwards when none was recorded before. -/
theorem toEditMode_frame (H : TextHost) (point : Option (ℚ × ℚ)) (e : Editor) :
    (isTextForeignObject (e.curtext.map H.element) = true →
      ∃ e', Editor.toEditMode H point e = some e' ∧
        e'.chardata = e.chardata ∧ e'.cursor = e.cursor ∧ e'.selblock = e.selblock ∧
        e'.blinker = e.blinker ∧ e'.intervals = e.intervals ∧ e'.textbb = e.textbb ∧
        e'.matrix = e.matrix) ∧
    (isTextForeignObject (e.curtext.map H.element) = false →
      ∀ e', Editor.toEditMode H point e = some e' →
        e'.boxListeners = e.boxListeners ∧ e'.currentTextDiv = e.currentTextDiv ∧
        (e.currentTextDiv = none → e'.currentTextDiv = none)) := by
  refine ⟨?_, ?_⟩
  · intro hfo
    refine ⟨Editor.editTextDiv H (Editor.enterTextEdit e), ?_, by simp, by simp, by simp,
      by simp, by simp, by simp, by simp⟩
    unfold Editor.toEditMode
    simp only [Editor.enterTextEdit_curtext, hfo, if_true]
  · intro hfo e' h
    unfold Editor.toEditMode at h
    simp only [Editor.enterTextEdit_curtext, hfo, Bool.false_eq_true, if_false] at h
    split at h
    · cases h
    · rename_i e2 hinit
      obtain ⟨p0, p1, p2, p3, _⟩ := Editor.placeCursor_frame H point e2 e' h
      cases hcur : e.curtext with
      | none =>
        exfalso
        unfold Editor.init at hinit
        simp only [Editor.enterTextEdit_curtext, hcur] at hinit
        cases hinit
        exact p0 (by rw [Editor.enterTextEdit_curtext, hcur])
      | some shape =>
        have hprimitive : isTextForeignObject (some (H.element shape)) = false := by
          rw [hcur] at hfo
          simpa using hfo
        obtain ⟨_, i2, i3, _⟩ := Editor.init_frame H (Editor.enterTextEdit e) e2 shape
          (by rw [Editor.enterTextEdit_curtext, hcur]) hprimitive hinit
        have hdiv : e'.currentTextDiv = e.currentTextDiv := by
          rw [p2, i2, Editor.enterTextEdit_currentTextDiv]
        refine ⟨?_, hdiv, fun hnone => by rw [hdiv, hnone]⟩
        rw [Editor.boxListeners_congr _ _ p3, i3,
          Editor.boxListeners_congr e _ (Editor.enterTextEdit_listeners e)]

/-- C25 (amended) on the primitive shape of the reference drawing. -/
theorem toEditMode_frame_witness :
    ∃ e', Editor.toEditMode (sampleTextHost (fun _ => [])) none
        { sampleEditor with curtext := some 5 } = some e' ∧
      e'.boxListeners = ({ sampleEditor with curtext := some 5 } : Editor).boxListeners ∧
      e'.currentTextDiv = none := by
  have hreturns : (Editor.toEditMode (sampleTextHost (fun _ => [])) none
      { sampleEditor with curtext := some 5 }).isSome = true := by decide
  obtain ⟨e', he⟩ := Option.isSome_iff_exists.mp hreturns
  obtain ⟨h1, _, h3⟩ := (toEditMode_frame (sampleTextHost (fun _ => [])) none
    { sampleEditor with curtext := some 5 }).2 (by decide) e' he
  exact ⟨e', he, h1, h3 (by decide)⟩

/-! ## Export and import -/

theorem sameTree_refl (d : Document) : SameTree d d := fun _ => rfl

theorem sameTree_trans {a b c : Document} (h₁ : SameTree a b) (h₂ : SameTree b c) :
    SameTree a c := fun r => (h₁ r).trans (h₂ r)

theorem sameTree_symm {a b : Document} (h : SameTree a b) : SameTree b a :=
  fun r => (h r).symm

/-- Documents that differ in live style declarations only have the same tree. -/
theorem sameTree_of_sameShape {d d' : Document} (h : SameShape d d') : SameTree d d' := by
  intro r
  have hr := h r
  cases h1 : d[r]? with
  | none =>
    cases h2 : d'[r]? with
    | none => rfl
    | some n' => rw [h1, h2] at hr; simp at hr
  | some n =>
    cases h2 : d'[r]? with
    | none => rw [h1, h2] at hr; simp at hr
    | some n' =>
      rw [h1, h2] at hr
      simp only [Option.map_some', Option.some.injEq, DomNode.shape, Prod.mk.injEq] at hr
      simp [DomNode.skeleton, hr.1, hr.2.1, hr.2.2]

/-- The nodes of two documents with the same tree, one by one. -/
theorem sameTree_getElem? {d d' : Document} (h : SameTree d d') {r : NodeRef} {n' : DomNode}
    (hn : d'[r]? = some n') :
    ∃ n, d[r]? = some n ∧ n.elem.tagName = n'.elem.tagName ∧
      n.elem.attributes.filter (fun a => a.1 != "style")
        = n'.elem.attributes.filter (fun a => a.1 != "style") ∧
      n.descendantCount = n'.descendantCount := by
  have hr := h r
  cases h1 : d[r]? with
  | none => rw [h1, hn] at hr; simp at hr
  | some n =>
    rw [h1, hn] at hr
    simp only [Option.map_some', Option.some.injEq, DomNode.skeleton, Prod.mk.injEq] at hr
    exact ⟨n, rfl, hr.1, hr.2.1, hr.2.2⟩

/-- The elements of two documents with the same tree, one by one. -/
theorem sameTree_elem? {d d' : Document} (h : SameTree d d') {r : NodeRef} {e' : Elem}
    (he : d'.elem? r = some e') :
    ∃ e, d.elem? r = some e ∧ e.tagName = e'.tagName ∧
      e.attributes.filter (fun a => a.1 != "style")
        = e'.attributes.filter (fun a => a.1 != "style") := by
  unfold Document.elem? at he ⊢
  cases hn : d'[r]? with
  | none => rw [hn] at he; simp at he
  | some n' =>
    rw [hn] at he
    simp only [Option.map_some', Option.some.injEq] at he
    obtain ⟨n, h1, h2, h3, _⟩ := sameTree_getElem? h hn
    subst he
    exact ⟨n.elem, by simp [h1], h2, h3⟩

theorem sameTree_update (d : Document) (ref : NodeRef) (f : Elem → Elem)
    (hf : ∀ e, (f e).tagName = e.tagName ∧
      (f e).attributes.filter (fun a => a.1 != "style")
        = e.attributes.filter (fun a => a.1 != "style")) :
    SameTree (d.update ref f) d := by
  intro r
  by_cases h : r = ref
  · subst h
    rw [Document.getElem?_update_self]
    cases d[r]? with
    | none => rfl
    | some n => simp [DomNode.skeleton, (hf n.elem).1, (hf n.elem).2]
  · rw [Document.getElem?_update_of_ne d ref r f h]

theorem sameTree_descendants {d d' : Document} (h : SameTree d d') (r : NodeRef) :
    d.descendants r = d'.descendants r := by
  unfold Document.descendants
  cases h2 : d'[r]? with
  | none =>
    cases h1 : d[r]? with
    | none => rfl
    | some n =>
      obtain ⟨n', hn', _⟩ := sameTree_getElem? (sameTree_symm h) h1
      rw [h2] at hn'; simp at hn'
  | some n' =>
    obtain ⟨n, h1, _, _, hc⟩ := sameTree_getElem? h h2
    rw [h1]
    simp [hc]

theorem styleBlind_textForeignObjectSelector : StyleBlind textForeignObjectSelector := by
  intro e e' h1 h2
  have h3 : e.attributes.lookup "se:type" = e'.attributes.lookup "se:type" := by
    rw [← lookup_filter_of_ne e.attributes "style" "se:type" (by decide),
      ← lookup_filter_of_ne e'.attributes "style" "se:type" (by decide), h2]
  simp [textForeignObjectSelector, Elem.getAttribute, h1, h3]

theorem styleBlind_divSelector : StyleBlind divSelector := by
  intro e e' h1 _
  simp [divSelector, h1]

theorem sameTree_querySelectorAll {d d' : Document} (h : SameTree d d') (r : NodeRef)
    {selector : Elem → Bool} (hs : StyleBlind selector) :
    d.querySelectorAll r selector = d'.querySelectorAll r selector := by
  unfold Document.querySelectorAll
  rw [sameTree_descendants h r]
  apply List.filter_congr
  intro x _
  cases h2 : d'.elem? x with
  | none =>
    cases h1 : d.elem? x with
    | none => rfl
    | some e =>
      obtain ⟨e', he', _⟩ := sameTree_elem? (sameTree_symm h) h1
      rw [h2] at he'; simp at he'
  | some e' =>
    obtain ⟨e, h1, ht, ha⟩ := sameTree_elem? h h2
    rw [h1]
    exact hs e e' ht ha

theorem sameTree_querySelector {d d' : Document} (h : SameTree d d') (r : NodeRef)
    {selector : Elem → Bool} (hs : StyleBlind selector) :
    d.querySelector r selector = d'.querySelector r selector := by
  unfold Document.querySelector
  rw [sameTree_querySelectorAll h r hs]

theorem sameTree_textDivs {d d' : Document} (h : SameTree d d') (root : NodeRef) :
    d.textDivs root = d'.textDivs root := by
  unfold Document.textDivs
  rw [sameTree_querySelectorAll h root styleBlind_textForeignObjectSelector]
  apply List.filterMap_congr
  intro x _
  exact sameTree_querySelector h x styleBlind_divSelector

/-- Rewriting the style text leaves every other attribute in place. -/
theorem filter_withStyleText (attributes : List (String × String)) (text : String) :
    (withStyleText attributes text).filter (fun a => a.1 != "style")
      = attributes.filter (fun a => a.1 != "style") :=
  StyleDecl.filter_setProperty attributes "style" text

/-- The style text after it was rewritten. -/
theorem lookup_withStyleText (attributes : List (String × String)) (text : String) :
    (withStyleText attributes text).lookup "style" = if text = "" then none else some text := by
  have h := StyleDecl.getPropertyValue_setProperty_self attributes "style" text
  unfold StyleDecl.getPropertyValue at h
  by_cases ht : text = ""
  · rw [if_pos ht]
    subst ht
    unfold withStyleText StyleDecl.setProperty
    rw [if_pos rfl]
    exact lookup_filter_self attributes "style"
  · rw [if_neg ht]
    unfold withStyleText
    cases hl : (StyleDecl.setProperty attributes "style" text).lookup "style" with
    | none => rw [hl] at h; exact absurd h.symm ht
    | some v => rw [hl] at h; simp at h; rw [h]

/-- An attribute other than `style` is read from the attributes without `style`. -/
theorem getAttribute_of_filter_eq {e e' : Elem}
    (h : e.attributes.filter (fun a => a.1 != "style")
      = e'.attributes.filter (fun a => a.1 != "style")) (name : String) (hname : name ≠ "style") :
    e.getAttribute name = e'.getAttribute name := by
  unfold Elem.getAttribute
  rw [← lookup_filter_of_ne e.attributes "style" name hname,
    ← lookup_filter_of_ne e'.attributes "style" name hname, h]

/-- Export changes no attribute other than the style text. -/
theorem filter_exportedAttributes (P : Platform) (doc : Document) (r : NodeRef) (e : Elem) :
    (exportedAttributes P doc r e).filter (fun a => a.1 != "style")
      = e.attributes.filter (fun a => a.1 != "style") := by
  unfold exportedAttributes
  split
  · exact filter_withStyleText _ _
  · rfl

/-- A parsed export of a document: every node keeps its tag and descendants, has
the attributes export wrote, and has the live style declaration the parser
left. -/
theorem getElem?_parseMarkup_exportMarkup (P : Platform) (detached : NodeRef → StyleDecl)
    (doc : Document) (r : NodeRef) :
    (parseMarkup detached (exportMarkup P doc))[r]? =
      (doc[r]?).map (fun n =>
        ⟨⟨n.elem.tagName, exportedAttributes P doc r n.elem,
          if ((exportedAttributes P doc r n.elem).lookup "style").getD "" != "" then detached r
          else []⟩, n.descendantCount⟩) := by
  unfold parseMarkup exportMarkup
  rw [List.getElem?_map, List.getElem?_enum, List.getElem?_map, List.getElem?_enum]
  cases doc[r]? <;> rfl

theorem sameTree_parseMarkup_exportMarkup (P : Platform) (detached : NodeRef → StyleDecl)
    (doc : Document) : SameTree (parseMarkup detached (exportMarkup P doc)) doc := by
  intro r
  rw [getElem?_parseMarkup_exportMarkup]
  cases doc[r]? with
  | none => rfl
  | some n => simp [DomNode.skeleton, filter_exportedAttributes]

/-- The migration changes the style text of a box only. -/
theorem migrateLegacyAttributes_skeleton (P : Platform) (container box : Elem) :
    (migrateLegacyAttributes P container box).tagName = box.tagName ∧
    (migrateLegacyAttributes P container box).attributes.filter (fun a => a.1 != "style")
      = box.attributes.filter (fun a => a.1 != "style") := by
  unfold migrateLegacyAttributes
  split
  · exact ⟨rfl, rfl⟩
  · exact ⟨rfl, filter_withStyleText _ _⟩

/-- A box with nothing to migrate is left as it is. -/
theorem migrateLegacyAttributes_of_nil (P : Platform) (container box : Elem)
    (h : legacyFactsToMigrate P container (declaredStyle P box) = []) :
    migrateLegacyAttributes P container box = box := by
  unfold migrateLegacyAttributes
  rw [h]

/-- The facts to migrate depend on the attributes of the container other than
`style` only. -/
theorem legacyFactsToMigrate_congr (P : Platform) {c c' : Elem}
    (h : c.attributes.filter (fun a => a.1 != "style")
      = c'.attributes.filter (fun a => a.1 != "style")) (declared : StyleDecl) :
    legacyFactsToMigrate P c declared = legacyFactsToMigrate P c' declared := by
  unfold legacyFactsToMigrate legacyStyleCommands
  simp only [List.filterMap_cons, List.filterMap_nil,
    getAttribute_of_filter_eq h "font-family" (by decide),
    getAttribute_of_filter_eq h "font-size" (by decide),
    getAttribute_of_filter_eq h "font-weight" (by decide),
    getAttribute_of_filter_eq h "font-style" (by decide),
    getAttribute_of_filter_eq h "fill" (by decide),
    getAttribute_of_filter_eq h "text-anchor" (by decide),
    getAttribute_of_filter_eq h "text-decoration" (by decide)]

theorem migrateTextDiv_sameTree (P : Platform) (doc : Document) (foreignObject : NodeRef) :
    SameTree (migrateTextDiv P doc foreignObject) doc := by
  unfold migrateTextDiv
  split
  · exact sameTree_update _ _ _ (migrateLegacyAttributes_skeleton P _)
  · exact sameTree_refl _

theorem migrateLegacyStyles_sameTree (P : Platform) (doc : Document) (svgContent : NodeRef) :
    SameTree (migrateLegacyStyles P doc svgContent) doc := by
  unfold migrateLegacyStyles
  generalize doc.querySelectorAll svgContent textForeignObjectSelector = fos
  induction fos generalizing doc with
  | nil => exact sameTree_refl _
  | cons fo fos ih =>
    rw [List.foldl_cons]
    exact sameTree_trans (ih _) (migrateTextDiv_sameTree P doc fo)

theorem loadMarkup_sameTree (P : Platform) (detached : NodeRef → StyleDecl) (markup : Markup) :
    SameTree (loadMarkup P detached markup) (parseMarkup detached markup) :=
  sameTree_trans (sameTree_of_sameShape (restoreTextDivStyles_sameShape P _ (some 0)))
    (migrateLegacyStyles_sameTree P _ 0)

theorem saveLoadCycle_sameTree (P : Platform) (detached : NodeRef → StyleDecl)
    (doc : Document) : SameTree (saveLoadCycle P detached doc) doc :=
  sameTree_trans (loadMarkup_sameTree P detached _) (sameTree_parseMarkup_exportMarkup P detached doc)

/-- Having nothing to migrate depends on the tree only. -/
theorem nothingToMigrate_of_sameTree (P : Platform) {d d' : Document} (h : SameTree d d')
    (textDiv : NodeRef) (declared : StyleDecl) (hd : NothingToMigrate P d' textDiv declared) :
    NothingToMigrate P d textDiv declared := by
  intro fo c hc hsel hq
  obtain ⟨c', hc', ht, ha⟩ := sameTree_elem? (sameTree_symm h) hc
  rw [legacyFactsToMigrate_congr P ha.symm declared]
  apply hd fo c' hc'
  · rw [← styleBlind_textForeignObjectSelector c c' ht.symm ha.symm]; exact hsel
  · rw [← sameTree_querySelector h fo styleBlind_divSelector]; exact hq

/-- The migration on one container leaves a box with nothing to migrate as it
is. -/
theorem migrateTextDiv_elem? (P : Platform) (doc : Document) (foreignObject textDiv : NodeRef)
    (box : Elem) (hfo : foreignObject ∈ doc.querySelectorAll 0 textForeignObjectSelector)
    (hbox : doc.elem? textDiv = some box)
    (hmig : NothingToMigrate P doc textDiv (declaredStyle P box)) :
    (migrateTextDiv P doc foreignObject).elem? textDiv = some box := by
  obtain ⟨c, hc, hsel⟩ := Document.elem?_of_mem_querySelectorAll hfo
  unfold migrateTextDiv
  rw [hc]
  cases hq : doc.querySelector foreignObject divSelector with
  | none => exact hbox
  | some b =>
    simp only
    by_cases hb : b = textDiv
    · subst hb
      rw [Document.elem?_update_self, hbox, Option.map_some',
        migrateLegacyAttributes_of_nil P c box (hmig foreignObject c hc hsel hq)]
    · unfold Document.elem?
      rw [Document.getElem?_update_of_ne doc b textDiv _ (fun e => hb e.symm)]
      exact hbox

/-- The migration over any containers of the document leaves a box with nothing
to migrate as it is. -/
theorem foldl_migrateTextDiv_elem? (P : Platform) (base : Document) (textDiv : NodeRef)
    (box : Elem) (fos : List NodeRef)
    (hfos : ∀ fo ∈ fos, fo ∈ base.querySelectorAll 0 textForeignObjectSelector)
    (hmig : NothingToMigrate P base textDiv (declaredStyle P box))
    (doc : Document) (hdoc : SameTree doc base) (hbox : doc.elem? textDiv = some box) :
    (fos.foldl (migrateTextDiv P) doc).elem? textDiv = some box := by
  induction fos generalizing doc with
  | nil => exact hbox
  | cons fo fos ih =>
    rw [List.foldl_cons]
    apply ih (fun f hf => hfos f (List.mem_cons_of_mem _ hf))
    · exact sameTree_trans (migrateTextDiv_sameTree P doc fo) hdoc
    · apply migrateTextDiv_elem? P doc fo textDiv box
      · rw [sameTree_querySelectorAll hdoc 0 styleBlind_textForeignObjectSelector]
        exact hfos fo (List.mem_cons_self _ _)
      · exact hbox
      · exact nothingToMigrate_of_sameTree P hdoc textDiv _ hmig

theorem migrateLegacyStyles_elem? (P : Platform) (doc : Document) (textDiv : NodeRef)
    (box : Elem) (hbox : doc.elem? textDiv = some box)
    (hmig : NothingToMigrate P doc textDiv (declaredStyle P box)) :
    (migrateLegacyStyles P doc 0).elem? textDiv = some box := by
  unfold migrateLegacyStyles
  exact foldl_migrateTextDiv_elem? P doc textDiv box _ (fun _ h => h) hmig doc
    (sameTree_refl doc) hbox

/-- The box of a shape after one save/load cycle: its style text is the text of
the live style declaration it had, and its live style declaration is the one it
had. -/
theorem saveLoadCycle_elem?_textDiv (P : Platform) (detached : NodeRef → StyleDecl)
    (doc : Document) (foreignObject textDiv : NodeRef) (box : Elem)
    (hfo : foreignObject ∈ doc.querySelectorAll 0 textForeignObjectSelector)
    (hdiv : doc.querySelector foreignObject divSelector = some textDiv)
    (hbox : doc.elem? textDiv = some box)
    (hparse : P.parseCss (P.cssText box.style) = box.style)
    (hempty : P.cssText box.style = "" → box.style = [])
    (hmig : NothingToMigrate P doc textDiv box.style) :
    (saveLoadCycle P detached doc).elem? textDiv
      = some ⟨box.tagName, withStyleText box.attributes (P.cssText box.style), box.style⟩ := by
  have hmem : textDiv ∈ doc.textDivs 0 := by
    unfold Document.textDivs
    exact List.mem_filterMap.2 ⟨foreignObject, hfo, hdiv⟩
  have htree := sameTree_parseMarkup_exportMarkup P detached doc
  -- the box as the parser leaves it
  have hparsed : (parseMarkup detached (exportMarkup P doc)).elem? textDiv
      = some ⟨box.tagName, withStyleText box.attributes (P.cssText box.style),
          if P.cssText box.style = "" then [] else detached textDiv⟩ := by
    unfold Document.elem? at hbox ⊢
    rw [getElem?_parseMarkup_exportMarkup]
    cases hn : doc[textDiv]? with
    | none => rw [hn] at hbox; simp at hbox
    | some n =>
      rw [hn] at hbox
      simp only [Option.map_some', Option.some.injEq] at hbox
      subst hbox
      simp only [Option.map_some', exportedAttributes, if_pos hmem, lookup_withStyleText]
      by_cases ht : P.cssText n.elem.style = ""
      · simp [ht]
      · simp [ht]
  -- the declaration block of its style text is the declaration the box had
  have hdeclared : declaredStyle P ⟨box.tagName,
      withStyleText box.attributes (P.cssText box.style),
      if P.cssText box.style = "" then [] else detached textDiv⟩ = box.style := by
    unfold declaredStyle Elem.getAttribute
    simp only [lookup_withStyleText]
    by_cases ht : P.cssText box.style = ""
    · rw [if_pos ht]; exact (hempty ht).symm
    · rw [if_neg ht]; exact hparse
  -- nothing is migrated onto it
  have hmigrated : (migrateLegacyStyles P (parseMarkup detached (exportMarkup P doc)) 0).elem?
      textDiv = some ⟨box.tagName, withStyleText box.attributes (P.cssText box.style),
          if P.cssText box.style = "" then [] else detached textDiv⟩ := by
    apply migrateLegacyStyles_elem? P _ textDiv _ hparsed
    rw [hdeclared]
    exact nothingToMigrate_of_sameTree P htree textDiv _ hmig
  -- the restoration pass materialises the style text
  have htree2 := sameTree_trans
    (migrateLegacyStyles_sameTree P (parseMarkup detached (exportMarkup P doc)) 0) htree
  have hmem2 : textDiv ∈
      (migrateLegacyStyles P (parseMarkup detached (exportMarkup P doc)) 0).textDivs 0 := by
    rw [sameTree_textDivs htree2 0]; exact hmem
  unfold saveLoadCycle loadMarkup
  unfold Document.elem? at hmigrated ⊢
  rw [restoreTextDivStyles_getElem?, if_pos hmem2]
  cases hn : (migrateLegacyStyles P (parseMarkup detached (exportMarkup P doc)) 0)[textDiv]? with
  | none => rw [hn] at hmigrated; simp at hmigrated
  | some n =>
    rw [hn] at hmigrated
    simp only [Option.map_some', Option.some.injEq] at hmigrated
    simp only [Option.map_some', Option.some.injEq, hmigrated]
    unfold restoreElem Elem.getAttribute
    simp only [lookup_withStyleText]
    by_cases ht : P.cssText box.style = ""
    · simp only [if_pos ht]
      rw [hempty ht]
    · simp only [if_neg ht]
      have hne : (P.cssText box.style != "") = true := by simpa using ht
      rw [if_pos hne, hparse]

/-- The box of a shape after any number of save/load cycles. -/
theorem foldl_saveLoadCycle_elem?_textDiv (P : Platform) (foreignObject textDiv : NodeRef)
    (declared : StyleDecl)
    (hparse : P.parseCss (P.cssText declared) = declared)
    (hempty : P.cssText declared = "" → declared = [])
    (cycles : List (NodeRef → StyleDecl)) (doc : Document) (box : Elem)
    (hfo : foreignObject ∈ doc.querySelectorAll 0 textForeignObjectSelector)
    (hdiv : doc.querySelector foreignObject divSelector = some textDiv)
    (hbox : doc.elem? textDiv = some box) (hstyle : box.style = declared)
    (hmig : NothingToMigrate P doc textDiv declared) :
    ∃ after, (cycles.foldl (fun d detached => saveLoadCycle P detached d) doc).elem? textDiv
        = some after ∧
      after.style = declared ∧ after.tagName = box.tagName ∧
      after.attributes.filter (fun a => a.1 != "style")
        = box.attributes.filter (fun a => a.1 != "style") := by
  induction cycles generalizing doc box with
  | nil => exact ⟨box, hbox, hstyle, rfl, rfl⟩
  | cons detached rest ih =>
    rw [List.foldl_cons]
    have htree := saveLoadCycle_sameTree P detached doc
    subst hstyle
    obtain ⟨after, h1, h2, h3, h4⟩ := ih (saveLoadCycle P detached doc)
      ⟨box.tagName, withStyleText box.attributes (P.cssText box.style), box.style⟩
      (by rw [sameTree_querySelectorAll htree 0 styleBlind_textForeignObjectSelector]; exact hfo)
      (by rw [sameTree_querySelector htree foreignObject styleBlind_divSelector]; exact hdiv)
      (saveLoadCycle_elem?_textDiv P detached doc foreignObject textDiv box hfo hdiv hbox
        hparse hempty hmig)
      rfl
      (nothingToMigrate_of_sameTree P htree textDiv _ hmig)
    exact ⟨after, h1, h2, h3, h4.trans (filter_withStyleText _ _)⟩

/-- The seven getters read a box through its live style declaration and its
computed style. -/
theorem readStyleFacts_congr (P : Platform) (e e' : Elem) (hstyle : e.style = e'.style)
    (hcomputed : P.getComputedStyle e = P.getComputedStyle e') :
    readStyleFacts P (some e) = readStyleFacts P (some e') := by
  simp only [readStyleFacts, getTextAlignFromDiv, getFontWeightFromDiv, getFontStyleFromDiv,
    getFontFamilyFromDiv, getFontSizeFromDiv, getColorFromDiv, getTextDecorationFromDiv,
    hstyle, hcomputed]

/-- A text container without presentational attributes has nothing to migrate. -/
theorem legacyFactsToMigrate_of_clean (P : Platform) (container : Elem) (declared : StyleDecl)
    (h : carriesNoPresentationalAttribute container.attributes = true) :
    legacyFactsToMigrate P container declared = [] := by
  unfold carriesNoPresentationalAttribute presentationalAttributes at h
  simp only [List.all_cons, List.all_nil, Bool.and_true, Bool.and_eq_true,
    Option.isNone_iff_eq_none] at h
  obtain ⟨h1, h2, h3, h4, h5, h6, h7⟩ := h
  unfold legacyFactsToMigrate legacyStyleCommands Elem.getAttribute
  simp only [List.filterMap_cons, List.filterMap_nil, h1, h2, h3, h4, h5, h6, h7]

/-- In a drawing whose text containers carry no presentational attribute,
nothing is left to migrate onto any box. -/
theorem nothingToMigrate_of_containersClean (P : Platform) (doc : Document)
    (hclean : ContainersClean doc) (textDiv : NodeRef) (declared : StyleDecl) :
    NothingToMigrate P doc textDiv declared :=
  fun fo c hc hsel _ => legacyFactsToMigrate_of_clean P c declared (hclean fo c hc hsel)

/-- A check of every node decides whether the text containers are clean. -/
theorem containersClean_of_all (doc : Document)
    (h : doc.all (fun n => !textForeignObjectSelector n.elem ||
      carriesNoPresentationalAttribute n.elem.attributes) = true) : ContainersClean doc := by
  intro r e he hsel
  unfold Document.elem? at he
  cases hn : doc[r]? with
  | none => rw [hn] at he; simp at he
  | some n =>
    rw [hn] at he
    simp only [Option.map_some', Option.some.injEq] at he
    subst he
    have := (List.all_eq_true.1 h) n (List.getElem?_mem hn)
    simpa [hsel] using this

/-- C1: save/load round trip.  Take any styled-box text shape of a drawing (a
text container below the root with its embedded box) whose box has a live style
declaration that the host serialises faithfully (parsing its text gives the
declaration back, and only the empty declaration has an empty text), that has
nothing left to migrate (as every shape whose container carries positioning
only), and whose computed style does not depend on the literal style text.
The box may have been edited by any setters since it was loaded or created.
After any number of cycles of export, load and restoration, so after 1, 2 or 3
of them, and whatever live style declarations the markup parser leaves behind
in each cycle, the box has the same live style declaration and every one of the
seven facts reads the same value as before the first export. -/
theorem save_load_round_trip (P : Platform) (doc : Document) (foreignObject textDiv : NodeRef)
    (box : Elem)
    (hfo : foreignObject ∈ doc.querySelectorAll 0 textForeignObjectSelector)
    (hdiv : doc.querySelector foreignObject divSelector = some textDiv)
    (hbox : doc.elem? textDiv = some box)
    (hparse : P.parseCss (P.cssText box.style) = box.style)
    (hempty : P.cssText box.style = "" → box.style = [])
    (hmig : NothingToMigrate P doc textDiv box.style)
    (hcomputed : ∀ e : Elem, e.tagName = box.tagName → e.style = box.style →
      e.attributes.filter (fun a => a.1 != "style")
        = box.attributes.filter (fun a => a.1 != "style") →
      P.getComputedStyle e = P.getComputedStyle box)
    (cycles : List (NodeRef → StyleDecl)) :
    ((cycles.foldl (fun d detached => saveLoadCycle P detached d) doc).elem? textDiv).map
        (fun e => e.style) = some box.style ∧
    readStyleFacts P
        ((cycles.foldl (fun d detached => saveLoadCycle P detached d) doc).elem? textDiv)
      = readStyleFacts P (some box) := by
  obtain ⟨after, h1, h2, h3, h4⟩ := foldl_saveLoadCycle_elem?_textDiv P foreignObject textDiv
    box.style hparse hempty cycles doc box hfo hdiv hbox rfl hmig
  rw [h1]
  exact ⟨by rw [Option.map_some', h2], readStyleFacts_congr P after box h2 (hcomputed after h3 h2 h4)⟩

/-- C1 on a shape whose box was edited by all seven setters after it was
loaded (so that its style text is stale): after three cycles in which the
parser leaves the live style declarations empty, unrelated or stale, the box
reads right, normal, italic, Verdana, 24, red and underline, as before the
first export. -/
theorem save_load_round_trip_witness :
    (editedShape.elem? 2).map (fun e => e.attributes)
      = some [("style", "text-align: center; font-weight: bold; font-style: italic")] ∧
    readStyleFacts referencePlatform
        (([fun _ => [], fun _ => [("color", "blue")], fun _ => [("text-align", "left")]].foldl
          (fun d detached => saveLoadCycle referencePlatform detached d) editedShape).elem? 2)
      = { alignment := "right", weight := "normal", slant := "italic", family := "Verdana",
          size := .num 24, color := "red", decoration := "underline" } :=
  ⟨by decide,
    ((save_load_round_trip referencePlatform editedShape 1 2
      ⟨"div", [("style", "text-align: center; font-weight: bold; font-style: italic")],
        [("text-align", "right"), ("font-weight", "normal"), ("font-style", "italic"),
          ("font-family", "Verdana"), ("font-size", "24px"), ("color", "red"),
          ("text-decoration", "underline")]⟩
      (by decide) (by decide) (by decide) (by decide) (by decide)
      (nothingToMigrate_of_containersClean referencePlatform editedShape
        (containersClean_of_all editedShape (by decide)) 2 _)
      (fun _ _ hstyle _ => hstyle)
      [fun _ => [], fun _ => [("color", "blue")], fun _ => [("text-align", "left")]]).2).trans
      (by decide)⟩

/-- The edit-then-save case: a box that reads weight bold from its style text
and was set to normal by `setFontWeightOnDiv` reads normal before export and
normal after a save/load cycle, and the exported style text says so. -/
theorem saveLoadCycle_after_setFontWeightOnDiv :
    getFontWeightFromDiv referencePlatform (styledShape.toDocument.elem? 2) = "bold" ∧
    getFontWeightFromDiv referencePlatform
      ((styledShape.toDocument.applySetter 2 (fun box => setFontWeightOnDiv box "normal")).elem? 2)
      = "normal" ∧
    ((exportMarkup referencePlatform
      (styledShape.toDocument.applySetter 2 (fun box => setFontWeightOnDiv box "normal")))[2]?).map
      (fun m => m.attributes.lookup "style")
      = some (some "text-align: center; font-weight: normal; font-style: italic") ∧
    getFontWeightFromDiv referencePlatform
      ((saveLoadCycle referencePlatform (fun _ => [])
        (styledShape.toDocument.applySetter 2 (fun box => setFontWeightOnDiv box "normal"))).elem? 2)
      = "normal" := by
  decide

/-- The second scenario of section 8: after loading a text container that
carries the legacy attributes font-weight bold and text-anchor end, with a box
without style text, the box reads weight bold and alignment right. -/
theorem loadMarkup_legacyScenario :
    getFontWeightFromDiv referencePlatform
      ((loadMarkup referencePlatform (fun _ => []) legacyScenarioMarkup).elem? 2) = "bold" ∧
    getTextAlignFromDiv referencePlatform
      ((loadMarkup referencePlatform (fun _ => []) legacyScenarioMarkup).elem? 2) = "right" := by
  decide

/-! ## Attribute/style exclusivity -/

/-- An exported element: the tag, the attributes export writes, the descendants. -/
theorem getElem?_exportMarkup (P : Platform) (doc : Document) (r : NodeRef) :
    (exportMarkup P doc)[r]? =
      (doc[r]?).map (fun n =>
        ⟨n.elem.tagName, exportedAttributes P doc r n.elem, n.descendantCount⟩) := by
  unfold exportMarkup
  rw [List.getElem?_map, List.getElem?_enum]
  cases doc[r]? <;> rfl

/-- Whether an element carries a presentational attribute does not depend on
its style text. -/
theorem carriesNoPresentationalAttribute_filter (attributes : List (String × String)) :
    carriesNoPresentationalAttribute (attributes.filter (fun a => a.1 != "style"))
      = carriesNoPresentationalAttribute attributes := by
  unfold carriesNoPresentationalAttribute presentationalAttributes
  simp only [List.all_cons, List.all_nil,
    lookup_filter_of_ne attributes "style" "font-family" (by decide),
    lookup_filter_of_ne attributes "style" "font-size" (by decide),
    lookup_filter_of_ne attributes "style" "font-weight" (by decide),
    lookup_filter_of_ne attributes "style" "font-style" (by decide),
    lookup_filter_of_ne attributes "style" "fill" (by decide),
    lookup_filter_of_ne attributes "style" "text-anchor" (by decide),
    lookup_filter_of_ne attributes "style" "text-decoration" (by decide)]

/-- Cleanliness of the text containers depends on the tree only. -/
theorem containersClean_of_sameTree {d d' : Document} (h : SameTree d d')
    (hclean : ContainersClean d') : ContainersClean d := by
  intro r e he hsel
  obtain ⟨e', he', ht, ha⟩ := sameTree_elem? (sameTree_symm h) he
  have hsel' : textForeignObjectSelector e' = true := by
    rw [styleBlind_textForeignObjectSelector e' e ht ha]; exact hsel
  have hc := hclean r e' he' hsel'
  rw [← carriesNoPresentationalAttribute_filter] at hc ⊢
  rw [← ha]
  exact hc

/-- Cleanliness stated for the nodes of the document. -/
theorem containersClean_of_forall_mem (doc : Document)
    (h : ∀ n ∈ doc, textForeignObjectSelector n.elem = true →
      carriesNoPresentationalAttribute n.elem.attributes = true) : ContainersClean doc := by
  intro r e he hsel
  unfold Document.elem? at he
  cases hn : doc[r]? with
  | none => rw [hn] at he; simp at he
  | some n =>
    rw [hn] at he
    simp only [Option.map_some', Option.some.injEq] at he
    subst he
    exact h n (List.getElem?_mem hn) hsel

theorem forall_mem_of_containersClean (doc : Document) (hclean : ContainersClean doc) :
    ∀ n ∈ doc, textForeignObjectSelector n.elem = true →
      carriesNoPresentationalAttribute n.elem.attributes = true := by
  intro n hn hsel
  obtain ⟨r, hr⟩ := List.getElem?_of_mem hn
  exact hclean r n.elem (by simp [Document.elem?, hr]) hsel

/-- The text tool creates a container without presentational attributes. -/
theorem containersClean_createTextShape (doc : Document) (x y width height : String)
    (style : StyleDecl) (hclean : ContainersClean doc) :
    ContainersClean (createTextShape doc x y width height style) := by
  have hall := forall_mem_of_containersClean doc hclean
  apply containersClean_of_forall_mem
  intro n hn hsel
  unfold createTextShape at hn
  cases doc with
  | nil => simp at hn
  | cons root rest =>
    simp only [List.mem_cons, List.mem_append, List.mem_singleton, List.not_mem_nil,
      or_false] at hn
    rcases hn with (rfl | hn) | rfl | rfl
    · exact hall root (List.mem_cons_self _ _) hsel
    · exact hall n (List.mem_cons_of_mem _ hn) hsel
    · simp [carriesNoPresentationalAttribute, presentationalAttributes, lookup_cons_ite]
    · simp [textForeignObjectSelector] at hsel

/-- Parsed markup carries the attributes of the markup. -/
theorem containersClean_parseMarkup (detached : NodeRef → StyleDecl) (markup : Markup)
    (h : markup.containersClean = true) : ContainersClean (parseMarkup detached markup) := by
  intro r e he hsel
  unfold Document.elem? parseMarkup at he
  rw [List.getElem?_map, List.getElem?_enum] at he
  cases hm : markup[r]? with
  | none => rw [hm] at he; simp at he
  | some m =>
    rw [hm] at he
    simp only [Option.map_some', Option.some.injEq] at he
    subst he
    have := (List.all_eq_true.1 h) m (List.getElem?_mem hm)
    have hsel' : m.isTextContainer = true := hsel
    simpa [hsel'] using this

/-- A style command changes no tag, no attribute and not the tree. -/
theorem applySetter_sameShape (P : Platform) (doc : Document) (textDiv : NodeRef)
    (c : StyleCommand) : SameShape (doc.applySetter textDiv (c.run P)) doc := by
  unfold Document.applySetter
  apply SameShape.update
  intro e
  obtain ⟨v, hv⟩ := StyleCommand.run_some P c e
  rw [hv]
  exact ⟨rfl, rfl⟩

/-- Every step of a session that loads clean markup only keeps the text
containers without presentational attributes. -/
theorem run_containersClean (P : Platform) (doc : Document) (step : SessionStep)
    (hstep : step.loadsCleanMarkup = true) (hclean : ContainersClean doc) :
    ContainersClean (step.run P doc) := by
  cases step with
  | create x y width height style => exact containersClean_createTextShape doc x y width height style hclean
  | command textDiv c =>
    exact containersClean_of_sameTree (sameTree_of_sameShape (applySetter_sameShape P doc textDiv c))
      hclean
  | restore svgContent =>
    exact containersClean_of_sameTree
      (sameTree_of_sameShape (restoreTextDivStyles_sameShape P doc svgContent)) hclean
  | load detached markup =>
    exact containersClean_of_sameTree (loadMarkup_sameTree P detached markup)
      (containersClean_parseMarkup detached markup hstep)
  | saveLoad detached =>
    exact containersClean_of_sameTree (saveLoadCycle_sameTree P detached doc) hclean

theorem foldl_run_containersClean (P : Platform) (steps : List SessionStep)
    (hsteps : ∀ step ∈ steps, step.loadsCleanMarkup = true) (doc : Document)
    (hclean : ContainersClean doc) : ContainersClean (steps.foldl (SessionStep.run P) doc) := by
  induction steps generalizing doc with
  | nil => exact hclean
  | cons step rest ih =>
    rw [List.foldl_cons]
    exact ih (fun s hs => hsteps s (List.mem_cons_of_mem _ hs)) _
      (run_containersClean P doc step (hsteps step (List.mem_cons_self _ _)) hclean)

/-- The text containers of the export of a clean drawing are clean. -/
theorem exportMarkup_clean (P : Platform) (doc : Document) (hclean : ContainersClean doc)
    (m : MarkupNode) (hm : m ∈ exportMarkup P doc) (hcontainer : m.isTextContainer = true) :
    carriesNoPresentationalAttribute m.attributes = true := by
  obtain ⟨r, hr⟩ := List.getElem?_of_mem hm
  rw [getElem?_exportMarkup] at hr
  cases hn : doc[r]? with
  | none => rw [hn] at hr; simp at hr
  | some n =>
    rw [hn] at hr
    simp only [Option.map_some', Option.some.injEq] at hr
    subst hr
    have hfilter := filter_exportedAttributes P doc r n.elem
    have hsel : textForeignObjectSelector n.elem = true := by
      rw [← styleBlind_textForeignObjectSelector
        ⟨n.elem.tagName, exportedAttributes P doc r n.elem, []⟩ n.elem rfl hfilter]
      exact hcontainer
    have hc := hclean r n.elem (by simp [Document.elem?, hn]) hsel
    rw [← carriesNoPresentationalAttribute_filter] at hc ⊢
    rw [hfilter]
    exact hc

/-- C6 as stated fails for a container that was loaded with legacy attributes:
the import path migrates the facts onto the box and leaves the container as it
is, and export writes every attribute the container carries.  Here the markup of the
repository's export test is loaded and exported; the exported text container
carries font-weight, font-size and text-anchor, as that test expects. -/
theorem exported_legacy_container_counterexample :
    ((exportMarkup referencePlatform
        (loadMarkup referencePlatform (fun _ => []) legacyMarkup))[2]?).map
      (fun m => (m.tagName, m.isTextContainer, m.attributes.lookup "font-weight",
        m.attributes.lookup "font-size", m.attributes.lookup "text-anchor"))
      = some ("foreignObject", true, some "bold", some "22", some "start") ∧
    legacyMarkup.containersClean = false := by
  decide

/-- C6, amended: attribute/style exclusivity.  Take any drawing that a session
produces from the empty drawing by creating styled-box text shapes, style
commands of the accessor layer, restoration passes, save/load cycles and loads
of markup, provided every markup that is loaded has no presentational style
attribute (font-family, font-size, font-weight, font-style, fill, text-anchor,
text-decoration) on a text container.  Then no text container of the exported
markup carries any of these attribute names, and the style text exported for
the embedded box of every text container is the text of the live style
declaration of the box (no style attribute when that text is empty). -/
theorem exported_containers_clean (P : Platform) (steps : List SessionStep)
    (hsteps : ∀ step ∈ steps, step.loadsCleanMarkup = true) :
    (∀ m ∈ exportMarkup P (steps.foldl (SessionStep.run P) emptyDrawing),
      m.isTextContainer = true →
      ∀ name ∈ presentationalAttributes, m.attributes.lookup name = none) ∧
    (∀ textDiv ∈ (steps.foldl (SessionStep.run P) emptyDrawing).textDivs 0, ∀ box,
      (steps.foldl (SessionStep.run P) emptyDrawing).elem? textDiv = some box →
      ((exportMarkup P (steps.foldl (SessionStep.run P) emptyDrawing))[textDiv]?).map
          (fun m => m.attributes.lookup "style")
        = some (if P.cssText box.style = "" then none else some (P.cssText box.style))) := by
  have hclean : ContainersClean (steps.foldl (SessionStep.run P) emptyDrawing) :=
    foldl_run_containersClean P steps hsteps emptyDrawing (containersClean_of_all _ (by decide))
  constructor
  · intro m hm hcontainer name hname
    have hc := exportMarkup_clean P _ hclean m hm hcontainer
    unfold carriesNoPresentationalAttribute at hc
    have := (List.all_eq_true.1 hc) name hname
    simpa using this
  · intro textDiv hmem box hbox
    rw [getElem?_exportMarkup]
    unfold Document.elem? at hbox
    cases hn : (steps.foldl (SessionStep.run P) emptyDrawing)[textDiv]? with
    | none => rw [hn] at hbox; simp at hbox
    | some n =>
      rw [hn] at hbox
      simp only [Option.map_some', Option.some.injEq] at hbox
      subst hbox
      simp only [Option.map_some', exportedAttributes, if_pos hmem, lookup_withStyleText]

/-- C6, amended, on a session after the repository's encoding test: the
exported container of the created shape is written with its type tag and its
position only, so without font-weight, and the style text exported for its box
carries the three facts that were set. -/
theorem exported_containers_clean_witness :
    (exportMarkup referencePlatform
        (encodingSession.foldl (SessionStep.run referencePlatform) emptyDrawing))[4]?
      = some ⟨"foreignObject", [("se:type", "text"), ("x", "200"), ("y", "150"),
          ("width", "200"), ("height", "50")], 1⟩ ∧
    List.lookup "font-weight" [("se:type", "text"), ("x", "200"), ("y", "150"),
      ("width", "200"), ("height", "50")] = none ∧
    ((exportMarkup referencePlatform
        (encodingSession.foldl (SessionStep.run referencePlatform) emptyDrawing))[5]?).map
      (fun m => m.attributes.lookup "style")
      = some (some "font-weight: bold; font-style: italic; text-align: left") :=
  ⟨by decide,
    (exported_containers_clean referencePlatform encodingSession (by decide)).1
      ⟨"foreignObject", [("se:type", "text"), ("x", "200"), ("y", "150"),
          ("width", "200"), ("height", "50")], 1⟩ (by decide) (by decide) "font-weight" (by decide),
    ((exported_containers_clean referencePlatform encodingSession (by decide)).2 5 (by decide)
      ⟨"div", [("style", "font-weight: bold; font-style: italic; text-align: left")],
        [("font-weight", "bold"), ("font-style", "italic"), ("text-align", "left")]⟩
      (by decide)).trans (by decide)⟩

end SvgEdit
